import Mathlib

/-! # Synaptics RMI transports (HID and PS/2)

A shallow embedding of `plugins/synaptics-rmi/fu-synaptics-rmi-hid-device.c` and
`plugins/synaptics-rmi/fu-synaptics-rmi-ps2-device.c`.

Bytes and machine integers are natural numbers; a narrowing conversion of the C code
(`guint8`, `guint16`, `guint`) is an explicit `%`.  The character device behind a
transport is a value: what was handed to it so far and what its next calls will
answer.  Delays (`fu_device_sleep`) and log output do not change that value and are
left out.
-/

namespace SynapticsRmi

/-! ## Errors and results -/

/-- Error kinds of the `FWUPD_ERROR` domain that the transports raise, match or pass on. -/
inductive FwupdError where
  | internal
  | timedOut
  | notSupported
  | invalidData
  | invalidFile
  | permissionDenied
  | read
  | write
  | notFound
  deriving DecidableEq, Repr

/-- Outcome of a fallible call: the C return value together with the kind of `GError`. -/
inductive Res (α : Type) where
  | ok (a : α)
  | error (e : FwupdError)
  deriving DecidableEq, Repr

/-- Type `FuSynapticsRmiDeviceFlags`: the bits `ALLOW_FAILURE` and `FORCE` (`NONE` is neither). -/
structure RmiFlags where
  allowFailure : Bool
  force : Bool
  deriving DecidableEq, Repr

/-- Flag `FU_SYNAPTICS_RMI_DEVICE_FLAG_NONE`. -/
def RmiFlags.none : RmiFlags := ⟨false, false⟩

/-- Flag `FU_SYNAPTICS_RMI_DEVICE_FLAG_ALLOW_FAILURE`. -/
def RmiFlags.allow : RmiFlags := ⟨true, false⟩

/-- Flag `FU_SYNAPTICS_RMI_DEVICE_FLAG_FORCE`. -/
def RmiFlags.forced : RmiFlags := ⟨false, true⟩

/-! ## HID transport: constants -/

def RMI_WRITE_REPORT_ID : Nat := 0x9
def RMI_READ_ADDR_REPORT_ID : Nat := 0xa
def RMI_READ_DATA_REPORT_ID : Nat := 0xb
def RMI_ATTN_REPORT_ID : Nat := 0xc
def RMI_SET_RMI_MODE_REPORT_ID : Nat := 0xf

def HID_RMI4_REPORT_ID : Nat := 0
def HID_RMI4_READ_INPUT_COUNT : Nat := 1
def HID_RMI4_READ_INPUT_DATA : Nat := 2

/-- Modelled from the spec: `RMI_DEVICE_PAGE_SELECT_REGISTER` is declared in the device
header, which is not among the sources; the page-select register sits at `0xFF`. -/
def RMI_DEVICE_PAGE_SELECT_REGISTER : Nat := 0xff

/-! ## HID transport: the hidraw channel -/

/-- The hidraw node seen through `FuIOChannel`: `written` holds the frames handed to the
channel, oldest first; `writeErrs` the outcome of the coming writes (`none`, or an
exhausted list, is success); `inputs` the outcome of the coming reads, one element for
each call. -/
structure HidChannel where
  written : List (List Nat)
  writeErrs : List (Option FwupdError)
  inputs : List (Res (List Nat))
  deriving DecidableEq, Repr

/-- Modelled from the spec: `fu_io_channel_write_byte_array` lives in the plugin library,
which is not among the sources.  The frame is handed over as one write; the call
reports success or the error kind of the channel. -/
def fu_io_channel_write_byte_array (frame : List Nat) (c : HidChannel) :
    Res Unit × HidChannel :=
  let c1 : HidChannel :=
    { c with written := c.written ++ [frame], writeErrs := c.writeErrs.tail }
  match c.writeErrs.head? with
  | some (some e) => (.error e, c1)
  | _ => (.ok (), c1)

/-- Modelled from the spec: `fu_io_channel_read_byte_array` lives in the plugin library,
which is not among the sources.  A single-shot read yields the next input report
whole, or an error kind; with nothing pending the timeout expires (`TIMED_OUT`). -/
def fu_io_channel_read_byte_array (c : HidChannel) : Res (List Nat) × HidChannel :=
  match c.inputs with
  | [] => (.error .timedOut, c)
  | r :: rest => (r, { c with inputs := rest })

/-- Modelled from the spec: `fu_byte_array_append_uint16` with `G_LITTLE_ENDIAN` lives in
the plugin library; the value is narrowed to `guint16` and stored low byte first. -/
def fu_byte_array_append_uint16_le (buf : List Nat) (v : Nat) : List Nat :=
  buf ++ [(v % 65536) % 256, (v % 65536) / 256]

/-- The padding loop `for (j = buf->len; j < 21; j++) append(0x0)`. -/
def padTo21 (buf : List Nat) : List Nat :=
  buf ++ List.replicate (21 - buf.length) 0

/-! ## HID transport: read -/

/-- The body of the read loop once the channel has delivered `res` (lines 114-158):
what becomes of the accumulated buffer `buf`. -/
def fu_synaptics_rmi_hid_device_read_report (buf res : List Nat) : Res (List Nat) :=
  if res.length = 0 then .error .internal
  else if res.getD HID_RMI4_REPORT_ID 0 ≠ RMI_READ_DATA_REPORT_ID then .ok buf
  else if res.length < HID_RMI4_READ_INPUT_DATA then .error .internal
  else
    let input_count_sz := res.getD HID_RMI4_READ_INPUT_COUNT 0 % 256
    if input_count_sz = 0 then .error .internal
    else if input_count_sz + HID_RMI4_READ_INPUT_DATA > res.length then .error .internal
    else .ok (buf ++ (res.drop HID_RMI4_READ_INPUT_DATA).take input_count_sz)

/-- The loop `while (buf->len < req_sz)` of `fu_synaptics_rmi_hid_device_read`; the
second list is the queue of pending reads of the channel `c`, of which every
iteration takes one (`fu_io_channel_read_byte_array`). -/
def fu_synaptics_rmi_hid_device_read_loop (req_sz : Nat) (c : HidChannel) :
    List Nat → List (Res (List Nat)) → Res (List Nat) × HidChannel
  | buf, [] =>
    if buf.length < req_sz then (.error .timedOut, { c with inputs := [] })
    else (.ok buf, { c with inputs := [] })
  | buf, r :: rest =>
    if buf.length < req_sz then
      match r with
      | .error e => (.error e, { c with inputs := rest })
      | .ok res =>
        match fu_synaptics_rmi_hid_device_read_report buf res with
        | .error e => (.error e, { c with inputs := rest })
        | .ok buf1 => fu_synaptics_rmi_hid_device_read_loop req_sz c buf1 rest
    else (.ok buf, { c with inputs := r :: rest })

/-- The request frame of a read: report id, the old one-byte count, address, count. -/
def fu_synaptics_rmi_hid_device_read_request (addr req_sz : Nat) : List Nat :=
  padTo21
    (fu_byte_array_append_uint16_le
      (fu_byte_array_append_uint16_le [RMI_READ_ADDR_REPORT_ID, 0x0] addr) req_sz)

/-- Function `fu_synaptics_rmi_hid_device_read`. -/
def fu_synaptics_rmi_hid_device_read (addr req_sz : Nat) (c : HidChannel) :
    Res (List Nat) × HidChannel :=
  if req_sz > 0xffff then (.error .internal, c)
  else
    match fu_io_channel_write_byte_array
        (fu_synaptics_rmi_hid_device_read_request addr req_sz) c with
    | (.error e, c1) => (.error e, c1)
    | (.ok (), c1) => fu_synaptics_rmi_hid_device_read_loop req_sz c1 [] c1.inputs

/-- Function `fu_synaptics_rmi_hid_device_read_packet_register`. -/
def fu_synaptics_rmi_hid_device_read_packet_register (addr req_sz : Nat) (c : HidChannel) :
    Res (List Nat) × HidChannel :=
  fu_synaptics_rmi_hid_device_read addr req_sz c

/-! ## HID transport: write and page select -/

/-- The frame of a write: report id, length (a `guint8`), address, data, padding. -/
def fu_synaptics_rmi_hid_device_write_frame (addr : Nat) (req : Option (List Nat)) :
    List Nat :=
  let len := match req with
    | some data => data.length % 256
    | none => 0x0
  let buf := fu_byte_array_append_uint16_le [RMI_WRITE_REPORT_ID, len] addr
  let buf := match req with
    | some data => buf ++ data
    | none => buf
  padTo21 buf

/-- Function `fu_synaptics_rmi_hid_device_write`; `req` is `none` for a `NULL` byte array. -/
def fu_synaptics_rmi_hid_device_write (addr : Nat) (req : Option (List Nat))
    (_flags : RmiFlags) (c : HidChannel) : Res Unit × HidChannel :=
  let tooLong := match req with
    | some data => decide (data.length > 0xff)
    | none => false
  if tooLong then (.error .internal, c)
  else fu_io_channel_write_byte_array (fu_synaptics_rmi_hid_device_write_frame addr req) c

/-- Modelled from the spec: the dispatcher `fu_synaptics_rmi_device_write` of the base
class is not among the sources; on a HID device it hands the call to the write of the
transport. -/
def fu_synaptics_rmi_device_write (addr : Nat) (req : Option (List Nat)) (flags : RmiFlags)
    (c : HidChannel) : Res Unit × HidChannel :=
  fu_synaptics_rmi_hid_device_write addr req flags c

/-- Function `fu_synaptics_rmi_hid_device_set_page`; `page` is a `guint8`. -/
def fu_synaptics_rmi_hid_device_set_page (page : Nat) (c : HidChannel) :
    Res Unit × HidChannel :=
  fu_synaptics_rmi_device_write RMI_DEVICE_PAGE_SELECT_REGISTER (some [page % 256])
    RmiFlags.none c

/-- The page carried by a frame when the frame is a page-select write, that is a write
report of one byte to the page-select register. -/
def pageSelectOf (frame : List Nat) : Option Nat :=
  if frame.take 4 = [RMI_WRITE_REPORT_ID, 1, RMI_DEVICE_PAGE_SELECT_REGISTER, 0] then frame.get? 4
  else none

/-- The page of the last page-select write among `frames` (oldest first). -/
def lastPageSelect (frames : List (List Nat)) : Option Nat :=
  (frames.filterMap pageSelectOf).getLast?

/-- The payload slice `report[2 .. 2 + report[1])` of an input report. -/
def reportPayload (r : List Nat) : List Nat :=
  (r.drop 2).take (r.getD 1 0 % 256)

/-- An input report is a data report when its byte 0 is `0x0B`. -/
def isDataReport (r : List Nat) : Bool :=
  decide (r.getD 0 0 = 0x0b)

/-! ## PS/2 transport: constants -/

/-- Modelled from the spec: the enumerators of `fu-synaptics-rmi-struct.h` are generated
and not among the sources; the port answers `ACK=0xFA, RESEND=0xFE, ERROR=0xFC`. -/
def FU_RMI_DATA_PORT_STATUS_ACKNOWLEDGE : Nat := 0xfa

/-- Modelled from the spec: see `FU_RMI_DATA_PORT_STATUS_ACKNOWLEDGE`. -/
def FU_RMI_DATA_PORT_STATUS_ERROR : Nat := 0xfc

/-- Modelled from the spec: see `FU_RMI_DATA_PORT_STATUS_ACKNOWLEDGE`. -/
def FU_RMI_DATA_PORT_STATUS_RESEND : Nat := 0xfe

/-- Modelled from the spec: the host commands `IBM_READ_SECONDARY_ID=0xE1`,
`SET_SCALING_1_TO_1=0xE6`, `SET_SCALING_2_TO_1=0xE7`, `SET_RESOLUTION=0xE8`,
`STATUS_REQUEST=0xE9`, `SET_SAMPLE_RATE=0xF3`, `DISABLE=0xF5`, `RESET=0xFF` of the
generated header. -/
def FU_RMI_EDP_COMMAND_AUX_IBM_READ_SECONDARY_ID : Nat := 0xe1

/-- Modelled from the spec: see `FU_RMI_EDP_COMMAND_AUX_IBM_READ_SECONDARY_ID`. -/
def FU_RMI_EDP_COMMAND_AUX_SET_SCALING1_TO1 : Nat := 0xe6

/-- Modelled from the spec: see `FU_RMI_EDP_COMMAND_AUX_IBM_READ_SECONDARY_ID`. -/
def FU_RMI_EDP_COMMAND_AUX_SET_SCALING2_TO1 : Nat := 0xe7

/-- Modelled from the spec: see `FU_RMI_EDP_COMMAND_AUX_IBM_READ_SECONDARY_ID`. -/
def FU_RMI_EDP_COMMAND_AUX_SET_RESOLUTION : Nat := 0xe8

/-- Modelled from the spec: see `FU_RMI_EDP_COMMAND_AUX_IBM_READ_SECONDARY_ID`. -/
def FU_RMI_EDP_COMMAND_AUX_STATUS_REQUEST : Nat := 0xe9

/-- Modelled from the spec: see `FU_RMI_EDP_COMMAND_AUX_IBM_READ_SECONDARY_ID`. -/
def FU_RMI_EDP_COMMAND_AUX_SET_SAMPLE_RATE : Nat := 0xf3

/-- Modelled from the spec: see `FU_RMI_EDP_COMMAND_AUX_IBM_READ_SECONDARY_ID`. -/
def FU_RMI_EDP_COMMAND_AUX_DISABLE : Nat := 0xf5

/-- Modelled from the spec: see `FU_RMI_EDP_COMMAND_AUX_IBM_READ_SECONDARY_ID`. -/
def FU_RMI_EDP_COMMAND_AUX_RESET : Nat := 0xff

/-- The byte-valued enumerators of the generated header and the register address of the
device header whose values neither the sources nor the specification give; the
transport is stated for any choice of them. -/
structure RmiStruct where
  /-- Enumerator `FU_RMI_EDP_COMMAND_AUX_FULL_RMI_BACK_DOOR` -/
  FULL_RMI_BACK_DOOR : Nat
  /-- Enumerator `FU_RMI_SET_SAMPLE_RATE_SET_MODE_BYTE2` -/
  SET_MODE_BYTE2 : Nat
  /-- Enumerator `FU_RMI_STATUS_REQUEST_IDENTIFY_SYNAPTICS` -/
  IDENTIFY_SYNAPTICS : Nat
  /-- Enumerator `FU_RMI_STATUS_REQUEST_READ_CAPABILITIES` -/
  READ_CAPABILITIES : Nat
  /-- Enumerator `FU_RMI_STATUS_REQUEST_READ_EXTRA_CAPABILITIES2` -/
  READ_EXTRA_CAPABILITIES2 : Nat
  /-- Enumerator `FU_RMI_DEVICE_RESPONSE_TOUCH_PAD` -/
  TOUCH_PAD : Nat
  /-- Enumerator `FU_RMI_STICK_DEVICE_TYPE_JYT_SYNA` -/
  JYT_SYNA : Nat
  /-- Enumerator `FU_RMI_STICK_DEVICE_TYPE_SYNAPTICS` -/
  SYNAPTICS : Nat
  /-- Enumerator `RMI_DEVICE_BUS_SELECT_REGISTER` -/
  BUS_SELECT_REGISTER : Nat
  deriving DecidableEq, Repr

/-- One choice of the enumerators, used where a worked example needs concrete bytes. -/
def sampleStruct : RmiStruct :=
  { FULL_RMI_BACK_DOOR := 0x7f, SET_MODE_BYTE2 := 0x14, IDENTIFY_SYNAPTICS := 0x00,
    READ_CAPABILITIES := 0x02, READ_EXTRA_CAPABILITIES2 := 0x0c, TOUCH_PAD := 0x47,
    JYT_SYNA := 0x05, SYNAPTICS := 0x06, BUS_SELECT_REGISTER := 0xfe }

/-! ## PS/2 transport: the serio channel and the device state -/

/-- The serio node seen through `FuIOChannel`, and the mode bit of the base class:
`tx` holds the bytes handed to the channel, oldest first; `txErrs` the outcome of the
coming writes (`none`, or an exhausted list, is success); `rx` the outcome of the coming
one-byte reads, one element for each call; `iepmode` is the flag behind
`fu_synaptics_rmi_device_set_iepmode`. -/
structure Ps2State where
  tx : List Nat
  txErrs : List (Option FwupdError)
  rx : List (Res Nat)
  iepmode : Bool
  deriving DecidableEq, Repr

/-- Outcome of a PS/2 operation: the result with the state it leaves, or `none` when a
loop that waits on the device was cut off by its iteration budget. -/
abbrev Ps2Out (α : Type) := Option (Res α × Ps2State)

/-- The C idiom `if (!first(...)) return FALSE;` followed by the rest: an error of the
first call is passed on with the state it left. -/
def Ps2Out.andThen {α β : Type} (r : Ps2Out α) (k : α → Ps2State → Ps2Out β) : Ps2Out β :=
  match r with
  | none => none
  | some (.error e, s) => some (.error e, s)
  | some (.ok a, s) => k a s

/-- Modelled from the spec: `fu_io_channel_write_raw` lives in the plugin library, which
is not among the sources.  One byte is handed to the channel; the call reports success
or the error kind of the channel. -/
def fu_io_channel_write_raw (b : Nat) (s : Ps2State) : Res Unit × Ps2State :=
  let s1 : Ps2State := { s with tx := s.tx ++ [b], txErrs := s.txErrs.tail }
  match s.txErrs.head? with
  | some (some e) => (.error e, s1)
  | _ => (.ok (), s1)

/-- Modelled from the spec: `fu_io_channel_read_raw` lives in the plugin library, which is
not among the sources.  A one-byte read yields the next byte or an error kind; with
nothing pending the timeout expires (`TIMED_OUT`). -/
def fu_io_channel_read_raw (s : Ps2State) : Res Nat × Ps2State :=
  match s.rx with
  | [] => (.error .timedOut, s)
  | r :: rest => (r, { s with rx := rest })

/-! ## PS/2 transport: bytes and acknowledges -/

/-- The loop `for (guint i = 0; i < 60; i++)` of `read_ack`, with `n` iterations left. -/
def fu_synaptics_rmi_ps2_device_read_ack_loop : Nat → Ps2State → Res Nat × Ps2State
  | 0, s => (.error .timedOut, s)
  | n + 1, s =>
    match fu_io_channel_read_raw s with
    | (.error e, s1) =>
      if e = .timedOut then fu_synaptics_rmi_ps2_device_read_ack_loop n s1
      else (.error e, s1)
    | (.ok b, s1) => (.ok b, s1)

/-- Function `fu_synaptics_rmi_ps2_device_read_ack`. -/
def fu_synaptics_rmi_ps2_device_read_ack (s : Ps2State) : Res Nat × Ps2State :=
  fu_synaptics_rmi_ps2_device_read_ack_loop 60 s

/-- Function `fu_synaptics_rmi_ps2_device_read_byte`; every caller passes `timeout > 0`. -/
def fu_synaptics_rmi_ps2_device_read_byte (_timeout : Nat) (s : Ps2State) :
    Res Nat × Ps2State :=
  fu_io_channel_read_raw s

/-- How the inner `for (;;)` of `write_byte` ends: by a `return`, or by a `break` that
leaves `do_write` as given. -/
inductive AckExit where
  | returned (r : Res Unit)
  | broke (do_write : Bool)
  deriving DecidableEq, Repr

/-- The inner loop `for (;;)` of `write_byte` in the outer iteration `i`; `fuel` bounds
the number of acknowledges read. -/
def fu_synaptics_rmi_ps2_device_write_byte_ack_loop (i : Nat) :
    Nat → Ps2State → Option (AckExit × Ps2State)
  | 0, _ => none
  | fuel + 1, s =>
    match fu_synaptics_rmi_ps2_device_read_ack s with
    | (.error e, s1) =>
      if i > 3 then some (.returned (.error e), s1)
      else some (.broke false, s1)
    | (.ok res, s1) =>
      if res = FU_RMI_DATA_PORT_STATUS_ACKNOWLEDGE then some (.returned (.ok ()), s1)
      else if res = FU_RMI_DATA_PORT_STATUS_RESEND then some (.broke true, s1)
      else if res = FU_RMI_DATA_PORT_STATUS_ERROR then some (.broke true, s1)
      else fu_synaptics_rmi_ps2_device_write_byte_ack_loop i fuel s1

/-- The outer loop `for (guint i = 0;; i++)` of `write_byte`; `fuel` bounds its
iterations.  Every acknowledge read takes one element of `rx` or finds it empty, so
the inner loop is given one more than the length of `rx`. -/
def fu_synaptics_rmi_ps2_device_write_byte_loop (buf : Nat) (flags : RmiFlags) :
    Nat → Nat → Bool → Ps2State → Ps2Out Unit
  | 0, _, _, _ => none
  | fuel + 1, i, do_write, s =>
    match (if do_write then fu_io_channel_write_raw buf s else (.ok (), s)) with
    | (.error e, s1) => some (.error e, s1)
    | (.ok (), s1) =>
      match fu_synaptics_rmi_ps2_device_write_byte_ack_loop i (s1.rx.length + 1) s1 with
      | none => none
      | some (.returned r, s2) => some (r, s2)
      | some (.broke do_write1, s2) =>
        if i ≥ 3 then
          if flags.allowFailure then some (.ok (), s2)
          else some (.error .notSupported, s2)
        else fu_synaptics_rmi_ps2_device_write_byte_loop buf flags fuel (i + 1) do_write1 s2

/-- Function `fu_synaptics_rmi_ps2_device_write_byte`; `buf` is a byte and every caller passes
`timeout > 0`.  Four iterations of the outer loop are the most it can make. -/
def fu_synaptics_rmi_ps2_device_write_byte (buf : Nat) (_timeout : Nat) (flags : RmiFlags)
    (s : Ps2State) : Ps2Out Unit :=
  fu_synaptics_rmi_ps2_device_write_byte_loop buf flags 4 0 true s

/-! ## PS/2 transport: command sequences -/

/-- The first loop of `set_resolution_sequence`, `for (i = send_e6s ? 2 : 1; i > 0; --i)`,
with `n` iterations left. -/
def fu_synaptics_rmi_ps2_device_set_resolution_sequence_e6 : Nat → Ps2State → Ps2Out Unit
  | 0, s => some (.ok (), s)
  | n + 1, s =>
    (fu_synaptics_rmi_ps2_device_write_byte FU_RMI_EDP_COMMAND_AUX_SET_SCALING1_TO1 50
      RmiFlags.none s).andThen fun _ s1 =>
    fu_synaptics_rmi_ps2_device_set_resolution_sequence_e6 n s1

/-- The second loop of `set_resolution_sequence`, `for (i = 3; i >= 0; --i)`, with
`n = i + 1`. -/
def fu_synaptics_rmi_ps2_device_set_resolution_sequence_args (arg : Nat) :
    Nat → Ps2State → Ps2Out Unit
  | 0, s => some (.ok (), s)
  | i + 1, s =>
    (fu_synaptics_rmi_ps2_device_write_byte FU_RMI_EDP_COMMAND_AUX_SET_RESOLUTION 50
      RmiFlags.none s).andThen fun _ s1 =>
    (fu_synaptics_rmi_ps2_device_write_byte ((arg >>> (i * 2)) &&& 0x3) 50
      RmiFlags.none s1).andThen fun _ s2 =>
    fu_synaptics_rmi_ps2_device_set_resolution_sequence_args arg i s2

/-- Function `fu_synaptics_rmi_ps2_device_set_resolution_sequence`. -/
def fu_synaptics_rmi_ps2_device_set_resolution_sequence (arg : Nat) (send_e6s : Bool)
    (s : Ps2State) : Ps2Out Unit :=
  (fu_synaptics_rmi_ps2_device_set_resolution_sequence_e6 (if send_e6s then 2 else 1)
    s).andThen fun _ s1 =>
  fu_synaptics_rmi_ps2_device_set_resolution_sequence_args arg 4 s1

/-- The loop `for (guint i = 0;; i++)` of `sample_rate`; `fuel` bounds its iterations. -/
def fu_synaptics_rmi_ps2_device_sample_rate_loop (param arg : Nat) :
    Nat → Nat → Bool → Ps2State → Ps2Out Unit
  | 0, _, _, _ => none
  | fuel + 1, i, send_e6s, s =>
    let send_e6s1 := if i > 0 then true else send_e6s
    match (fu_synaptics_rmi_ps2_device_set_resolution_sequence arg send_e6s1 s).andThen
        (fun _ s1 =>
          (fu_synaptics_rmi_ps2_device_write_byte FU_RMI_EDP_COMMAND_AUX_SET_SAMPLE_RATE 50
            RmiFlags.none s1).andThen fun _ s2 =>
          fu_synaptics_rmi_ps2_device_write_byte param 50 RmiFlags.none s2) with
    | none => none
    | some (.error e, s3) =>
      if i > 3 then some (.error e, s3)
      else fu_synaptics_rmi_ps2_device_sample_rate_loop param arg fuel (i + 1) send_e6s1 s3
    | some (.ok (), s3) => some (.ok (), s3)

/-- Function `fu_synaptics_rmi_ps2_device_sample_rate`.  Five iterations of the loop are the most
it can make. -/
def fu_synaptics_rmi_ps2_device_sample_rate (param arg : Nat) (send_e6s : Bool)
    (s : Ps2State) : Ps2Out Unit :=
  fu_synaptics_rmi_ps2_device_sample_rate_loop param arg 5 0 send_e6s s

/-- Function `fu_synaptics_rmi_ps2_device_enter_iep_mode`, the hook of the transport. -/
def fu_synaptics_rmi_ps2_device_enter_iep_mode (K : RmiStruct) (s : Ps2State) : Ps2Out Unit :=
  (fu_synaptics_rmi_ps2_device_write_byte FU_RMI_EDP_COMMAND_AUX_DISABLE 50
    RmiFlags.none s).andThen fun _ s1 =>
  fu_synaptics_rmi_ps2_device_sample_rate K.SET_MODE_BYTE2 K.FULL_RMI_BACK_DOOR false s1

/-- Modelled from the spec: the dispatcher `fu_synaptics_rmi_device_enter_iep_mode` of the
base class is not among the sources.  If `iepmode` is set and `FORCE` is not given it
returns success; else it runs the hook of the transport and on success sets
`iepmode`. -/
def fu_synaptics_rmi_device_enter_iep_mode (K : RmiStruct) (flags : RmiFlags)
    (s : Ps2State) : Ps2Out Unit :=
  if s.iepmode && !flags.force then some (.ok (), s)
  else
    (fu_synaptics_rmi_ps2_device_enter_iep_mode K s).andThen fun _ s1 =>
    some (.ok (), { s1 with iepmode := true })

/-! ## PS/2 transport: register access -/

/-- The loop `for (guint8 i = 0; i < buflen; i++)` of `write_rmi_register` over the
bytes still to send. -/
def fu_synaptics_rmi_ps2_device_write_rmi_register_data (timeout : Nat) (flags : RmiFlags) :
    List Nat → Ps2State → Ps2Out Unit
  | [], s => some (.ok (), s)
  | b :: rest, s =>
    (fu_synaptics_rmi_ps2_device_write_byte FU_RMI_EDP_COMMAND_AUX_SET_SAMPLE_RATE timeout
      flags s).andThen fun _ s1 =>
    (fu_synaptics_rmi_ps2_device_write_byte b timeout flags s1).andThen fun _ s2 =>
    fu_synaptics_rmi_ps2_device_write_rmi_register_data timeout flags rest s2

/-- Function `fu_synaptics_rmi_ps2_device_write_rmi_register`; `addr` and `buflen` are
`guint8` values, `buf` holds at least `buflen` bytes and every caller passes
`timeout > 0`. -/
def fu_synaptics_rmi_ps2_device_write_rmi_register (K : RmiStruct) (addr : Nat)
    (buf : List Nat) (buflen : Nat) (timeout : Nat) (flags : RmiFlags) (s : Ps2State) :
    Ps2Out Unit :=
  (fu_synaptics_rmi_device_enter_iep_mode K RmiFlags.none s).andThen fun _ s1 =>
  (fu_synaptics_rmi_ps2_device_write_byte FU_RMI_EDP_COMMAND_AUX_SET_SCALING2_TO1 timeout
    flags s1).andThen fun _ s2 =>
  (fu_synaptics_rmi_ps2_device_write_byte FU_RMI_EDP_COMMAND_AUX_SET_SAMPLE_RATE timeout
    flags s2).andThen fun _ s3 =>
  (fu_synaptics_rmi_ps2_device_write_byte addr timeout flags s3).andThen fun _ s4 =>
  fu_synaptics_rmi_ps2_device_write_rmi_register_data timeout flags (buf.take buflen) s4

/-- The loop `for (guint retries = 0;; retries++)` of `read_rmi_register`; `fuel` bounds
its iterations. -/
def fu_synaptics_rmi_ps2_device_read_rmi_register_loop (addr : Nat) :
    Nat → Nat → Ps2State → Ps2Out Nat
  | 0, _, _ => none
  | fuel + 1, retries, s =>
    (fu_synaptics_rmi_ps2_device_write_byte FU_RMI_EDP_COMMAND_AUX_SET_SCALING2_TO1 50
      RmiFlags.none s).andThen fun _ s1 =>
    (fu_synaptics_rmi_ps2_device_write_byte FU_RMI_EDP_COMMAND_AUX_SET_SAMPLE_RATE 50
      RmiFlags.none s1).andThen fun _ s2 =>
    (fu_synaptics_rmi_ps2_device_write_byte addr 50 RmiFlags.none s2).andThen fun _ s3 =>
    (fu_synaptics_rmi_ps2_device_write_byte FU_RMI_EDP_COMMAND_AUX_STATUS_REQUEST 50
      RmiFlags.none s3).andThen fun _ s4 =>
    match fu_synaptics_rmi_ps2_device_read_byte 10 s4 with
    | (.error e, s5) =>
      if retries > 2 then some (.error e, s5)
      else fu_synaptics_rmi_ps2_device_read_rmi_register_loop addr fuel (retries + 1 + 1) s5
    | (.ok b, s5) => some (.ok b, s5)

/-- Function `fu_synaptics_rmi_ps2_device_read_rmi_register`; `addr` is a `guint8` value.  The
counter `retries` goes 0, 2, 4, so three iterations are the most the loop can make. -/
def fu_synaptics_rmi_ps2_device_read_rmi_register (K : RmiStruct) (addr : Nat)
    (s : Ps2State) : Ps2Out Nat :=
  (fu_synaptics_rmi_device_enter_iep_mode K RmiFlags.none s).andThen fun _ s1 =>
  fu_synaptics_rmi_ps2_device_read_rmi_register_loop addr 3 0 s1

/-- The loop `for (guint i = 0; i < req_sz; ++i)` of `read_rmi_packet_register`, with
`n` bytes still to read. -/
def fu_synaptics_rmi_ps2_device_read_rmi_packet_register_bytes :
    Nat → List Nat → Ps2State → Ps2Out (List Nat)
  | 0, buf, s => some (.ok buf, s)
  | n + 1, buf, s =>
    match fu_synaptics_rmi_ps2_device_read_byte 10 s with
    | (.error e, s1) => some (.error e, s1)
    | (.ok tmp, s1) =>
      fu_synaptics_rmi_ps2_device_read_rmi_packet_register_bytes n (buf ++ [tmp]) s1

/-- Function `fu_synaptics_rmi_ps2_device_read_rmi_packet_register`; `addr` is a `guint8` value
and `req_sz` a `guint`. -/
def fu_synaptics_rmi_ps2_device_read_rmi_packet_register (K : RmiStruct) (addr req_sz : Nat)
    (s : Ps2State) : Ps2Out (List Nat) :=
  (fu_synaptics_rmi_device_enter_iep_mode K RmiFlags.none s).andThen fun _ s1 =>
  (fu_synaptics_rmi_ps2_device_write_byte FU_RMI_EDP_COMMAND_AUX_SET_SCALING2_TO1 50
    RmiFlags.none s1).andThen fun _ s2 =>
  (fu_synaptics_rmi_ps2_device_write_byte FU_RMI_EDP_COMMAND_AUX_SET_SAMPLE_RATE 50
    RmiFlags.none s2).andThen fun _ s3 =>
  (fu_synaptics_rmi_ps2_device_write_byte addr 50 RmiFlags.none s3).andThen fun _ s4 =>
  (fu_synaptics_rmi_ps2_device_write_byte FU_RMI_EDP_COMMAND_AUX_STATUS_REQUEST 50
    RmiFlags.none s4).andThen fun _ s5 =>
  fu_synaptics_rmi_ps2_device_read_rmi_packet_register_bytes req_sz [] s5

/-- Function `fu_synaptics_rmi_ps2_device_set_page`; `page` is a `guint8` value. -/
def fu_synaptics_rmi_ps2_device_set_page (K : RmiStruct) (page : Nat) (s : Ps2State) :
    Ps2Out Unit :=
  fu_synaptics_rmi_ps2_device_write_rmi_register K RMI_DEVICE_PAGE_SELECT_REGISTER [page] 1 20
    RmiFlags.none s

/-- Modelled from the spec: the dispatcher `fu_synaptics_rmi_device_set_page` of the base
class is not among the sources.  It issues the page select of the transport; the
specification does not require it to remember the page. -/
def fu_synaptics_rmi_device_set_page (K : RmiStruct) (page : Nat) (s : Ps2State) :
    Ps2Out Unit :=
  fu_synaptics_rmi_ps2_device_set_page K page s

/-! ## PS/2 transport: read and write

The three entry points call the dispatcher `fu_synaptics_rmi_device_set_page` of the base
class, which is not among the sources: they take it as the argument `set_page`. -/

/-- The inner loop `for (guint i = 0; i < req_sz; i++)` of `read`, with `n` registers
still to read and `i` the index of the next; stated for `req_sz < 2^32`, where the
counter does not wrap. -/
def fu_synaptics_rmi_ps2_device_read_registers (K : RmiStruct) (addr : Nat) :
    Nat → Nat → List Nat → Ps2State → Ps2Out (List Nat)
  | 0, _, buf, s => some (.ok buf, s)
  | n + 1, i, buf, s =>
    (fu_synaptics_rmi_ps2_device_read_rmi_register K (((addr &&& 0x00ff) + i) % 256)
      s).andThen fun tmp s1 =>
    fu_synaptics_rmi_ps2_device_read_registers K addr n (i + 1) (buf ++ [tmp]) s1

/-- The outer loop `for (guint retries = 0;; retries++)` of `read`; `fuel` bounds its
iterations. -/
def fu_synaptics_rmi_ps2_device_read_loop (K : RmiStruct) (addr req_sz : Nat) :
    Nat → Nat → Ps2State → Ps2Out (List Nat)
  | 0, _, _ => none
  | fuel + 1, retries, s =>
    (fu_synaptics_rmi_ps2_device_read_registers K addr req_sz 0 [] s).andThen fun buf s1 =>
    if buf.length ≠ req_sz then
      if retries > 2 then some (.error .invalidData, s1)
      else fu_synaptics_rmi_ps2_device_read_loop K addr req_sz fuel (retries + 1 + 1) s1
    else some (.ok buf, s1)

/-- Function `fu_synaptics_rmi_ps2_device_read`; `addr` is a `guint16`.  The counter `retries`
goes 0, 2, 4, so three iterations are the most the outer loop can make. -/
def fu_synaptics_rmi_ps2_device_read (K : RmiStruct) (set_page : Nat → Ps2State → Ps2Out Unit)
    (addr req_sz : Nat) (s : Ps2State) : Ps2Out (List Nat) :=
  (set_page ((addr % 65536) >>> 8) s).andThen fun _ s1 =>
  fu_synaptics_rmi_ps2_device_read_loop K addr req_sz 3 0 s1

/-- Function `fu_synaptics_rmi_ps2_device_read_packet_register`; the address narrows to `guint8`
and the size to `guint` at the call. -/
def fu_synaptics_rmi_ps2_device_read_packet_register (K : RmiStruct)
    (set_page : Nat → Ps2State → Ps2Out Unit) (addr req_sz : Nat) (s : Ps2State) :
    Ps2Out (List Nat) :=
  (set_page ((addr % 65536) >>> 8) s).andThen fun _ s1 =>
  fu_synaptics_rmi_ps2_device_read_rmi_packet_register K (addr % 256) (req_sz % 4294967296) s1

/-- Function `fu_synaptics_rmi_ps2_device_write`; the length of `req` narrows to `guint8` at the
call. -/
def fu_synaptics_rmi_ps2_device_write (K : RmiStruct) (set_page : Nat → Ps2State → Ps2Out Unit)
    (addr : Nat) (req : List Nat) (flags : RmiFlags) (s : Ps2State) : Ps2Out Unit :=
  (set_page ((addr % 65536) >>> 8) s).andThen fun _ s1 =>
  fu_synaptics_rmi_ps2_device_write_rmi_register K (addr &&& 0x00ff) req (req.length % 256) 1000
    flags s1

/-- The successive single-register reads of a PS/2 read, in the words of the
specification: starting in state `s` with index `i`, the bytes `bs` are obtained one
after the other, byte `j` by `read_rmi_register` at the in-page address
`((addr & 0xFF) + i + j) mod 256`, leaving the state `t`. -/
inductive RegisterReads (K : RmiStruct) (addr : Nat) :
    Nat → Ps2State → List Nat → Ps2State → Prop
  | done (i : Nat) (s : Ps2State) : RegisterReads K addr i s [] s
  | step (i : Nat) (s s1 t : Ps2State) (b : Nat) (bs : List Nat)
      (hread : fu_synaptics_rmi_ps2_device_read_rmi_register K (((addr &&& 0xff) + i) % 256) s =
        some (.ok b, s1))
      (hrest : RegisterReads K addr (i + 1) s1 bs t) : RegisterReads K addr i s (b :: bs) t

/-- Whatever an operation returns, the bytes handed to the channel before it began are
still the beginning of the log. -/
def TxGrows {α : Type} (s : Ps2State) (o : Ps2Out α) : Prop :=
  ∀ r t, o = some (r, t) → s.tx <+: t.tx

/-- An operation returns (with a result or an error) when no loop of its model ran out
of its iteration budget. -/
def Returns {α : Type} (o : Ps2Out α) : Prop :=
  o ≠ none

/-- Every coming write of the channel succeeds. -/
def WritesSucceed (s : Ps2State) : Prop :=
  ∀ e ∈ s.txErrs, e = none

/-! ## PS/2 transport: status request -/

/-- The first loop of `status_request`, `for (guint i = 0; i < 3; ++i)`, with `n`
iterations left: the command phase.  A failed try is logged and the next one made;
when none is left, `success` is still `FALSE` and the call fails with `INTERNAL`. -/
def fu_synaptics_rmi_ps2_device_status_request_command (ucArgument : Nat) :
    Nat → Ps2State → Ps2Out Unit
  | 0, s => some (.error .internal, s)
  | n + 1, s =>
    match (fu_synaptics_rmi_ps2_device_set_resolution_sequence ucArgument false s).andThen
        (fun _ s1 =>
          fu_synaptics_rmi_ps2_device_write_byte FU_RMI_EDP_COMMAND_AUX_STATUS_REQUEST 10
            RmiFlags.none s1) with
    | none => none
    | some (.error _, s2) => fu_synaptics_rmi_ps2_device_status_request_command ucArgument n s2
    | some (.ok (), s2) => some (.ok (), s2)

/-- The second loop of `status_request`, `for (gint i = 0; i < 3; ++i)`, with `n`
iterations left: every byte read is folded into the `guint32` behind `buf`.  The
value behind `buf` is returned beside the result, as it stands also after a failure. -/
def fu_synaptics_rmi_ps2_device_status_request_read :
    Nat → Nat → Ps2State → Res Unit × Nat × Ps2State
  | 0, buf, s => (.ok (), buf, s)
  | n + 1, buf, s =>
    match fu_synaptics_rmi_ps2_device_read_byte 10 s with
    | (.error e, s1) => (.error e, buf, s1)
    | (.ok tmp, s1) =>
      fu_synaptics_rmi_ps2_device_status_request_read n
        (((buf <<< 8) % 4294967296) ||| tmp) s1

/-- Function `fu_synaptics_rmi_ps2_device_status_request`; `buf` is the value that the
`guint32` output holds at the call, and the second component of the outcome the value
it holds at the return. -/
def fu_synaptics_rmi_ps2_device_status_request (ucArgument : Nat) (buf : Nat) (s : Ps2State) :
    Option (Res Unit × Nat × Ps2State) :=
  match fu_synaptics_rmi_ps2_device_status_request_command ucArgument 3 s with
  | none => none
  | some (.error e, s1) => some (.error e, buf, s1)
  | some (.ok (), s1) => some (fu_synaptics_rmi_ps2_device_status_request_read 3 buf s1)

/-! ## PS/2 transport: a device that acknowledges -/

/-- The state after the bytes `bytes` were written, each write succeeding, and the
answers up to `rest` were read. -/
def Ps2State.acked (s : Ps2State) (bytes : List Nat) (rest : List (Res Nat)) : Ps2State :=
  { s with tx := s.tx ++ bytes, txErrs := s.txErrs.drop bytes.length, rx := rest }

/-- The eight bytes of a resolution sequence in the words of the specification: for
`i = n-1` down to `0`, `SET_RESOLUTION` (`0xE8`) and then the two-bit digit
`(arg >> 2i) & 3`. -/
def resolutionBytes (arg : Nat) : Nat → List Nat
  | 0 => []
  | i + 1 => [0xe8, (arg >>> (2 * i)) &&& 3] ++ resolutionBytes arg i

/-! ## HID transport: attention reports -/

def HID_RMI4_ATTN_INTERRUPT_SOURCES : Nat := 1

/-- The loop `while (g_timer_elapsed(timer, NULL) * 1000.f < timeout_ms)` of
`wait_for_attr`.  The list holds the readings of the timer, in milliseconds, at the
successive loop tests; when it is used up the budget has run out.  `source_mask` is a
`guint8` value. -/
def fu_synaptics_rmi_hid_device_wait_for_attr_loop (source_mask timeout_ms : Nat) :
    List Nat → HidChannel → Res Unit × HidChannel
  | [], c => (.error .notSupported, c)
  | elapsed :: clock, c =>
    if elapsed < timeout_ms then
      match fu_io_channel_read_byte_array c with
      | (.error e, c1) =>
        if e = .timedOut then (.error .notSupported, c1)
        else (.error e, c1)
      | (.ok res, c1) =>
        if res.length < HID_RMI4_ATTN_INTERRUPT_SOURCES + 1 then
          fu_synaptics_rmi_hid_device_wait_for_attr_loop source_mask timeout_ms clock c1
        else if res.getD HID_RMI4_REPORT_ID 0 ≠ RMI_ATTN_REPORT_ID then
          fu_synaptics_rmi_hid_device_wait_for_attr_loop source_mask timeout_ms clock c1
        else if source_mask &&& res.getD HID_RMI4_ATTN_INTERRUPT_SOURCES 0 ≠ 0 then
          (.ok (), c1)
        else fu_synaptics_rmi_hid_device_wait_for_attr_loop source_mask timeout_ms clock c1
    else (.error .notSupported, c)

/-- Function `fu_synaptics_rmi_hid_device_wait_for_attr`; `clock` holds the readings of
its timer. -/
def fu_synaptics_rmi_hid_device_wait_for_attr (source_mask timeout_ms : Nat) (clock : List Nat)
    (c : HidChannel) : Res Unit × HidChannel :=
  fu_synaptics_rmi_hid_device_wait_for_attr_loop source_mask timeout_ms clock c

/-- An input report is an attention report for `source_mask` when it is at least 2 bytes
long, its byte 0 is `0x0C` and its byte 1 has a bit of the mask. -/
def isAttention (source_mask : Nat) (r : List Nat) : Bool :=
  decide (2 ≤ r.length) && decide (r.getD 0 0 = 0x0c) && decide (source_mask &&& r.getD 1 0 ≠ 0)

/-! ## HID transport: mode, open and close -/

/-- Enumerator `HID_RMI4_MODE_MOUSE` of `FuSynapticsRmiHidMode`. -/
def HID_RMI4_MODE_MOUSE : Nat := 0

/-- Enumerator `HID_RMI4_MODE_ATTN_REPORTS` of `FuSynapticsRmiHidMode`. -/
def HID_RMI4_MODE_ATTN_REPORTS : Nat := 1

/-- Enumerator `HID_RMI4_MODE_NO_PACKED_ATTN_REPORTS` of `FuSynapticsRmiHidMode`. -/
def HID_RMI4_MODE_NO_PACKED_ATTN_REPORTS : Nat := 2

/-- A call that the HID device makes to a collaborator outside the source file. -/
inductive HidEvent where
  /-- The ioctl `HIDIOCSFEATURE(len)` with its payload, through `fu_ioctl_execute`. -/
  | setFeature (data : List Nat)
  /-- The `open` of the parent class `FuUdevDevice`. -/
  | parentOpen
  /-- The `close` of the parent class `FuUdevDevice`. -/
  | parentClose
  /-- The call `fu_device_add_flag(.., FWUPD_DEVICE_FLAG_WAIT_FOR_REPLUG)`. -/
  | waitForReplug
  /-- The call `fu_synaptics_rmi_device_writeln(fn, buf)` of the base class. -/
  | writeln (fn buf : String)
  deriving DecidableEq, Repr

/-- The HID device seen from `open`, `close` and `set_mode`: `events` holds the calls
made to collaborators, oldest first; `extErrs` the outcome of the coming calls (`none`,
or an exhausted list, is success). -/
structure HidNode where
  events : List HidEvent
  extErrs : List (Option FwupdError)
  deriving DecidableEq, Repr

/-- Modelled from the spec: `fu_ioctl_execute` and the `open` and `close` of the parent
class are not among the sources.  A call is recorded and reports success or an error
kind. -/
def HidNode.call (ev : HidEvent) (d : HidNode) : Res Unit × HidNode :=
  let d1 : HidNode := { events := d.events ++ [ev], extErrs := d.extErrs.tail }
  match d.extErrs.head? with
  | some (some e) => (.error e, d1)
  | _ => (.ok (), d1)

/-- Function `fu_synaptics_rmi_hid_device_set_mode`: the feature report `{0x0f, mode}`. -/
def fu_synaptics_rmi_hid_device_set_mode (mode : Nat) (d : HidNode) : Res Unit × HidNode :=
  d.call (.setFeature [RMI_SET_RMI_MODE_REPORT_ID, mode % 256])

/-- Function `fu_synaptics_rmi_hid_device_open`. -/
def fu_synaptics_rmi_hid_device_open (d : HidNode) : Res Unit × HidNode :=
  match d.call .parentOpen with
  | (.error e, d1) => (.error e, d1)
  | (.ok (), d1) => fu_synaptics_rmi_hid_device_set_mode HID_RMI4_MODE_ATTN_REPORTS d1

/-- Function `fu_synaptics_rmi_hid_device_close`. -/
def fu_synaptics_rmi_hid_device_close (d : HidNode) : Res Unit × HidNode :=
  match fu_synaptics_rmi_hid_device_set_mode HID_RMI4_MODE_MOUSE d with
  | (.error e, d1) =>
    if e ≠ .permissionDenied then (.error e, d1)
    else d1.call .parentClose
  | (.ok (), d1) => d1.call .parentClose

/-! ## PS/2 transport: the device and its collaborators -/

/-- A call that the PS/2 device makes to a collaborator outside the source file. -/
inductive Ps2Event where
  /-- A write of `value` to the sysfs attribute, `fu_udev_device_write_sysfs`. -/
  | writeSysfs (attr value : String)
  /-- The framework call `fu_device_close`. -/
  | deviceClose
  /-- The framework call `fu_device_rescan`. -/
  | deviceRescan
  /-- The framework call `fu_device_open`. -/
  | deviceOpen
  /-- The flash detach `fu_synaptics_rmi_v5_device_detach`. -/
  | v5Detach
  /-- The flash detach `fu_synaptics_rmi_v7_device_detach`. -/
  | v7Detach
  /-- The dispatcher `fu_synaptics_rmi_device_enter_iep_mode` with its flags. -/
  | enterIepMode (flags : RmiFlags)
  /-- The status query `fu_synaptics_rmi_v5_device_query_status`. -/
  | v5QueryStatus
  /-- The status query `fu_synaptics_rmi_v7_device_query_status`. -/
  | v7QueryStatus
  /-- The `open` of the parent class `FuUdevDevice`. -/
  | parentOpen
  deriving DecidableEq, Repr

/-- The PS/2 device seen from `detach` and `query_status`: `io` is the channel with the
mode bit; `isBootloader` the device flag `IS_BOOTLOADER`; `f34` what
`fu_synaptics_rmi_device_get_function(0x34)` answers, the `function_version` of F34 or
an error kind; `events` the calls made to collaborators, oldest first; `extErrs` the
outcome of the coming calls (`none`, or an exhausted list, is success).  What a
collaborator does to the channel or to the flags is not followed. -/
structure Ps2Device where
  io : Ps2State
  isBootloader : Bool
  f34 : Res Nat
  events : List Ps2Event
  extErrs : List (Option FwupdError)
  deriving DecidableEq, Repr

/-- Outcome of an operation of the PS/2 device; `none` as for `Ps2Out`. -/
abbrev Ps2DevOut := Option (Res Unit × Ps2Device)

/-- The C idiom `if (!first(...)) return FALSE;` followed by the rest, for the device. -/
def Ps2DevOut.andThen (r : Ps2DevOut) (k : Ps2Device → Ps2DevOut) : Ps2DevOut :=
  match r with
  | none => none
  | some (.error e, d) => some (.error e, d)
  | some (.ok (), d) => k d

/-- The device after the call `ev` was made: the call is recorded and its outcome taken
from `extErrs`. -/
def Ps2Device.logged (ev : Ps2Event) (d : Ps2Device) : Ps2Device :=
  { d with events := d.events ++ [ev], extErrs := d.extErrs.tail }

/-- Modelled from the spec: the sysfs write, the framework calls, the flash detach and
the status queries are not among the sources.  A call is recorded and reports success
or an error kind. -/
def Ps2Device.call (ev : Ps2Event) (d : Ps2Device) : Ps2DevOut :=
  match d.extErrs.head? with
  | some (some e) => some (.error e, d.logged ev)
  | _ => some (.ok (), d.logged ev)

/-- The device after the dispatcher `fu_synaptics_rmi_device_enter_iep_mode` was called
with `flags` and left the channel as `io1`. -/
def Ps2Device.entered (flags : RmiFlags) (io1 : Ps2State) (d : Ps2Device) : Ps2Device :=
  { d with io := io1, events := d.events ++ [.enterIepMode flags] }

/-- A call of the dispatcher `fu_synaptics_rmi_device_enter_iep_mode` from the device:
it is recorded among the events and run on the channel. -/
def Ps2Device.enter_iep_mode (K : RmiStruct) (flags : RmiFlags) (d : Ps2Device) : Ps2DevOut :=
  match fu_synaptics_rmi_device_enter_iep_mode K flags d.io with
  | none => none
  | some (r, io1) => some (r, d.entered flags io1)

/-- Function `fu_synaptics_rmi_ps2_device_query_status`. -/
def fu_synaptics_rmi_ps2_device_query_status (d : Ps2Device) : Ps2DevOut :=
  match d.f34 with
  | .error e => some (.error e, d)
  | .ok function_version =>
    if function_version = 0x0 ∨ function_version = 0x1 then d.call .v5QueryStatus
    else if function_version = 0x2 then d.call .v7QueryStatus
    else some (.error .notSupported, d)

/-- The dispatch of `detach` on the version of F34, after the reopen. -/
def fu_synaptics_rmi_ps2_device_detach_f34 (d : Ps2Device) : Ps2DevOut :=
  match d.f34 with
  | .error e => some (.error e, d)
  | .ok function_version =>
    if function_version = 0x0 ∨ function_version = 0x1 then d.call .v5Detach
    else if function_version = 0x2 then d.call .v7Detach
    else some (.error .notSupported, d)

/-- Function `fu_synaptics_rmi_ps2_device_detach`. -/
def fu_synaptics_rmi_ps2_device_detach (K : RmiStruct) (d : Ps2Device) : Ps2DevOut :=
  if d.isBootloader then some (.ok (), d)
  else
    (d.call (.writeSysfs "drvctl" "serio_raw")).andThen fun d1 =>
    (d1.call .deviceClose).andThen fun d2 =>
    (d2.call .deviceRescan).andThen fun d3 =>
    (d3.call .deviceOpen).andThen fun d4 =>
    (fu_synaptics_rmi_ps2_device_detach_f34 d4).andThen fun d5 =>
    (d5.enter_iep_mode K RmiFlags.forced).andThen fun d6 =>
    fu_synaptics_rmi_ps2_device_query_status d6

/-- The calls of a successful PS/2 detach in the words of the specification, for the
version `v` of F34. -/
def detachEvents (v : Nat) : List Ps2Event :=
  [.writeSysfs "drvctl" "serio_raw", .deviceClose, .deviceRescan, .deviceOpen,
    if v = 0 ∨ v = 1 then .v5Detach else .v7Detach,
    .enterIepMode RmiFlags.forced,
    if v = 0 ∨ v = 1 then .v5QueryStatus else .v7QueryStatus]

/-- No byte is pending or coming: every read of the channel fails, by a timeout or by
an I/O error. -/
def ReadsFail (s : Ps2State) : Prop :=
  ∀ r ∈ s.rx, ∃ e, r = .error e

/-! ## PS/2 transport: the attempts of `sample_rate` -/

/-- The condition of the `if` in the loop of `sample_rate`: the resolution sequence, then
`SET_SAMPLE_RATE`, then `param`, joined by `||`; one attempt at the sample-rate pair. -/
def fu_synaptics_rmi_ps2_device_sample_rate_try (param arg : Nat) (send_e6s : Bool)
    (s : Ps2State) : Ps2Out Unit :=
  (fu_synaptics_rmi_ps2_device_set_resolution_sequence arg send_e6s s).andThen fun _ s1 =>
  (fu_synaptics_rmi_ps2_device_write_byte FU_RMI_EDP_COMMAND_AUX_SET_SAMPLE_RATE 50
    RmiFlags.none s1).andThen fun _ s2 =>
  fu_synaptics_rmi_ps2_device_write_byte param 50 RmiFlags.none s2

/-- An attempt followed by another one when it failed: the error of the first attempt is
dropped and the next attempt starts from the state it left. -/
def Ps2Out.orElse (r : Ps2Out Unit) (k : Ps2State → Ps2Out Unit) : Ps2Out Unit :=
  match r with
  | none => none
  | some (.error _, s) => k s
  | some (.ok (), s) => some (.ok (), s)

/-! ## PS/2 transport: identification -/

/-- Function `fu_synaptics_rmi_ps2_device_detect_synaptics_styk`; `result` is the value that
the `gboolean` output holds at the call, and the second component of the outcome the
value it holds at the return. -/
def fu_synaptics_rmi_ps2_device_detect_synaptics_styk (K : RmiStruct) (result : Bool)
    (s : Ps2State) : Option (Res Unit × Bool × Ps2State) :=
  match fu_synaptics_rmi_ps2_device_write_byte FU_RMI_EDP_COMMAND_AUX_IBM_READ_SECONDARY_ID 10
      RmiFlags.none s with
  | none => none
  | some (.error e, s1) => some (.error e, result, s1)
  | some (.ok (), s1) =>
    match fu_synaptics_rmi_ps2_device_read_byte 10 s1 with
    | (.error e, s2) => some (.error e, result, s2)
    | (.ok buf, s2) =>
      some (.ok (), (if buf = K.JYT_SYNA ∨ buf = K.SYNAPTICS then true else result), s2)

/-- Modelled from the spec: `fu_synaptics_rmi_device_set_iepmode` of the base class is not
among the sources; it stores the mode bit. -/
def fu_synaptics_rmi_device_set_iepmode (iepmode : Bool) (s : Ps2State) : Ps2State :=
  { s with iepmode := iepmode }

/-- Function `fu_synaptics_rmi_ps2_device_query_build_id`; `build_id` is the value that the
`guint32` output holds at the call, and the second component of the outcome the value it
holds at the return. -/
def fu_synaptics_rmi_ps2_device_query_build_id (K : RmiStruct) (build_id : Nat)
    (s : Ps2State) : Option (Res Unit × Nat × Ps2State) :=
  match fu_synaptics_rmi_ps2_device_status_request K.IDENTIFY_SYNAPTICS 0 s with
  | none => none
  | some (.error e, _, s1) => some (.error e, build_id, s1)
  | some (.ok (), buf, s1) =>
    let esdr := (buf &&& 0xFF00) >>> 8
    match fu_synaptics_rmi_ps2_device_detect_synaptics_styk K false s1 with
    | none => none
    | some (.error e, _, s2) => some (.error e, build_id, s2)
    | some (.ok (), is_synaptics_styk, s2) =>
      let s3 := fu_synaptics_rmi_device_set_iepmode false s2
      if esdr = K.TOUCH_PAD ∨ is_synaptics_styk = true then
        fu_synaptics_rmi_ps2_device_status_request K.READ_EXTRA_CAPABILITIES2 build_id s3
      else some (.ok (), build_id, s3)

/-! ## PS/2 transport: open -/

/-- The loop `for (guint i = 0; i < 0xffff; i++)` of `open`, with `n` iterations left:
bytes are read and dropped until a read fails. -/
def fu_synaptics_rmi_ps2_device_open_drain : Nat → Ps2State → Ps2State
  | 0, s => s
  | n + 1, s =>
    match fu_synaptics_rmi_ps2_device_read_byte 20 s with
    | (.error _, s1) => s1
    | (.ok _, s1) => fu_synaptics_rmi_ps2_device_open_drain n s1

/-- The block of `open` that runs when the device has `IS_BOOTLOADER`, on the channel:
drain, `RESET`, the two bytes `0xAA 0x00`, `DISABLE`. -/
def fu_synaptics_rmi_ps2_device_open_bootloader (s : Ps2State) : Ps2Out Unit :=
  (fu_synaptics_rmi_ps2_device_write_byte FU_RMI_EDP_COMMAND_AUX_RESET 600 RmiFlags.none
    (fu_synaptics_rmi_ps2_device_open_drain 0xffff s)).andThen fun _ s1 =>
  match fu_synaptics_rmi_ps2_device_read_byte 500 s1 with
  | (.error e, s2) => some (.error e, s2)
  | (.ok b0, s2) =>
    match fu_synaptics_rmi_ps2_device_read_byte 500 s2 with
    | (.error e, s3) => some (.error e, s3)
    | (.ok b1, s3) =>
      if b0 ≠ 0xAA ∨ b1 ≠ 0x00 then some (.error .invalidData, s3)
      else
        fu_synaptics_rmi_ps2_device_write_byte FU_RMI_EDP_COMMAND_AUX_DISABLE 50 RmiFlags.none
          s3

/-- Function `fu_synaptics_rmi_ps2_device_open`. -/
def fu_synaptics_rmi_ps2_device_open (d : Ps2Device) : Ps2DevOut :=
  (d.call .parentOpen).andThen fun d1 =>
  if d1.isBootloader then
    match fu_synaptics_rmi_ps2_device_open_bootloader d1.io with
    | none => none
    | some (r, io1) => some (r, { d1 with io := io1 })
  else some (.ok (), d1)

/-! ## HID transport: sleep control -/

def RMI_F01_CRTL0_NOSLEEP_BIT : Nat := 1 <<< 2
def RMI_F01_CTRL0_SLEEP_MODE_MASK : Nat := 0x03
def RMI_SLEEP_MODE_NORMAL : Nat := 0x00

/-- Modelled from the spec: the dispatcher `fu_synaptics_rmi_device_read` of the base
class is not among the sources; on a HID device it hands the call to the read of the
transport. -/
def fu_synaptics_rmi_device_read (addr req_sz : Nat) (c : HidChannel) :
    Res (List Nat) × HidChannel :=
  fu_synaptics_rmi_hid_device_read addr req_sz c

/-- Function `fu_synaptics_rmi_hid_device_disable_sleep`; `f01` is what
`fu_synaptics_rmi_device_get_function(0x34)` answers, the `control_base` of the function
or an error kind.  The byte `data[0]` is a `guint8`; the complement of the mask is taken
on 32 bits. -/
def fu_synaptics_rmi_hid_device_disable_sleep (f01 : Res Nat) (c : HidChannel) :
    Res Unit × HidChannel :=
  match f01 with
  | .error e => (.error e, c)
  | .ok control_base =>
    match fu_synaptics_rmi_device_read control_base 0x1 c with
    | (.error e, c1) => (.error e, c1)
    | (.ok f01_control0, c1) =>
      let data0 := (f01_control0.getD 0 0 ||| RMI_F01_CRTL0_NOSLEEP_BIT) % 256
      let data0 := ((data0 &&& (0xffffffff - RMI_F01_CTRL0_SLEEP_MODE_MASK)) |||
        RMI_SLEEP_MODE_NORMAL) % 256
      fu_synaptics_rmi_device_write control_base (some (f01_control0.set 0 data0))
        RmiFlags.none c1

/-! ## HID transport: driver rebind -/

/-- A udev device as `rebind_driver` sees it: its sysfs path, and its driver and
subsystem, which are `none` for `NULL`. -/
structure UdevNode where
  sysfsPath : String
  driver : Option String
  subsystem : Option String
  deriving DecidableEq, Repr

/-- The pieces of a text between the `/` characters; `cur` holds the piece being read,
last character first. -/
def splitSlash : List Char → List Char → List (List Char)
  | cur, [] => [cur.reverse]
  | cur, c :: cs =>
    if c = '/' then cur.reverse :: splitSlash [] cs
    else splitSlash (c :: cur) cs

/-- Modelled from the spec: `g_strsplit(string, "/", -1)` of GLib is not among the
sources.  The text is cut at every `/`; the empty text has no piece. -/
def g_strsplit (string : String) : List String :=
  if string.data = [] then [] else (splitSlash [] string.data).map String.mk

/-- An element of a file name without the `/` characters at its two ends. -/
def trimSeparators (cs : List Char) : List Char :=
  ((cs.dropWhile fun c => decide (c = '/')).reverse.dropWhile fun c => decide (c = '/')).reverse

/-- Modelled from the spec: `g_build_filename` of GLib is not among the sources.  The
arguments up to the first `NULL` are joined with one `/` between them: the `/`
characters at the ends of the elements are dropped, except those that begin the first
element, and empty elements are passed over.  (The `/` characters that end the last
element, which GLib keeps, do not occur in the calls of this file.) -/
def g_build_filename (elements : List (Option String)) : String :=
  let given := (elements.takeWhile Option.isSome).filterMap id
  let lead := match given with
    | [] => []
    | first :: _ => first.data.takeWhile fun c => decide (c = '/')
  let pieces := (given.map fun e => trimSeparators e.data).filter fun p => decide (p ≠ [])
  String.mk (lead ++ List.intercalate ['/'] pieces)

/-- The device after a call that cannot fail was recorded. -/
def HidNode.noted (ev : HidEvent) (d : HidNode) : HidNode :=
  { d with events := d.events ++ [ev] }

/-- Function `fu_synaptics_rmi_hid_device_rebind_driver`.  `parent_hid` is what the lookup
of the backend parent with subsystem `hid` answers, the parent or an error kind;
`parent_i2c` and `parent_usb` what the lookups with `i2c` and `usb` answer, `none` for
`NULL`.  Where the path of the physical parent is empty the C code reads before the
array of pieces; the model takes the `NULL` exit there. -/
def fu_synaptics_rmi_hid_device_rebind_driver (parent_hid : Res UdevNode)
    (parent_i2c parent_usb : Option UdevNode) (d : HidNode) : Res Unit × HidNode :=
  match parent_hid with
  | .error e => (.error e, d)
  | .ok _ =>
    let parent_phys := match parent_i2c with
      | some p => some p
      | none => parent_usb
    match parent_phys with
    | none => (.error .invalidFile, d)
    | some parent_phys =>
      match (g_strsplit parent_phys.sysfsPath).getLast? with
      | none => (.error .invalidFile, d)
      | some hid_id =>
        let driver := parent_phys.driver
        let subsystem := parent_phys.subsystem
        let fn_rebind :=
          g_build_filename [some "/sys/bus/", subsystem, some "drivers", driver, some "bind"]
        let fn_unbind :=
          g_build_filename [some "/sys/bus/", subsystem, some "drivers", driver, some "unbind"]
        let d1 := d.noted .waitForReplug
        match d1.call (.writeln fn_unbind hid_id) with
        | (.error e, d2) => (.error e, d2)
        | (.ok (), d2) => d2.call (.writeln fn_rebind hid_id)

/-! # Theorems -/

/-! ## HID transport: auxiliary facts -/

theorem fu_io_channel_write_byte_array_written (frame : List Nat) (c : HidChannel) :
    (fu_io_channel_write_byte_array frame c).2.written = c.written ++ [frame] := by
  unfold fu_io_channel_write_byte_array
  split <;> rfl

theorem fu_io_channel_write_byte_array_inputs (frame : List Nat) (c : HidChannel) :
    (fu_io_channel_write_byte_array frame c).2.inputs = c.inputs := by
  unfold fu_io_channel_write_byte_array
  split <;> rfl

theorem fu_synaptics_rmi_hid_device_read_loop_written (n : Nat) (c : HidChannel)
    (ins : List (Res (List Nat))) :
    ∀ buf, (fu_synaptics_rmi_hid_device_read_loop n c buf ins).2.written = c.written := by
  induction ins with
  | nil => intro buf; unfold fu_synaptics_rmi_hid_device_read_loop; split <;> rfl
  | cons r rest ih =>
    intro buf
    unfold fu_synaptics_rmi_hid_device_read_loop
    split
    · cases r with
      | error e => rfl
      | ok res =>
        simp only
        cases hrep : fu_synaptics_rmi_hid_device_read_report buf res with
        | error e => rfl
        | ok buf1 => exact ih buf1
    · rfl

/-- The value returned by the read loop does not depend on the channel record it
rebuilds, only on the queue of pending reads. -/
theorem fu_synaptics_rmi_hid_device_read_loop_fst_channel (n : Nat) (c d : HidChannel)
    (ins : List (Res (List Nat))) :
    ∀ buf, (fu_synaptics_rmi_hid_device_read_loop n c buf ins).1 =
        (fu_synaptics_rmi_hid_device_read_loop n d buf ins).1 := by
  induction ins with
  | nil => intro buf; unfold fu_synaptics_rmi_hid_device_read_loop; split <;> rfl
  | cons r rest ih =>
    intro buf
    unfold fu_synaptics_rmi_hid_device_read_loop
    split
    · cases r with
      | error e => rfl
      | ok res =>
        simp only
        cases hrep : fu_synaptics_rmi_hid_device_read_report buf res with
        | error e => rfl
        | ok buf1 => exact ih buf1
    · rfl

theorem fu_synaptics_rmi_hid_device_read_request_eq (addr n : Nat) (ha : addr < 65536)
    (hn : n ≤ 0xffff) :
    fu_synaptics_rmi_hid_device_read_request addr n =
      [0x0a, 0x00, addr &&& 0xff, addr >>> 8, n &&& 0xff, n >>> 8] ++ List.replicate 15 0 := by
  have e1 : addr &&& 0xff = addr % 256 := Nat.and_pow_two_sub_one_eq_mod addr 8
  have e2 : n &&& 0xff = n % 256 := Nat.and_pow_two_sub_one_eq_mod n 8
  have e3 : addr >>> 8 = addr / 256 := Nat.shiftRight_eq_div_pow addr 8
  have e4 : n >>> 8 = n / 256 := Nat.shiftRight_eq_div_pow n 8
  have e5 : addr % 65536 = addr := Nat.mod_eq_of_lt ha
  have e6 : n % 65536 = n := Nat.mod_eq_of_lt (by omega)
  rw [e1, e2, e3, e4]
  simp [fu_synaptics_rmi_hid_device_read_request, padTo21, fu_byte_array_append_uint16_le,
      RMI_READ_ADDR_REPORT_ID, e5, e6]

theorem fu_synaptics_rmi_hid_device_read_written (addr n : Nat) (c : HidChannel) (hn : n ≤ 0xffff) :
    (fu_synaptics_rmi_hid_device_read addr n c).2.written = c.written ++
        [fu_synaptics_rmi_hid_device_read_request addr n] := by
  unfold fu_synaptics_rmi_hid_device_read
  rw [if_neg (by omega)]
  have hw := fu_io_channel_write_byte_array_written
      (fu_synaptics_rmi_hid_device_read_request addr n) c
  cases hres : fu_io_channel_write_byte_array
      (fu_synaptics_rmi_hid_device_read_request addr n) c with
  | mk r c1 =>
    rw [hres] at hw
    cases r with
    | error e => exact hw
    | ok u =>
      simp only
      rw [fu_synaptics_rmi_hid_device_read_loop_written]
      exact hw

theorem fu_synaptics_rmi_hid_device_read_loop_ok_ge (n : Nat) (c : HidChannel)
    (ins : List (Res (List Nat))) :
    ∀ buf bytes c1, fu_synaptics_rmi_hid_device_read_loop n c buf ins = (.ok bytes, c1) →
        n ≤ bytes.length := by
  induction ins with
  | nil =>
    intro buf bytes c1 h
    unfold fu_synaptics_rmi_hid_device_read_loop at h
    split at h
    · simp at h
    · simp only [Prod.mk.injEq, Res.ok.injEq] at h
      rw [← h.1]; omega
  | cons r rest ih =>
    intro buf bytes c1 h
    unfold fu_synaptics_rmi_hid_device_read_loop at h
    split at h
    · cases r with
      | error e => simp at h
      | ok res =>
        simp only at h
        cases hrep : fu_synaptics_rmi_hid_device_read_report buf res with
        | error e => rw [hrep] at h; simp at h
        | ok buf1 => rw [hrep] at h; exact ih buf1 bytes c1 h
    · simp only [Prod.mk.injEq, Res.ok.injEq] at h
      rw [← h.1]; omega

theorem fu_synaptics_rmi_hid_device_read_ok_inv (addr n : Nat) (c : HidChannel) (bytes : List Nat)
    (c1 : HidChannel)
    (h : fu_synaptics_rmi_hid_device_read addr n c = (.ok bytes, c1)) :
    n ≤ 0xffff ∧ ∃ c2, fu_synaptics_rmi_hid_device_read_loop n c2 [] c.inputs =
        (.ok bytes, c1) := by
  unfold fu_synaptics_rmi_hid_device_read at h
  split at h
  · simp at h
  · have hi := fu_io_channel_write_byte_array_inputs
      (fu_synaptics_rmi_hid_device_read_request addr n) c
    cases hres : fu_io_channel_write_byte_array
        (fu_synaptics_rmi_hid_device_read_request addr n) c with
    | mk r c2 =>
      rw [hres] at h hi
      cases r with
      | error e => simp at h
      | ok u =>
        simp only at h hi
        rw [hi] at h
        exact ⟨by omega, c2, h⟩

theorem fu_synaptics_rmi_hid_device_read_loop_channel (n : Nat) (c : HidChannel)
    (q : List (Res (List Nat))) (ins : List (Res (List Nat))) :
    ∀ buf, fu_synaptics_rmi_hid_device_read_loop n { c with inputs := q } buf ins =
      fu_synaptics_rmi_hid_device_read_loop n c buf ins := by
  induction ins with
  | nil => intro buf; unfold fu_synaptics_rmi_hid_device_read_loop; rfl
  | cons r rest ih =>
    intro buf
    unfold fu_synaptics_rmi_hid_device_read_loop
    split
    · cases r with
      | error e => rfl
      | ok res =>
        simp only
        cases hrep : fu_synaptics_rmi_hid_device_read_report buf res with
        | error e => rfl
        | ok buf1 => exact ih buf1
    · rfl

/-- The read loop is the loop of the source over the channel: while `buf` is short of
`n` bytes, one `fu_io_channel_read_byte_array` and the loop body, then the loop again. -/
theorem fu_synaptics_rmi_hid_device_read_loop_eq (n : Nat) (c : HidChannel) (buf : List Nat)
    (h : buf.length < n) :
    fu_synaptics_rmi_hid_device_read_loop n c buf c.inputs =
      match fu_io_channel_read_byte_array c with
      | (.error e, c1) => (.error e, c1)
      | (.ok res, c1) =>
        match fu_synaptics_rmi_hid_device_read_report buf res with
        | .error e => (.error e, c1)
        | .ok buf1 => fu_synaptics_rmi_hid_device_read_loop n c1 buf1 c1.inputs := by
  obtain ⟨w, we, ins⟩ := c
  cases ins with
  | nil =>
    unfold fu_synaptics_rmi_hid_device_read_loop fu_io_channel_read_byte_array
    simp only [if_pos h]
  | cons r rest =>
    conv_lhs => unfold fu_synaptics_rmi_hid_device_read_loop
    unfold fu_io_channel_read_byte_array
    simp only [if_pos h]
    cases r with
    | error e => rfl
    | ok res =>
      simp only
      cases hrep : fu_synaptics_rmi_hid_device_read_report buf res with
      | error e => rfl
      | ok buf1 =>
        simp only
        exact (fu_synaptics_rmi_hid_device_read_loop_channel n ⟨w, we, Res.ok res :: rest⟩ rest rest
          buf1).symm

theorem fu_synaptics_rmi_hid_device_write_frame_eq (addr : Nat) (data : List Nat)
    (ha : addr < 65536)
    (hl : data.length ≤ 255) :
    fu_synaptics_rmi_hid_device_write_frame addr (some data) =
      [0x09, data.length, addr &&& 0xff, addr >>> 8] ++ data ++
        List.replicate (21 - (data.length + 4)) 0 := by
  have e1 : addr &&& 0xff = addr % 256 := Nat.and_pow_two_sub_one_eq_mod addr 8
  have e3 : addr >>> 8 = addr / 256 := Nat.shiftRight_eq_div_pow addr 8
  have e5 : addr % 65536 = addr := Nat.mod_eq_of_lt ha
  have e6 : data.length % 256 = data.length := Nat.mod_eq_of_lt (by omega)
  have e7 : 2 + 1 + 1 + data.length = data.length + 4 := by omega
  rw [e1, e3]
  simp [fu_synaptics_rmi_hid_device_write_frame, padTo21, fu_byte_array_append_uint16_le,
      RMI_WRITE_REPORT_ID, e5, e6, e7]

theorem fu_synaptics_rmi_hid_device_write_written (addr : Nat) (data : List Nat) (flags : RmiFlags)
    (c : HidChannel)
    (hl : data.length ≤ 255) :
    (fu_synaptics_rmi_hid_device_write addr (some data) flags c).2.written =
      c.written ++ [fu_synaptics_rmi_hid_device_write_frame addr (some data)] := by
  unfold fu_synaptics_rmi_hid_device_write
  have h : decide (data.length > 0xff) = false := by
    simp only [decide_eq_false_iff_not]; omega
  simp only [h]
  exact fu_io_channel_write_byte_array_written _ c

/-! ## HID transport: claims -/

/-- C1 (as amended): whenever the HID `read(addr, n)` returns success, the returned byte
array holds at least `n` bytes. -/
theorem fu_synaptics_rmi_hid_device_read_ok_length_ge (addr n : Nat) (c : HidChannel)
    (bytes : List Nat)
    (c1 : HidChannel)
        (h : fu_synaptics_rmi_hid_device_read addr n c = (.ok bytes, c1)) : n ≤ bytes.length := by
  obtain ⟨_, c2, hloop⟩ := fu_synaptics_rmi_hid_device_read_ok_inv addr n c bytes c1 h
  exact fu_synaptics_rmi_hid_device_read_loop_ok_ge n c2 c.inputs [] bytes c1 hloop

theorem fu_synaptics_rmi_hid_device_read_ok_length_ge_witness :
    fu_synaptics_rmi_hid_device_read 0x0104 4
        ⟨[], [], [.ok [0x0b, 2, 0xaa, 0xbb], .ok [0x0b, 2, 0xcc, 0xdd]]⟩ =
        (.ok [0xaa, 0xbb, 0xcc, 0xdd],
            ⟨[fu_synaptics_rmi_hid_device_read_request 0x0104 4], [], []⟩) ∧
      4 ≤ [0xaa, 0xbb, 0xcc, 0xdd].length :=
  ⟨by decide,
    fu_synaptics_rmi_hid_device_read_ok_length_ge 0x0104 4
      ⟨[], [], [.ok [0x0b, 2, 0xaa, 0xbb], .ok [0x0b, 2, 0xcc, 0xdd]]⟩
      [0xaa, 0xbb, 0xcc, 0xdd] ⟨[fu_synaptics_rmi_hid_device_read_request 0x0104 4], [], []⟩
          (by decide)⟩

/-- C1 (counterexample): a read of 5 bytes answered by two data reports of 3 payload
bytes each succeeds with 6 bytes, not 5. -/
theorem fu_synaptics_rmi_hid_device_read_ok_length_exact_counterexample :
    fu_synaptics_rmi_hid_device_read 0x0104 5
        ⟨[], [], [.ok [0x0b, 3, 1, 2, 3], .ok [0x0b, 3, 4, 5, 6]]⟩ =
        (.ok [1, 2, 3, 4, 5, 6], ⟨[fu_synaptics_rmi_hid_device_read_request 0x0104 5], [], []⟩) ∧
      [1, 2, 3, 4, 5, 6].length ≠ 5 := by
  decide

/-- C3 (as amended): for a payload of length `L ≤ 255` the frame that the HID write hands
to the channel is `max 21 (L + 4)` bytes long: 21 bytes up to `L = 17`, and `L + 4`
bytes beyond. -/
theorem fu_synaptics_rmi_hid_device_write_frame_length (addr : Nat) (data : List Nat)
    (flags : RmiFlags)
    (c : HidChannel) (hl : data.length ≤ 255) :
    (fu_synaptics_rmi_hid_device_write addr (some data) flags c).2.written =
        c.written ++ [fu_synaptics_rmi_hid_device_write_frame addr (some data)] ∧
      (fu_synaptics_rmi_hid_device_write_frame addr (some data)).length =
          max 21 (data.length + 4) := by
  refine ⟨fu_synaptics_rmi_hid_device_write_written addr data flags c hl, ?_⟩
  simp only
      [fu_synaptics_rmi_hid_device_write_frame, padTo21, fu_byte_array_append_uint16_le,
      List.length_append,
    List.length_replicate, List.length_cons, List.length_nil]
  omega

theorem fu_synaptics_rmi_hid_device_write_frame_length_witness :
    (fu_synaptics_rmi_hid_device_write 0x00ff (some [0x01]) RmiFlags.none ⟨[], [], []⟩).2.written =
        [] ++ [fu_synaptics_rmi_hid_device_write_frame 0x00ff (some [0x01])] ∧
      (fu_synaptics_rmi_hid_device_write_frame 0x00ff (some [0x01])).length =
          max 21 ([0x01].length + 4) :=
  fu_synaptics_rmi_hid_device_write_frame_length 0x00ff [0x01] RmiFlags.none ⟨[], [], []⟩
      (by decide)

/-- C3 (counterexample): an 18-byte payload is handed over as a 22-byte frame. -/
theorem fu_synaptics_rmi_hid_device_write_frame_length_counterexample :
    (List.replicate 18 0xab).length ≤ 255 ∧
      (fu_synaptics_rmi_hid_device_write 0x0104 (some (List.replicate 18 0xab)) RmiFlags.none
          ⟨[], [], []⟩).2.written.map
          List.length = [22] := by
  decide

/-- C4: for a 16-bit address and `n ≤ 0xFFFF` the HID read hands exactly one frame to the
channel, the 21 bytes `0A 00 addr_lo addr_hi n_lo n_hi` followed by fifteen zeros. -/
theorem fu_synaptics_rmi_hid_device_read_request_frame (addr n : Nat) (c : HidChannel)
    (ha : addr < 65536)
    (hn : n ≤ 0xffff) :
    (fu_synaptics_rmi_hid_device_read addr n c).2.written =
      c.written ++
        [[0x0a, 0x00, addr &&& 0xff, addr >>> 8, n &&& 0xff, n >>> 8] ++ List.replicate 15 0] := by
  rw [fu_synaptics_rmi_hid_device_read_written addr n c hn,
      fu_synaptics_rmi_hid_device_read_request_eq addr n ha hn]

theorem fu_synaptics_rmi_hid_device_read_request_frame_witness :
    (fu_synaptics_rmi_hid_device_read 0x0104 4 ⟨[], [], []⟩).2.written =
      [[0x0a, 0x00, 0x04, 0x01, 0x04, 0x00, 0, 0, 0, 0, 0, 0, 0, 0, 0, 0, 0, 0, 0, 0, 0]] :=
  fu_synaptics_rmi_hid_device_read_request_frame 0x0104 4 ⟨[], [], []⟩ (by decide) (by decide)

/-- C5: for a 16-bit address and a payload of length `L ≤ 255` the frame of the HID write
is `09 L addr_lo addr_hi`, the payload in order, and zeros up to 21 bytes. -/
theorem fu_synaptics_rmi_hid_device_write_frame_layout (addr : Nat) (data : List Nat)
    (flags : RmiFlags)
    (c : HidChannel) (ha : addr < 65536) (hl : data.length ≤ 255) :
    (fu_synaptics_rmi_hid_device_write addr (some data) flags c).2.written =
      c.written ++
        [[0x09, data.length, addr &&& 0xff, addr >>> 8] ++ data ++
          List.replicate (21 - (data.length + 4)) 0] := by
  rw [fu_synaptics_rmi_hid_device_write_written addr data flags c hl,
      fu_synaptics_rmi_hid_device_write_frame_eq addr data ha hl]

theorem fu_synaptics_rmi_hid_device_write_frame_layout_witness :
    (fu_synaptics_rmi_hid_device_write 0x00ff (some [0x01]) RmiFlags.none ⟨[], [], []⟩).2.written =
      [[0x09, 0x01, 0xff, 0x00, 0x01, 0, 0, 0, 0, 0, 0, 0, 0, 0, 0, 0, 0, 0, 0, 0, 0]] :=
  fu_synaptics_rmi_hid_device_write_frame_layout 0x00ff [0x01] RmiFlags.none ⟨[], [], []⟩
      (by decide) (by decide)

theorem fu_synaptics_rmi_hid_device_read_loop_done (n : Nat) (c : HidChannel) (buf : List Nat)
    (ins : List (Res (List Nat))) (h : ¬ buf.length < n) :
    fu_synaptics_rmi_hid_device_read_loop n c buf ins = (.ok buf, { c with inputs := ins }) := by
  cases ins with
  | nil => unfold fu_synaptics_rmi_hid_device_read_loop; rw [if_neg h]
  | cons r rest => unfold fu_synaptics_rmi_hid_device_read_loop; rw [if_neg h]

theorem fu_synaptics_rmi_hid_device_read_loop_step (n : Nat) (c : HidChannel) (buf r : List Nat)
    (rest : List (Res (List Nat))) (h : buf.length < n) :
    fu_synaptics_rmi_hid_device_read_loop n c buf (.ok r :: rest) =
      match fu_synaptics_rmi_hid_device_read_report buf r with
      | .error e => (.error e, { c with inputs := rest })
      | .ok buf1 => fu_synaptics_rmi_hid_device_read_loop n c buf1 rest := by
  conv_lhs => unfold fu_synaptics_rmi_hid_device_read_loop
  rw [if_pos h]

theorem fu_synaptics_rmi_hid_device_read_loop_step_error (n : Nat) (c : HidChannel) (buf : List Nat)
    (e : FwupdError)
    (rest : List (Res (List Nat))) (h : buf.length < n) :
    fu_synaptics_rmi_hid_device_read_loop n c buf (.error e :: rest) =
        (.error e, { c with inputs := rest }) := by
  conv_lhs => unfold fu_synaptics_rmi_hid_device_read_loop
  rw [if_pos h]

theorem fu_synaptics_rmi_hid_device_read_report_skip (buf r : List Nat) (hne : r ≠ [])
    (hid : r.getD 0 0 ≠ 0x0b) :
    fu_synaptics_rmi_hid_device_read_report buf r = .ok buf := by
  unfold fu_synaptics_rmi_hid_device_read_report
  simp only [HID_RMI4_REPORT_ID, RMI_READ_DATA_REPORT_ID]
  have hlen : ¬ r.length = 0 := by
    intro h0; exact hne (List.length_eq_zero.mp h0)
  rw [if_neg hlen, if_pos hid]

theorem fu_synaptics_rmi_hid_device_read_report_data (buf r : List Nat) (hid : r.getD 0 0 = 0x0b) :
    fu_synaptics_rmi_hid_device_read_report buf r =
      if r.length < 2 ∨ r.getD 1 0 % 256 = 0 ∨ r.getD 1 0 % 256 + 2 > r.length then
        .error .internal
      else .ok (buf ++ reportPayload r) := by
  unfold fu_synaptics_rmi_hid_device_read_report reportPayload
  simp only [HID_RMI4_REPORT_ID, RMI_READ_DATA_REPORT_ID, HID_RMI4_READ_INPUT_DATA,
    HID_RMI4_READ_INPUT_COUNT]
  by_cases h0 : r.length = 0
  · rw [if_pos h0, if_pos (Or.inl (by omega))]
  · rw [if_neg h0, if_neg (not_not.mpr hid)]
    by_cases h2 : r.length < 2
    · rw [if_pos h2, if_pos (Or.inl h2)]
    · rw [if_neg h2]
      by_cases hc : r.getD 1 0 % 256 = 0
      · simp only [hc, if_true]
        rw [if_pos (Or.inr (Or.inl trivial))]
      · by_cases hu : r.getD 1 0 % 256 + 2 > r.length
        · simp only [hc, hu, if_true, if_false]
          rw [if_pos (Or.inr (Or.inr trivial))]
        · simp only [hc, hu, if_false]
          rw [if_neg (by tauto)]

theorem fu_synaptics_rmi_hid_device_read_report_ok (buf r buf1 : List Nat)
    (h : fu_synaptics_rmi_hid_device_read_report buf r = .ok buf1) :
    (isDataReport r = false ∧ buf1 = buf) ∨
      (isDataReport r = true ∧ buf1 = buf ++ reportPayload r) := by
  by_cases hid : r.getD 0 0 = 0x0b
  · right
    rw [fu_synaptics_rmi_hid_device_read_report_data buf r hid] at h
    split at h
    · simp at h
    · simp only [Res.ok.injEq] at h
      exact ⟨by simp only [isDataReport, decide_eq_true_eq]; exact hid, h.symm⟩
  · left
    by_cases hne : r = []
    · rw [hne] at h
      simp [fu_synaptics_rmi_hid_device_read_report] at h
    · rw [fu_synaptics_rmi_hid_device_read_report_skip buf r hne hid] at h
      simp only [Res.ok.injEq] at h
      exact ⟨by simp only [isDataReport, decide_eq_false_iff_not]; exact hid, h.symm⟩

theorem fu_synaptics_rmi_hid_device_read_loop_reports (n : Nat) (c : HidChannel)
    (reports : List (List Nat)) :
    ∀ buf bytes c1, fu_synaptics_rmi_hid_device_read_loop n c buf (reports.map .ok) =
        (.ok bytes, c1) →
      ∃ k, bytes = buf ++ (((reports.filter isDataReport).take k).map reportPayload).flatten ∧
        ∀ j, j < k →
          (buf ++ (((reports.filter isDataReport).take j).map reportPayload).flatten).length
            < n := by
  induction reports with
  | nil =>
    intro buf bytes c1 h
    simp only [List.map_nil] at h
    unfold fu_synaptics_rmi_hid_device_read_loop at h
    split at h
    · simp at h
    · simp only [Prod.mk.injEq, Res.ok.injEq] at h
      exact ⟨0, by simp [h.1], by intro j hj; omega⟩
  | cons r rest ih =>
    intro buf bytes c1 h
    simp only [List.map_cons] at h
    by_cases hlt : buf.length < n
    · rw [fu_synaptics_rmi_hid_device_read_loop_step n c buf r _ hlt] at h
      cases hrep : fu_synaptics_rmi_hid_device_read_report buf r with
      | error e => rw [hrep] at h; simp at h
      | ok buf1 =>
        rw [hrep] at h
        simp only at h
        obtain ⟨k, hk, hmin⟩ := ih buf1 bytes c1 h
        rcases fu_synaptics_rmi_hid_device_read_report_ok buf r buf1 hrep with ⟨hnd, hb⟩ | ⟨hd, hb⟩
        · refine ⟨k, ?_, ?_⟩
          · rw [List.filter_cons_of_neg (by simp [hnd]), hk, hb]
          · intro j hj
            rw [List.filter_cons_of_neg (by simp [hnd])]
            have := hmin j hj
            rw [hb] at this
            exact this
        · refine ⟨k + 1, ?_, ?_⟩
          · rw [List.filter_cons_of_pos hd, hk, hb]
            simp [List.append_assoc]
          · intro j hj
            rw [List.filter_cons_of_pos hd]
            cases j with
            | zero => simpa using hlt
            | succ j' =>
              have := hmin j' (by omega)
              rw [hb] at this
              simpa [List.append_assoc] using this
    · rw [fu_synaptics_rmi_hid_device_read_loop_done n c buf _ hlt] at h
      simp only [Prod.mk.injEq, Res.ok.injEq] at h
      exact ⟨0, by simp [h.1], by intro j hj; omega⟩

theorem fu_synaptics_rmi_hid_device_read_loop_skip (n : Nat) (c : HidChannel) (buf r : List Nat)
    (rest : List (Res (List Nat))) (hne : r ≠ []) (hid : r.getD 0 0 ≠ 0x0b) :
    (fu_synaptics_rmi_hid_device_read_loop n c buf (.ok r :: rest)).1 =
        (fu_synaptics_rmi_hid_device_read_loop n c buf rest).1 := by
  by_cases hlt : buf.length < n
  · rw [fu_synaptics_rmi_hid_device_read_loop_step n c buf r rest hlt,
      fu_synaptics_rmi_hid_device_read_report_skip buf r hne hid]
  · rw [fu_synaptics_rmi_hid_device_read_loop_done n c buf _ hlt,
      fu_synaptics_rmi_hid_device_read_loop_done n c buf _ hlt]

theorem fu_synaptics_rmi_hid_device_read_loop_insert (n : Nat) (c : HidChannel) (r : List Nat)
    (post : List (Res (List Nat))) (hne : r ≠ []) (hid : r.getD 0 0 ≠ 0x0b)
    (pre : List (Res (List Nat))) :
    ∀ buf, (fu_synaptics_rmi_hid_device_read_loop n c buf (pre ++ .ok r :: post)).1 =
      (fu_synaptics_rmi_hid_device_read_loop n c buf (pre ++ post)).1 := by
  induction pre with
  | nil => intro buf; exact fu_synaptics_rmi_hid_device_read_loop_skip n c buf r post hne hid
  | cons x pre ih =>
    intro buf
    simp only [List.cons_append]
    by_cases hlt : buf.length < n
    · cases x with
      | error e =>
        rw [fu_synaptics_rmi_hid_device_read_loop_step_error n c buf e _ hlt,
            fu_synaptics_rmi_hid_device_read_loop_step_error n c buf e _ hlt]
      | ok res =>
        rw [fu_synaptics_rmi_hid_device_read_loop_step n c buf res _ hlt,
            fu_synaptics_rmi_hid_device_read_loop_step n c buf res _ hlt]
        cases hrep : fu_synaptics_rmi_hid_device_read_report buf res with
        | error e => rfl
        | ok buf1 => exact ih buf1
    · rw [fu_synaptics_rmi_hid_device_read_loop_done n c buf _ hlt,
        fu_synaptics_rmi_hid_device_read_loop_done n c buf _ hlt]

theorem fu_synaptics_rmi_hid_device_read_fst (addr n : Nat) (c : HidChannel) :
    (fu_synaptics_rmi_hid_device_read addr n c).1 =
      if n > 0xffff then .error .internal
      else match c.writeErrs.head? with
        | some (some e) => .error e
        | _ => (fu_synaptics_rmi_hid_device_read_loop n c [] c.inputs).1 := by
  unfold fu_synaptics_rmi_hid_device_read
  split
  · rfl
  · unfold fu_io_channel_write_byte_array
    cases hh : c.writeErrs.head? with
    | none => simp only; exact fu_synaptics_rmi_hid_device_read_loop_fst_channel n _ c c.inputs []
    | some o =>
      cases o with
      | none => simp only; exact fu_synaptics_rmi_hid_device_read_loop_fst_channel n _ c c.inputs []
      | some e => rfl

/-- C6: when the HID `read(addr, n)` succeeds on a stream of input reports, the returned
bytes are the payload slices `report[2 .. 2 + report[1])` of the first `k` reports with
byte 0 equal to `0x0B`, concatenated in arrival order, where `k` is the first count at
which `n` bytes have accumulated; and a non-empty report with another byte 0, put
anywhere into the stream, leaves the returned bytes as they are. -/
theorem fu_synaptics_rmi_hid_device_read_concatenates_data_reports (addr n : Nat) (c : HidChannel)
    (reports : List (List Nat)) (bytes : List Nat) (c1 : HidChannel)
    (h : fu_synaptics_rmi_hid_device_read addr n { c with inputs := reports.map .ok } =
        (.ok bytes, c1)) :
    (∃ k, bytes = (((reports.filter isDataReport).take k).map reportPayload).flatten ∧
        n ≤ bytes.length ∧
        ∀ j, j < k →
          (((reports.filter isDataReport).take j).map reportPayload).flatten.length < n) ∧
      ∀ (pre post : List (List Nat)) (r : List Nat), reports = pre ++ post → r ≠ [] →
        r.getD 0 0 ≠ 0x0b →
        (fu_synaptics_rmi_hid_device_read addr n { c with inputs := (pre ++ r :: post).map .ok }).1
            = .ok bytes := by
  obtain ⟨hn, c2, hloop⟩ := fu_synaptics_rmi_hid_device_read_ok_inv addr n _ bytes c1 h
  simp only at hloop
  refine ⟨?_, ?_⟩
  · obtain ⟨k, hk, hmin⟩ := fu_synaptics_rmi_hid_device_read_loop_reports n c2 reports [] bytes c1
      hloop
    refine ⟨k, by simpa using hk,
        fu_synaptics_rmi_hid_device_read_loop_ok_ge n c2 _ [] bytes c1 hloop, ?_⟩
    intro j hj
    simpa using hmin j hj
  · intro pre post r hsplit hne hid
    have h1 : (fu_synaptics_rmi_hid_device_read addr n { c with inputs := reports.map .ok }).1 =
        .ok bytes := by
      rw [h]
    rw [fu_synaptics_rmi_hid_device_read_fst] at h1 ⊢
    rw [if_neg (by omega)] at h1 ⊢
    simp only at h1 ⊢
    have hins :
        (fu_synaptics_rmi_hid_device_read_loop n { c with inputs := (pre ++ r :: post).map .ok } []
          ((pre ++ r :: post).map .ok)).1 =
        (fu_synaptics_rmi_hid_device_read_loop n { c with inputs := reports.map .ok } []
            (reports.map .ok)).1 := by
      rw [hsplit]
      simp only [List.map_append, List.map_cons]
      rw [fu_synaptics_rmi_hid_device_read_loop_insert n _ r _ hne hid]
      exact fu_synaptics_rmi_hid_device_read_loop_fst_channel n _ _ _ []
    cases hh : c.writeErrs.head? with
    | none => rw [hh] at h1; simp only at h1 ⊢; rw [hins]; exact h1
    | some o =>
      cases o with
      | none => rw [hh] at h1; simp only at h1 ⊢; rw [hins]; exact h1
      | some e => rw [hh] at h1; simp at h1

theorem fu_synaptics_rmi_hid_device_read_concatenates_data_reports_witness :
    (∃ k, [0xaa, 0xbb, 0xcc, 0xdd] =
          ((([[0x0b, 2, 0xaa, 0xbb, 0], [0x0c, 1], [0x0b, 2, 0xcc, 0xdd, 0]].filter
            isDataReport).take k).map reportPayload).flatten ∧
        4 ≤ [0xaa, 0xbb, 0xcc, 0xdd].length ∧
        ∀ j, j < k →
          ((([[0x0b, 2, 0xaa, 0xbb, 0], [0x0c, 1], [0x0b, 2, 0xcc, 0xdd, 0]].filter
            isDataReport).take j).map reportPayload).flatten.length < 4) ∧
      ∀ (pre post : List (List Nat)) (r : List Nat),
        [[0x0b, 2, 0xaa, 0xbb, 0], [0x0c, 1], [0x0b, 2, 0xcc, 0xdd, 0]] = pre ++ post →
        r ≠ [] → r.getD 0 0 ≠ 0x0b →
        (fu_synaptics_rmi_hid_device_read 0x0104 4 { (⟨[], [], []⟩ : HidChannel) with
            inputs := (pre ++ r :: post).map .ok }).1 = .ok [0xaa, 0xbb, 0xcc, 0xdd] :=
  fu_synaptics_rmi_hid_device_read_concatenates_data_reports 0x0104 4 ⟨[], [], []⟩
    [[0x0b, 2, 0xaa, 0xbb, 0], [0x0c, 1], [0x0b, 2, 0xcc, 0xdd, 0]]
    [0xaa, 0xbb, 0xcc, 0xdd] ⟨[fu_synaptics_rmi_hid_device_read_request 0x0104 4], [], []⟩
        (by decide)

/-- C7: while the HID read is still accumulating (`buf` shorter than `n`), a report of
bytes that is empty or has byte 0 equal to `0x0B` fails the read with `INTERNAL` exactly
when it is shorter than 2 bytes, or its count byte is 0, or count + 2 exceeds its
length; otherwise it is accepted and exactly count bytes, `report[2 .. 2 + count)`, are
appended. -/
theorem fu_synaptics_rmi_hid_device_read_data_report_checks (n : Nat) (c : HidChannel)
    (buf r : List Nat)
    (rest : List (Res (List Nat))) (hacc : buf.length < n)
    (hid : r = [] ∨ r.getD 0 0 = 0x0b) (hbytes : ∀ b ∈ r, b < 256) :
    ((r.length < 2 ∨ r.getD 1 0 = 0 ∨ r.getD 1 0 + 2 > r.length) →
        fu_synaptics_rmi_hid_device_read_loop n c buf (.ok r :: rest) =
            (.error .internal, { c with inputs := rest })) ∧
      (¬ (r.length < 2 ∨ r.getD 1 0 = 0 ∨ r.getD 1 0 + 2 > r.length) →
        fu_synaptics_rmi_hid_device_read_loop n c buf (.ok r :: rest) =
            fu_synaptics_rmi_hid_device_read_loop n c (buf ++ (r.drop 2).take (r.getD 1 0)) rest ∧
          ((r.drop 2).take (r.getD 1 0)).length = r.getD 1 0) ∧
      (fu_synaptics_rmi_hid_device_read_report buf r = .error .internal ↔
        (r.length < 2 ∨ r.getD 1 0 = 0 ∨ r.getD 1 0 + 2 > r.length)) := by
  have hcount : r.getD 1 0 % 256 = r.getD 1 0 := by
    apply Nat.mod_eq_of_lt
    by_cases h1 : 1 < r.length
    · rw [List.getD_eq_getElem r 0 h1]
      exact hbytes _ (List.getElem_mem _)
    · rw [List.getD_eq_default r 0 (by omega)]
      decide
  have hrep : fu_synaptics_rmi_hid_device_read_report buf r =
      if r.length < 2 ∨ r.getD 1 0 = 0 ∨ r.getD 1 0 + 2 > r.length then .error .internal
      else .ok (buf ++ (r.drop 2).take (r.getD 1 0)) := by
    rcases hid with hnil | hid
    · rw [hnil]; rfl
    · rw [fu_synaptics_rmi_hid_device_read_report_data buf r hid, hcount]
      unfold reportPayload
      rw [hcount]
  refine ⟨?_, ?_, ?_⟩
  · intro hbad
    rw [fu_synaptics_rmi_hid_device_read_loop_step n c buf r rest hacc, hrep, if_pos hbad]
  · intro hgood
    rw [fu_synaptics_rmi_hid_device_read_loop_step n c buf r rest hacc, hrep, if_neg hgood]
    refine ⟨rfl, ?_⟩
    rw [List.length_take, List.length_drop]
    omega
  · rw [hrep]
    constructor
    · intro h
      by_contra hgood
      rw [if_neg hgood] at h
      simp at h
    · intro hbad
      rw [if_pos hbad]

theorem fu_synaptics_rmi_hid_device_read_data_report_checks_witness :
    ((([0x0b, 3, 0xaa, 0xbb] : List Nat).length < 2 ∨ [0x0b, 3, 0xaa, 0xbb].getD 1 0 = 0 ∨
          [0x0b, 3, 0xaa, 0xbb].getD 1 0 + 2 > [0x0b, 3, 0xaa, 0xbb].length) →
        fu_synaptics_rmi_hid_device_read_loop 4 ⟨[], [], []⟩ [0x11]
            (.ok [0x0b, 3, 0xaa, 0xbb] :: []) =
          (.error .internal, { (⟨[], [], []⟩ : HidChannel) with inputs := [] })) ∧
      (¬ (([0x0b, 3, 0xaa, 0xbb] : List Nat).length < 2 ∨ [0x0b, 3, 0xaa, 0xbb].getD 1 0 = 0 ∨
          [0x0b, 3, 0xaa, 0xbb].getD 1 0 + 2 > [0x0b, 3, 0xaa, 0xbb].length) →
        fu_synaptics_rmi_hid_device_read_loop 4 ⟨[], [], []⟩ [0x11]
            (.ok [0x0b, 3, 0xaa, 0xbb] :: []) =
            fu_synaptics_rmi_hid_device_read_loop 4 ⟨[], [], []⟩
              ([0x11] ++ (([0x0b, 3, 0xaa, 0xbb] : List Nat).drop 2).take
                ([0x0b, 3, 0xaa, 0xbb].getD 1 0)) [] ∧
          ((([0x0b, 3, 0xaa, 0xbb] : List Nat).drop 2).take
            ([0x0b, 3, 0xaa, 0xbb].getD 1 0)).length = [0x0b, 3, 0xaa, 0xbb].getD 1 0) ∧
      (fu_synaptics_rmi_hid_device_read_report [0x11] [0x0b, 3, 0xaa, 0xbb] = .error .internal ↔
        (([0x0b, 3, 0xaa, 0xbb] : List Nat).length < 2 ∨ [0x0b, 3, 0xaa, 0xbb].getD 1 0 = 0 ∨
          [0x0b, 3, 0xaa, 0xbb].getD 1 0 + 2 > [0x0b, 3, 0xaa, 0xbb].length)) :=
  fu_synaptics_rmi_hid_device_read_data_report_checks 4 ⟨[], [], []⟩ [0x11] [0x0b, 3, 0xaa, 0xbb] []
      (by decide)
    (Or.inr (by decide)) (by decide)

/-- C8: the HID read with `req_sz > 0xFFFF` and the HID write with a payload longer than
`0xFF` bytes fail with `INTERNAL` and leave the channel untouched, while
`req_sz = 0xFFFF` and a payload of `0xFF` bytes pass the size check and reach the
channel. -/
theorem hid_oversize_rejected :
    (∀ (addr n : Nat) (c : HidChannel), n > 0xffff → fu_synaptics_rmi_hid_device_read addr n c =
        (.error .internal, c)) ∧
      (∀ (addr : Nat) (data : List Nat) (flags : RmiFlags) (c : HidChannel),
        data.length > 0xff → fu_synaptics_rmi_hid_device_write addr (some data) flags c =
            (.error .internal, c)) ∧
      (∀ (addr : Nat) (c : HidChannel),
        (fu_synaptics_rmi_hid_device_read addr 0xffff c).2.written = c.written ++
            [fu_synaptics_rmi_hid_device_read_request addr 0xffff]) ∧
      (∀ (addr : Nat) (data : List Nat) (flags : RmiFlags) (c : HidChannel),
        data.length = 0xff →
          fu_synaptics_rmi_hid_device_write addr (some data) flags c =
            fu_io_channel_write_byte_array
                (fu_synaptics_rmi_hid_device_write_frame addr (some data)) c) := by
  refine ⟨?_, ?_, ?_, ?_⟩
  · intro addr n c hn
    unfold fu_synaptics_rmi_hid_device_read
    rw [if_pos hn]
  · intro addr data flags c hl
    unfold fu_synaptics_rmi_hid_device_write
    have h : decide (data.length > 0xff) = true := by
      simp only [decide_eq_true_eq]; exact hl
    simp only [h, if_true]
  · intro addr c
    exact fu_synaptics_rmi_hid_device_read_written addr 0xffff c (by decide)
  · intro addr data flags c hl
    unfold fu_synaptics_rmi_hid_device_write
    have h : decide (data.length > 0xff) = false := by
      simp only [decide_eq_false_iff_not]; omega
    simp only [h]
    rfl

theorem hid_oversize_rejected_witness :
    fu_synaptics_rmi_hid_device_read 0x0104 0x10000 ⟨[], [], [.ok [0x0b, 1, 0xaa]]⟩ =
        (.error .internal, ⟨[], [], [.ok [0x0b, 1, 0xaa]]⟩) ∧
      fu_synaptics_rmi_hid_device_write 0x0104 (some (List.replicate 256 0)) RmiFlags.none
          ⟨[], [], []⟩ =
        (.error .internal, ⟨[], [], []⟩) :=
  ⟨hid_oversize_rejected.1 0x0104 0x10000 _ (by decide),
    hid_oversize_rejected.2.1 0x0104 (List.replicate 256 0) RmiFlags.none _
      (by rw [List.length_replicate]; decide)⟩

/-- C9 (as amended): the HID read and the HID write issue no page select of their own:
each hands exactly one frame to the channel, the register access itself, whose byte 3
carries `addr >> 8`; the last page-select write on the wire before the access is
whatever the caller issued earlier. -/
theorem hid_access_carries_page (addr n : Nat) (data : List Nat) (flags : RmiFlags)
    (c : HidChannel) (ha : addr < 65536) (hn : n ≤ 0xffff) (hl : data.length ≤ 255) :
    ((fu_synaptics_rmi_hid_device_read addr n c).2.written = c.written ++
        [fu_synaptics_rmi_hid_device_read_request addr n] ∧
        (fu_synaptics_rmi_hid_device_read_request addr n).get? 3 = some (addr >>> 8) ∧
        lastPageSelect (fu_synaptics_rmi_hid_device_read addr n c).2.written.dropLast =
            lastPageSelect c.written) ∧
      ((fu_synaptics_rmi_hid_device_write addr (some data) flags c).2.written =
          c.written ++ [fu_synaptics_rmi_hid_device_write_frame addr (some data)] ∧
        (fu_synaptics_rmi_hid_device_write_frame addr (some data)).get? 3 = some (addr >>> 8) ∧
        lastPageSelect
            (fu_synaptics_rmi_hid_device_write addr (some data) flags c).2.written.dropLast =
          lastPageSelect c.written) := by
  refine ⟨⟨fu_synaptics_rmi_hid_device_read_written addr n c hn, ?_, ?_⟩,
      ⟨fu_synaptics_rmi_hid_device_write_written addr data flags c hl, ?_, ?_⟩⟩
  · rw [fu_synaptics_rmi_hid_device_read_request_eq addr n ha hn]; rfl
  · rw [fu_synaptics_rmi_hid_device_read_written addr n c hn, List.dropLast_concat]
  · rw [fu_synaptics_rmi_hid_device_write_frame_eq addr data ha hl]; rfl
  · rw [fu_synaptics_rmi_hid_device_write_written addr data flags c hl, List.dropLast_concat]

theorem hid_access_carries_page_witness :
    (fu_synaptics_rmi_hid_device_read 0x0104 4 ⟨[], [], []⟩).2.written = [] ++
        [fu_synaptics_rmi_hid_device_read_request 0x0104 4] ∧
      (fu_synaptics_rmi_hid_device_read_request 0x0104 4).get? 3 = some (0x0104 >>> 8) :=
  ⟨(hid_access_carries_page 0x0104 4 [0x01] RmiFlags.none ⟨[], [], []⟩ (by decide) (by decide)
      (by decide)).1.1,
    (hid_access_carries_page 0x0104 4 [0x01] RmiFlags.none ⟨[], [], []⟩ (by decide) (by decide)
      (by decide)).1.2.1⟩

/-- C9 (counterexample): after `set_page(0)` a read at `0x0104` puts only its request on
the wire, so the last page-select write before the access carries page 0 and not
`0x0104 >> 8 = 1`. -/
theorem hid_access_page_select_counterexample :
    (fu_synaptics_rmi_hid_device_read 0x0104 4
        (fu_synaptics_rmi_hid_device_set_page 0 ⟨[], [], []⟩).2).2.written =
        [fu_synaptics_rmi_hid_device_write_frame 0xff (some [0]),
            fu_synaptics_rmi_hid_device_read_request 0x0104 4] ∧
      lastPageSelect
          (fu_synaptics_rmi_hid_device_read 0x0104 4
          (fu_synaptics_rmi_hid_device_set_page 0 ⟨[], [], []⟩).2).2.written.dropLast =
        some 0 ∧
      lastPageSelect
          (fu_synaptics_rmi_hid_device_read 0x0104 4
          (fu_synaptics_rmi_hid_device_set_page 0 ⟨[], [], []⟩).2).2.written.dropLast ≠
        some (0x0104 >>> 8) := by
  decide

/-! ## PS/2 transport: auxiliary facts -/

theorem Ps2Out.andThen_eq_some {α β : Type} (m : Ps2Out α) (k : α → Ps2State → Ps2Out β)
    (r : Res β) (t : Ps2State) (h : m.andThen k = some (r, t)) :
    (∃ e, m = some (.error e, t) ∧ r = .error e) ∨
      (∃ a s1, m = some (.ok a, s1) ∧ k a s1 = some (r, t)) := by
  unfold Ps2Out.andThen at h
  split at h
  · simp at h
  · rename_i e s
    simp only [Option.some.injEq, Prod.mk.injEq] at h
    left
    exact ⟨e, by rw [h.2], h.1.symm⟩
  · rename_i a s
    right
    exact ⟨a, s, rfl, h⟩


theorem TxGrows.seq {α β : Type} {s : Ps2State} {m : Ps2Out α}
    {k : α → Ps2State → Ps2Out β} (hm : TxGrows s m) (hk : ∀ a s1, TxGrows s1 (k a s1)) :
    TxGrows s (m.andThen k) := by
  intro r t h
  rcases Ps2Out.andThen_eq_some m k r t h with ⟨e, hme, _⟩ | ⟨a, s1, hma, hka⟩
  · exact hm _ _ hme
  · exact (hm _ _ hma).trans (hk a s1 _ _ hka)

theorem TxGrows.pure {α : Type} (s : Ps2State) (r : Res α) (t : Ps2State) (h : t.tx = s.tx) :
    TxGrows s (some (r, t)) := by
  intro r1 t1 h1
  simp only [Option.some.injEq, Prod.mk.injEq] at h1
  rw [← h1.2, h]

theorem fu_io_channel_write_raw_tx (b : Nat) (s : Ps2State) :
    (fu_io_channel_write_raw b s).2.tx = s.tx ++ [b] := by
  unfold fu_io_channel_write_raw
  split <;> rfl

theorem fu_io_channel_read_raw_tx (s : Ps2State) : (fu_io_channel_read_raw s).2.tx = s.tx := by
  unfold fu_io_channel_read_raw
  split <;> rfl

theorem read_ack_loop_tx (n : Nat) :
    ∀ s, (fu_synaptics_rmi_ps2_device_read_ack_loop n s).2.tx = s.tx := by
  induction n with
  | zero => intro s; rfl
  | succ n ih =>
    intro s
    unfold fu_synaptics_rmi_ps2_device_read_ack_loop
    have hr := fu_io_channel_read_raw_tx s
    cases hraw : fu_io_channel_read_raw s with
    | mk r s1 =>
      rw [hraw] at hr
      cases r with
      | ok b => exact hr
      | error e =>
        simp only
        split
        · rw [ih s1]; exact hr
        · exact hr

theorem write_byte_ack_loop_tx (i : Nat) (fuel : Nat) :
    ∀ s x t, fu_synaptics_rmi_ps2_device_write_byte_ack_loop i fuel s = some (x, t) →
      t.tx = s.tx := by
  induction fuel with
  | zero => intro s x t h; simp [fu_synaptics_rmi_ps2_device_write_byte_ack_loop] at h
  | succ fuel ih =>
    intro s x t h
    unfold fu_synaptics_rmi_ps2_device_write_byte_ack_loop at h
    have hr : (fu_synaptics_rmi_ps2_device_read_ack s).2.tx = s.tx := read_ack_loop_tx 60 s
    cases hack : fu_synaptics_rmi_ps2_device_read_ack s with
    | mk r s1 =>
      rw [hack] at h hr
      cases r with
      | error e =>
        simp only at h
        split at h <;>
          (simp only [Option.some.injEq, Prod.mk.injEq] at h; rw [← h.2]; exact hr)
      | ok res =>
        simp only at h
        split at h
        · simp only [Option.some.injEq, Prod.mk.injEq] at h; rw [← h.2]; exact hr
        · split at h
          · simp only [Option.some.injEq, Prod.mk.injEq] at h; rw [← h.2]; exact hr
          · split at h
            · simp only [Option.some.injEq, Prod.mk.injEq] at h; rw [← h.2]; exact hr
            · rw [ih s1 x t h]; exact hr

theorem write_byte_loop_txGrows (buf : Nat) (flags : RmiFlags) (fuel : Nat) :
    ∀ i do_write s,
      TxGrows s (fu_synaptics_rmi_ps2_device_write_byte_loop buf flags fuel i do_write s) := by
  induction fuel with
  | zero =>
    intro i do_write s r t h
    simp [fu_synaptics_rmi_ps2_device_write_byte_loop] at h
  | succ fuel ih =>
    intro i do_write s r t h
    unfold fu_synaptics_rmi_ps2_device_write_byte_loop at h
    have hw : s.tx <+:
        (if do_write then fu_io_channel_write_raw buf s else (Res.ok (), s)).2.tx := by
      cases do_write with
      | true =>
        simp only [if_true]
        rw [fu_io_channel_write_raw_tx]
        exact List.prefix_append _ _
      | false => exact List.prefix_refl _
    cases hwr : (if do_write then fu_io_channel_write_raw buf s else (Res.ok (), s)) with
    | mk r1 s1 =>
      rw [hwr] at h hw
      cases r1 with
      | error e =>
        simp only [Option.some.injEq, Prod.mk.injEq] at h
        rw [← h.2]; exact hw
      | ok u =>
        simp only at h hw
        cases hack : fu_synaptics_rmi_ps2_device_write_byte_ack_loop i (s1.rx.length + 1) s1 with
        | none => rw [hack] at h; simp at h
        | some p =>
          obtain ⟨x, s2⟩ := p
          have htx := write_byte_ack_loop_tx i _ s1 x s2 hack
          rw [hack] at h
          cases x with
          | returned r2 =>
            simp only [Option.some.injEq, Prod.mk.injEq] at h
            rw [← h.2, htx]; exact hw
          | broke dw =>
            simp only at h
            split at h
            · split at h <;>
                (simp only [Option.some.injEq, Prod.mk.injEq] at h; rw [← h.2, htx]; exact hw)
            · have := ih (i + 1) dw s2 r t h
              rw [htx] at this
              exact hw.trans this

theorem write_byte_txGrows (buf timeout : Nat) (flags : RmiFlags) (s : Ps2State) :
    TxGrows s (fu_synaptics_rmi_ps2_device_write_byte buf timeout flags s) :=
  write_byte_loop_txGrows buf flags 4 0 true s

theorem set_resolution_sequence_e6_txGrows (n : Nat) :
    ∀ s, TxGrows s (fu_synaptics_rmi_ps2_device_set_resolution_sequence_e6 n s) := by
  induction n with
  | zero => intro s; exact TxGrows.pure s _ s rfl
  | succ n ih =>
    intro s
    unfold fu_synaptics_rmi_ps2_device_set_resolution_sequence_e6
    exact (write_byte_txGrows _ _ _ s).seq fun _ s1 => ih s1

theorem set_resolution_sequence_args_txGrows (arg n : Nat) :
    ∀ s, TxGrows s (fu_synaptics_rmi_ps2_device_set_resolution_sequence_args arg n s) := by
  induction n with
  | zero => intro s; exact TxGrows.pure s _ s rfl
  | succ n ih =>
    intro s
    unfold fu_synaptics_rmi_ps2_device_set_resolution_sequence_args
    exact (write_byte_txGrows _ _ _ s).seq fun _ s1 =>
      (write_byte_txGrows _ _ _ s1).seq fun _ s2 => ih s2

theorem set_resolution_sequence_txGrows (arg : Nat) (send_e6s : Bool) (s : Ps2State) :
    TxGrows s (fu_synaptics_rmi_ps2_device_set_resolution_sequence arg send_e6s s) := by
  unfold fu_synaptics_rmi_ps2_device_set_resolution_sequence
  exact (set_resolution_sequence_e6_txGrows _ s).seq fun _ s1 =>
    set_resolution_sequence_args_txGrows arg 4 s1

theorem sample_rate_loop_txGrows (param arg : Nat) (fuel : Nat) :
    ∀ i send_e6s s,
      TxGrows s (fu_synaptics_rmi_ps2_device_sample_rate_loop param arg fuel i send_e6s s) := by
  induction fuel with
  | zero =>
    intro i send_e6s s r t h
    simp [fu_synaptics_rmi_ps2_device_sample_rate_loop] at h
  | succ fuel ih =>
    intro i send_e6s s r t h
    unfold fu_synaptics_rmi_ps2_device_sample_rate_loop at h
    simp only at h
    have hbody : TxGrows s
        ((fu_synaptics_rmi_ps2_device_set_resolution_sequence arg
            (if i > 0 then true else send_e6s) s).andThen
          (fun _ s1 =>
            (fu_synaptics_rmi_ps2_device_write_byte FU_RMI_EDP_COMMAND_AUX_SET_SAMPLE_RATE 50
              RmiFlags.none s1).andThen fun _ s2 =>
            fu_synaptics_rmi_ps2_device_write_byte param 50 RmiFlags.none s2)) :=
      (set_resolution_sequence_txGrows _ _ s).seq fun _ s1 =>
        (write_byte_txGrows _ _ _ s1).seq fun _ s2 => write_byte_txGrows _ _ _ s2
    split at h
    · simp at h
    · rename_i e s3 hb
      have h3 := hbody _ _ hb
      split at h
      · simp only [Option.some.injEq, Prod.mk.injEq] at h
        rw [← h.2]; exact h3
      · exact h3.trans (ih _ _ s3 r t h)
    · rename_i s3 hb
      have h3 := hbody _ _ hb
      simp only [Option.some.injEq, Prod.mk.injEq] at h
      rw [← h.2]; exact h3

theorem ps2_enter_iep_mode_txGrows (K : RmiStruct) (s : Ps2State) :
    TxGrows s (fu_synaptics_rmi_ps2_device_enter_iep_mode K s) := by
  unfold fu_synaptics_rmi_ps2_device_enter_iep_mode
  exact (write_byte_txGrows _ _ _ s).seq fun _ s1 => sample_rate_loop_txGrows _ _ 5 0 false s1

theorem enter_iep_mode_txGrows (K : RmiStruct) (flags : RmiFlags) (s : Ps2State) :
    TxGrows s (fu_synaptics_rmi_device_enter_iep_mode K flags s) := by
  unfold fu_synaptics_rmi_device_enter_iep_mode
  split
  · exact TxGrows.pure s _ s rfl
  · exact (ps2_enter_iep_mode_txGrows K s).seq fun _ s1 => TxGrows.pure s1 _ _ rfl

theorem write_rmi_register_data_txGrows (timeout : Nat) (flags : RmiFlags) (data : List Nat) :
    ∀ s, TxGrows s (fu_synaptics_rmi_ps2_device_write_rmi_register_data timeout flags data s) := by
  induction data with
  | nil => intro s; exact TxGrows.pure s _ s rfl
  | cons b rest ih =>
    intro s
    unfold fu_synaptics_rmi_ps2_device_write_rmi_register_data
    exact (write_byte_txGrows _ _ _ s).seq fun _ s1 =>
      (write_byte_txGrows _ _ _ s1).seq fun _ s2 => ih s2

theorem write_rmi_register_txGrows (K : RmiStruct) (addr : Nat) (buf : List Nat)
    (buflen timeout : Nat) (flags : RmiFlags) (s : Ps2State) :
    TxGrows s
        (fu_synaptics_rmi_ps2_device_write_rmi_register K addr buf buflen timeout flags s) := by
  unfold fu_synaptics_rmi_ps2_device_write_rmi_register
  exact (enter_iep_mode_txGrows K _ s).seq fun _ s1 =>
    (write_byte_txGrows _ _ _ s1).seq fun _ s2 =>
      (write_byte_txGrows _ _ _ s2).seq fun _ s3 =>
        (write_byte_txGrows _ _ _ s3).seq fun _ s4 =>
          write_rmi_register_data_txGrows _ _ _ s4

theorem read_rmi_register_loop_txGrows (addr : Nat) (fuel : Nat) :
    ∀ retries s,
      TxGrows s (fu_synaptics_rmi_ps2_device_read_rmi_register_loop addr fuel retries s) := by
  induction fuel with
  | zero =>
    intro retries s r t h
    simp [fu_synaptics_rmi_ps2_device_read_rmi_register_loop] at h
  | succ fuel ih =>
    intro retries s
    unfold fu_synaptics_rmi_ps2_device_read_rmi_register_loop
    refine (write_byte_txGrows _ _ _ s).seq fun _ s1 =>
      (write_byte_txGrows _ _ _ s1).seq fun _ s2 =>
        (write_byte_txGrows _ _ _ s2).seq fun _ s3 =>
          (write_byte_txGrows _ _ _ s3).seq fun _ s4 => ?_
    intro r t h
    have hr : (fu_synaptics_rmi_ps2_device_read_byte 10 s4).2.tx = s4.tx :=
      fu_io_channel_read_raw_tx s4
    cases hrb : fu_synaptics_rmi_ps2_device_read_byte 10 s4 with
    | mk r1 s5 =>
      rw [hrb] at h hr
      cases r1 with
      | ok b =>
        simp only [Option.some.injEq, Prod.mk.injEq] at h
        rw [← h.2, hr]
      | error e =>
        simp only at h hr
        split at h
        · simp only [Option.some.injEq, Prod.mk.injEq] at h
          rw [← h.2, hr]
        · have := ih _ s5 r t h
          rw [hr] at this
          exact this

theorem read_rmi_register_txGrows (K : RmiStruct) (addr : Nat) (s : Ps2State) :
    TxGrows s (fu_synaptics_rmi_ps2_device_read_rmi_register K addr s) := by
  unfold fu_synaptics_rmi_ps2_device_read_rmi_register
  exact (enter_iep_mode_txGrows K _ s).seq fun _ s1 =>
    read_rmi_register_loop_txGrows addr 3 0 s1

theorem read_rmi_packet_register_bytes_txGrows (n : Nat) :
    ∀ buf s, TxGrows s (fu_synaptics_rmi_ps2_device_read_rmi_packet_register_bytes n buf s) := by
  induction n with
  | zero => intro buf s; exact TxGrows.pure s _ s rfl
  | succ n ih =>
    intro buf s r t h
    unfold fu_synaptics_rmi_ps2_device_read_rmi_packet_register_bytes at h
    have hr : (fu_synaptics_rmi_ps2_device_read_byte 10 s).2.tx = s.tx :=
      fu_io_channel_read_raw_tx s
    cases hrb : fu_synaptics_rmi_ps2_device_read_byte 10 s with
    | mk r1 s1 =>
      rw [hrb] at h hr
      cases r1 with
      | error e =>
        simp only [Option.some.injEq, Prod.mk.injEq] at h
        rw [← h.2, hr]
      | ok b =>
        simp only at h hr
        have := ih _ s1 r t h
        rw [hr] at this
        exact this

theorem read_rmi_packet_register_txGrows (K : RmiStruct) (addr req_sz : Nat) (s : Ps2State) :
    TxGrows s (fu_synaptics_rmi_ps2_device_read_rmi_packet_register K addr req_sz s) := by
  unfold fu_synaptics_rmi_ps2_device_read_rmi_packet_register
  exact (enter_iep_mode_txGrows K _ s).seq fun _ s1 =>
    (write_byte_txGrows _ _ _ s1).seq fun _ s2 =>
      (write_byte_txGrows _ _ _ s2).seq fun _ s3 =>
        (write_byte_txGrows _ _ _ s3).seq fun _ s4 =>
          (write_byte_txGrows _ _ _ s4).seq fun _ s5 =>
            read_rmi_packet_register_bytes_txGrows req_sz [] s5

theorem read_registers_txGrows (K : RmiStruct) (addr : Nat) (n : Nat) :
    ∀ i buf s, TxGrows s (fu_synaptics_rmi_ps2_device_read_registers K addr n i buf s) := by
  induction n with
  | zero => intro i buf s; exact TxGrows.pure s _ s rfl
  | succ n ih =>
    intro i buf s
    unfold fu_synaptics_rmi_ps2_device_read_registers
    exact (read_rmi_register_txGrows K _ s).seq fun _ s1 => ih _ _ s1

theorem read_loop_txGrows (K : RmiStruct) (addr req_sz : Nat) (fuel : Nat) :
    ∀ retries s,
      TxGrows s (fu_synaptics_rmi_ps2_device_read_loop K addr req_sz fuel retries s) := by
  induction fuel with
  | zero =>
    intro retries s r t h
    simp [fu_synaptics_rmi_ps2_device_read_loop] at h
  | succ fuel ih =>
    intro retries s
    unfold fu_synaptics_rmi_ps2_device_read_loop
    refine (read_registers_txGrows K addr req_sz 0 [] s).seq fun buf s1 => ?_
    split
    · split
      · exact TxGrows.pure s1 _ s1 rfl
      · exact ih _ s1
    · exact TxGrows.pure s1 _ s1 rfl

theorem read_registers_ok (K : RmiStruct) (addr : Nat) (n : Nat) :
    ∀ i buf s bytes t,
      fu_synaptics_rmi_ps2_device_read_registers K addr n i buf s = some (.ok bytes, t) →
      ∃ bs, bytes = buf ++ bs ∧ bs.length = n ∧ RegisterReads K addr i s bs t := by
  induction n with
  | zero =>
    intro i buf s bytes t h
    simp only [fu_synaptics_rmi_ps2_device_read_registers, Option.some.injEq, Prod.mk.injEq,
      Res.ok.injEq] at h
    refine ⟨[], by simp [h.1], rfl, ?_⟩
    rw [← h.2]
    exact RegisterReads.done i s
  | succ n ih =>
    intro i buf s bytes t h
    unfold fu_synaptics_rmi_ps2_device_read_registers at h
    rcases Ps2Out.andThen_eq_some _ _ _ _ h with ⟨e, _, he⟩ | ⟨tmp, s1, hread, hrest⟩
    · simp at he
    · obtain ⟨bs, hb, hlen, hchain⟩ := ih (i + 1) (buf ++ [tmp]) s1 bytes t hrest
      refine ⟨tmp :: bs, by simp [hb], by simp [hlen], ?_⟩
      exact RegisterReads.step i s s1 t tmp bs hread hchain

theorem read_loop_ok (K : RmiStruct) (addr req_sz : Nat) (fuel : Nat) :
    ∀ retries s bytes t,
      fu_synaptics_rmi_ps2_device_read_loop K addr req_sz fuel retries s = some (.ok bytes, t) →
      bytes.length = req_sz ∧ RegisterReads K addr 0 s bytes t := by
  induction fuel with
  | zero =>
    intro retries s bytes t h
    simp [fu_synaptics_rmi_ps2_device_read_loop] at h
  | succ fuel ih =>
    intro retries s bytes t h
    unfold fu_synaptics_rmi_ps2_device_read_loop at h
    rcases Ps2Out.andThen_eq_some _ _ _ _ h with ⟨e, _, he⟩ | ⟨buf, s1, hregs, hrest⟩
    · simp at he
    · obtain ⟨bs, hb, hlen, hchain⟩ := read_registers_ok K addr req_sz 0 [] s buf s1 hregs
      simp only [List.nil_append] at hb
      subst hb
      rw [if_neg (by simp [hlen])] at hrest
      simp only [Option.some.injEq, Prod.mk.injEq, Res.ok.injEq] at hrest
      rw [← hrest.1, ← hrest.2]
      exact ⟨hlen, hchain⟩

theorem RegisterReads.nth (K : RmiStruct) (addr : Nat) {i : Nat} {s t : Ps2State}
    {bs : List Nat} (h : RegisterReads K addr i s bs t) :
    ∀ j, j < bs.length → ∃ sj sj1,
      fu_synaptics_rmi_ps2_device_read_rmi_register K (((addr &&& 0xff) + (i + j)) % 256) sj =
        some (.ok (bs.getD j 0), sj1) := by
  induction h with
  | done i s => intro j hj; simp at hj
  | step i s s1 t b bs hread _ ih =>
    intro j hj
    cases j with
    | zero => exact ⟨s, s1, by simpa using hread⟩
    | succ j =>
      obtain ⟨sj, sj1, hj1⟩ := ih j (by simpa using hj)
      refine ⟨sj, sj1, ?_⟩
      have e : i + (j + 1) = i + 1 + j := by omega
      rw [e]
      simpa using hj1

/-! ## PS/2 transport: claims -/

/-- C2: for `n < 2^32`, a PS/2 `read(addr, n)` that returns success returns exactly `n`
bytes, obtained after the page select by successive single-register reads: byte `i` is
the value of the `i`-th read, which targets the in-page address
`((addr & 0xFF) + i) mod 256`, for `i = 0 .. n-1` in increasing order. -/
theorem fu_synaptics_rmi_ps2_device_read_ok (K : RmiStruct)
    (set_page : Nat → Ps2State → Ps2Out Unit) (addr n : Nat) (s : Ps2State)
    (bytes : List Nat) (t : Ps2State) (_hn : n < 2 ^ 32)
    (h : fu_synaptics_rmi_ps2_device_read K set_page addr n s = some (.ok bytes, t)) :
    bytes.length = n ∧
      (∃ s1, set_page ((addr % 65536) >>> 8) s = some (.ok (), s1) ∧
        RegisterReads K addr 0 s1 bytes t) ∧
      ∀ i, i < n → ∃ si si1,
        fu_synaptics_rmi_ps2_device_read_rmi_register K (((addr &&& 0xff) + i) % 256) si =
          some (.ok (bytes.getD i 0), si1) := by
  unfold fu_synaptics_rmi_ps2_device_read at h
  rcases Ps2Out.andThen_eq_some _ _ _ _ h with ⟨e, _, he⟩ | ⟨u, s1, hpage, hloop⟩
  · simp at he
  · obtain ⟨hlen, hchain⟩ := read_loop_ok K addr n 3 0 s1 bytes t hloop
    refine ⟨hlen, ⟨s1, hpage, hchain⟩, ?_⟩
    intro i hi
    obtain ⟨si, si1, hr⟩ := RegisterReads.nth K addr hchain i (by omega)
    exact ⟨si, si1, by simpa using hr⟩

set_option maxRecDepth 100000 in
theorem fu_synaptics_rmi_ps2_device_read_ok_witness :
    ([0x11, 0x22] : List Nat).length = 2 ∧
      (∃ s1, fu_synaptics_rmi_device_set_page sampleStruct ((0x01ff % 65536) >>> 8)
            ⟨[], [], [.ok 0xfa, .ok 0xfa, .ok 0xfa, .ok 0xfa, .ok 0xfa,
              .ok 0xfa, .ok 0xfa, .ok 0xfa, .ok 0xfa, .ok 0x11,
              .ok 0xfa, .ok 0xfa, .ok 0xfa, .ok 0xfa, .ok 0x22], true⟩ = some (.ok (), s1) ∧
        RegisterReads sampleStruct 0x01ff 0 s1 [0x11, 0x22]
          ⟨[0xe7, 0xf3, 0xff, 0xf3, 0x01, 0xe7, 0xf3, 0xff, 0xe9, 0xe7, 0xf3, 0x00, 0xe9],
            [], [], true⟩) ∧
      ∀ i, i < 2 → ∃ si si1,
        fu_synaptics_rmi_ps2_device_read_rmi_register sampleStruct
            (((0x01ff &&& 0xff) + i) % 256) si =
          some (.ok (([0x11, 0x22] : List Nat).getD i 0), si1) :=
  fu_synaptics_rmi_ps2_device_read_ok sampleStruct (fu_synaptics_rmi_device_set_page sampleStruct)
    0x01ff 2
    ⟨[], [], [.ok 0xfa, .ok 0xfa, .ok 0xfa, .ok 0xfa, .ok 0xfa,
      .ok 0xfa, .ok 0xfa, .ok 0xfa, .ok 0xfa, .ok 0x11,
      .ok 0xfa, .ok 0xfa, .ok 0xfa, .ok 0xfa, .ok 0x22], true⟩
    [0x11, 0x22]
    ⟨[0xe7, 0xf3, 0xff, 0xf3, 0x01, 0xe7, 0xf3, 0xff, 0xe9, 0xe7, 0xf3, 0x00, 0xe9], [], [], true⟩
    (by decide) (by decide)

/-- C10: every PS/2 `read`, `read_packet_register` and `write` at `addr` begins by calling
`set_page(addr >> 8)`: the bytes that call put on the wire stay the beginning of
everything the operation sends, and when the call fails the operation returns its
error at once, with the channel as the failed call left it. -/
theorem fu_synaptics_rmi_ps2_device_set_page_first (K : RmiStruct)
    (set_page : Nat → Ps2State → Ps2Out Unit) (addr : Nat) :
    (∀ (n : Nat) (s : Ps2State) (r : Res (List Nat)) (t : Ps2State),
        fu_synaptics_rmi_ps2_device_read K set_page addr n s = some (r, t) →
        ∃ r1 s1, set_page ((addr % 65536) >>> 8) s = some (r1, s1) ∧ s1.tx <+: t.tx ∧
          ∀ e, r1 = .error e → r = .error e ∧ t = s1) ∧
      (∀ (n : Nat) (s : Ps2State) (r : Res (List Nat)) (t : Ps2State),
        fu_synaptics_rmi_ps2_device_read_packet_register K set_page addr n s = some (r, t) →
        ∃ r1 s1, set_page ((addr % 65536) >>> 8) s = some (r1, s1) ∧ s1.tx <+: t.tx ∧
          ∀ e, r1 = .error e → r = .error e ∧ t = s1) ∧
      (∀ (req : List Nat) (flags : RmiFlags) (s : Ps2State) (r : Res Unit) (t : Ps2State),
        fu_synaptics_rmi_ps2_device_write K set_page addr req flags s = some (r, t) →
        ∃ r1 s1, set_page ((addr % 65536) >>> 8) s = some (r1, s1) ∧ s1.tx <+: t.tx ∧
          ∀ e, r1 = .error e → r = .error e ∧ t = s1) := by
  refine ⟨?_, ?_, ?_⟩
  · intro n s r t h
    unfold fu_synaptics_rmi_ps2_device_read at h
    rcases Ps2Out.andThen_eq_some _ _ _ _ h with ⟨e, hpage, he⟩ | ⟨u, s1, hpage, hrest⟩
    · refine ⟨.error e, t, hpage, List.prefix_refl _, ?_⟩
      intro e1 h1
      simp only [Res.error.injEq] at h1
      exact ⟨by rw [he, h1], rfl⟩
    · refine ⟨.ok u, s1, hpage, read_loop_txGrows K addr n 3 0 s1 r t hrest, ?_⟩
      intro e1 h1
      simp at h1
  · intro n s r t h
    unfold fu_synaptics_rmi_ps2_device_read_packet_register at h
    rcases Ps2Out.andThen_eq_some _ _ _ _ h with ⟨e, hpage, he⟩ | ⟨u, s1, hpage, hrest⟩
    · refine ⟨.error e, t, hpage, List.prefix_refl _, ?_⟩
      intro e1 h1
      simp only [Res.error.injEq] at h1
      exact ⟨by rw [he, h1], rfl⟩
    · refine ⟨.ok u, s1, hpage, read_rmi_packet_register_txGrows K _ _ s1 r t hrest, ?_⟩
      intro e1 h1
      simp at h1
  · intro req flags s r t h
    unfold fu_synaptics_rmi_ps2_device_write at h
    rcases Ps2Out.andThen_eq_some _ _ _ _ h with ⟨e, hpage, he⟩ | ⟨u, s1, hpage, hrest⟩
    · refine ⟨.error e, t, hpage, List.prefix_refl _, ?_⟩
      intro e1 h1
      simp only [Res.error.injEq] at h1
      exact ⟨by rw [he, h1], rfl⟩
    · refine ⟨.ok u, s1, hpage, write_rmi_register_txGrows K _ _ _ _ _ s1 r t hrest, ?_⟩
      intro e1 h1
      simp at h1

set_option maxRecDepth 100000 in
theorem fu_synaptics_rmi_ps2_device_set_page_first_witness :
    ∃ r1 s1,
      fu_synaptics_rmi_device_set_page sampleStruct ((0x0104 % 65536) >>> 8)
          ⟨[], [], [.ok 0xfa, .ok 0xfa, .ok 0xfc, .ok 0xfc, .ok 0xfc, .ok 0xfc], true⟩ =
        some (r1, s1) ∧
      s1.tx <+: ([0xe7, 0xf3, 0xff, 0xff, 0xff, 0xff] : List Nat) ∧
      ∀ e, r1 = .error e →
        (Res.error .notSupported : Res (List Nat)) = .error e ∧
          (⟨[0xe7, 0xf3, 0xff, 0xff, 0xff, 0xff], [], [], true⟩ : Ps2State) = s1 :=
  (fu_synaptics_rmi_ps2_device_set_page_first sampleStruct
      (fu_synaptics_rmi_device_set_page sampleStruct) 0x0104).1 1
    ⟨[], [], [.ok 0xfa, .ok 0xfa, .ok 0xfc, .ok 0xfc, .ok 0xfc, .ok 0xfc], true⟩
    (.error .notSupported) ⟨[0xe7, 0xf3, 0xff, 0xff, 0xff, 0xff], [], [], true⟩ (by decide)

/-! ## PS/2 transport: the iteration budgets suffice -/

theorem Returns.chain {α β : Type} {m : Ps2Out α} {k : α → Ps2State → Ps2Out β}
    (hm : Returns m) (hk : ∀ a s1, Returns (k a s1)) : Returns (m.andThen k) := by
  unfold Returns at hm ⊢
  unfold Ps2Out.andThen
  split
  · exact absurd rfl hm
  · simp
  · exact hk _ _

theorem fu_io_channel_read_raw_rx (s : Ps2State) :
    (fu_io_channel_read_raw s).2.rx.length ≤ s.rx.length ∧
      ∀ b, (fu_io_channel_read_raw s).1 = .ok b →
        (fu_io_channel_read_raw s).2.rx.length < s.rx.length := by
  unfold fu_io_channel_read_raw
  cases hrx : s.rx with
  | nil => simp [hrx]
  | cons r rest => simp

theorem read_ack_loop_rx (n : Nat) :
    ∀ s, (fu_synaptics_rmi_ps2_device_read_ack_loop n s).2.rx.length ≤ s.rx.length ∧
      ∀ b, (fu_synaptics_rmi_ps2_device_read_ack_loop n s).1 = .ok b →
        (fu_synaptics_rmi_ps2_device_read_ack_loop n s).2.rx.length < s.rx.length := by
  induction n with
  | zero =>
    intro s
    simp [fu_synaptics_rmi_ps2_device_read_ack_loop]
  | succ n ih =>
    intro s
    unfold fu_synaptics_rmi_ps2_device_read_ack_loop
    have hr := fu_io_channel_read_raw_rx s
    cases hraw : fu_io_channel_read_raw s with
    | mk r s1 =>
      rw [hraw] at hr
      cases r with
      | ok b => exact ⟨hr.1, fun _ _ => hr.2 b rfl⟩
      | error e =>
        simp only at hr ⊢
        split
        · refine ⟨(ih s1).1.trans hr.1, ?_⟩
          intro b hb
          exact Nat.lt_of_lt_of_le ((ih s1).2 b hb) hr.1
        · refine ⟨hr.1, ?_⟩
          intro b hb
          simp at hb

theorem write_byte_ack_loop_returns (i : Nat) (fuel : Nat) :
    ∀ s, s.rx.length < fuel →
      ∃ x t, fu_synaptics_rmi_ps2_device_write_byte_ack_loop i fuel s = some (x, t) := by
  induction fuel with
  | zero => intro s h; omega
  | succ fuel ih =>
    intro s h
    unfold fu_synaptics_rmi_ps2_device_write_byte_ack_loop
    have hr := read_ack_loop_rx 60 s
    change _ ∧ ∀ b, (fu_synaptics_rmi_ps2_device_read_ack s).1 = .ok b →
      (fu_synaptics_rmi_ps2_device_read_ack s).2.rx.length < s.rx.length at hr
    cases hack : fu_synaptics_rmi_ps2_device_read_ack s with
    | mk r s1 =>
      rw [hack] at hr
      cases r with
      | error e =>
        simp only
        split <;> exact ⟨_, _, rfl⟩
      | ok res =>
        simp only
        split
        · exact ⟨_, _, rfl⟩
        · split
          · exact ⟨_, _, rfl⟩
          · split
            · exact ⟨_, _, rfl⟩
            · have := hr.2 res rfl
              simp only at this
              exact ih s1 (by omega)

theorem write_byte_loop_returns (buf : Nat) (flags : RmiFlags) (fuel : Nat) :
    ∀ i do_write s, 3 - i < fuel →
      Returns (fu_synaptics_rmi_ps2_device_write_byte_loop buf flags fuel i do_write s) := by
  induction fuel with
  | zero => intro i do_write s h; omega
  | succ fuel ih =>
    intro i do_write s h
    unfold fu_synaptics_rmi_ps2_device_write_byte_loop
    cases hwr : (if do_write then fu_io_channel_write_raw buf s else (Res.ok (), s)) with
    | mk r1 s1 =>
      cases r1 with
      | error e => simp [Returns]
      | ok u =>
        simp only
        obtain ⟨x, s2, hack⟩ := write_byte_ack_loop_returns i (s1.rx.length + 1) s1 (by omega)
        rw [hack]
        cases x with
        | returned r2 => simp [Returns]
        | broke dw =>
          simp only
          split
          · split <;> simp [Returns]
          · exact ih (i + 1) dw s2 (by omega)

theorem write_byte_returns (buf timeout : Nat) (flags : RmiFlags) (s : Ps2State) :
    Returns (fu_synaptics_rmi_ps2_device_write_byte buf timeout flags s) :=
  write_byte_loop_returns buf flags 4 0 true s (by omega)

theorem set_resolution_sequence_returns (arg : Nat) (send_e6s : Bool) (s : Ps2State) :
    Returns (fu_synaptics_rmi_ps2_device_set_resolution_sequence arg send_e6s s) := by
  have he6 : ∀ n s, Returns (fu_synaptics_rmi_ps2_device_set_resolution_sequence_e6 n s) := by
    intro n
    induction n with
    | zero => intro s; simp [Returns, fu_synaptics_rmi_ps2_device_set_resolution_sequence_e6]
    | succ n ih =>
      intro s
      unfold fu_synaptics_rmi_ps2_device_set_resolution_sequence_e6
      exact (write_byte_returns _ _ _ s).chain fun _ s1 => ih s1
  have hargs : ∀ n s,
      Returns (fu_synaptics_rmi_ps2_device_set_resolution_sequence_args arg n s) := by
    intro n
    induction n with
    | zero => intro s; simp [Returns, fu_synaptics_rmi_ps2_device_set_resolution_sequence_args]
    | succ n ih =>
      intro s
      unfold fu_synaptics_rmi_ps2_device_set_resolution_sequence_args
      exact (write_byte_returns _ _ _ s).chain fun _ s1 =>
        (write_byte_returns _ _ _ s1).chain fun _ s2 => ih s2
  unfold fu_synaptics_rmi_ps2_device_set_resolution_sequence
  exact (he6 _ s).chain fun _ s1 => hargs 4 s1

theorem sample_rate_loop_returns (param arg : Nat) (fuel : Nat) :
    ∀ i send_e6s s, 4 - i < fuel →
      Returns (fu_synaptics_rmi_ps2_device_sample_rate_loop param arg fuel i send_e6s s) := by
  induction fuel with
  | zero => intro i send_e6s s h; omega
  | succ fuel ih =>
    intro i send_e6s s h
    unfold fu_synaptics_rmi_ps2_device_sample_rate_loop
    simp only
    have hbody : Returns
        ((fu_synaptics_rmi_ps2_device_set_resolution_sequence arg
            (if i > 0 then true else send_e6s) s).andThen
          (fun _ s1 =>
            (fu_synaptics_rmi_ps2_device_write_byte FU_RMI_EDP_COMMAND_AUX_SET_SAMPLE_RATE 50
              RmiFlags.none s1).andThen fun _ s2 =>
            fu_synaptics_rmi_ps2_device_write_byte param 50 RmiFlags.none s2)) :=
      (set_resolution_sequence_returns _ _ s).chain fun _ s1 =>
        (write_byte_returns _ _ _ s1).chain fun _ s2 => write_byte_returns _ _ _ s2
    split
    · rename_i hb; exact absurd hb hbody
    · split
      · simp [Returns]
      · exact ih _ _ _ (by omega)
    · simp [Returns]

theorem enter_iep_mode_returns (K : RmiStruct) (flags : RmiFlags) (s : Ps2State) :
    Returns (fu_synaptics_rmi_device_enter_iep_mode K flags s) := by
  unfold fu_synaptics_rmi_device_enter_iep_mode
  split
  · simp [Returns]
  · unfold fu_synaptics_rmi_ps2_device_enter_iep_mode
    refine Returns.chain ?_ fun _ s1 => by simp [Returns]
    exact (write_byte_returns _ _ _ s).chain fun _ s1 =>
      sample_rate_loop_returns _ _ 5 0 false s1 (by omega)

theorem write_rmi_register_returns (K : RmiStruct) (addr : Nat) (buf : List Nat)
    (buflen timeout : Nat) (flags : RmiFlags) (s : Ps2State) :
    Returns (fu_synaptics_rmi_ps2_device_write_rmi_register K addr buf buflen timeout flags s) := by
  have hdata : ∀ (data : List Nat) s,
      Returns (fu_synaptics_rmi_ps2_device_write_rmi_register_data timeout flags data s) := by
    intro data
    induction data with
    | nil => intro s; simp [Returns, fu_synaptics_rmi_ps2_device_write_rmi_register_data]
    | cons b rest ih =>
      intro s
      unfold fu_synaptics_rmi_ps2_device_write_rmi_register_data
      exact (write_byte_returns _ _ _ s).chain fun _ s1 =>
        (write_byte_returns _ _ _ s1).chain fun _ s2 => ih s2
  unfold fu_synaptics_rmi_ps2_device_write_rmi_register
  exact (enter_iep_mode_returns K _ s).chain fun _ s1 =>
    (write_byte_returns _ _ _ s1).chain fun _ s2 =>
      (write_byte_returns _ _ _ s2).chain fun _ s3 =>
        (write_byte_returns _ _ _ s3).chain fun _ s4 => hdata _ s4

theorem read_rmi_register_loop_returns (addr : Nat) (fuel : Nat) :
    ∀ retries s, (4 - retries) / 2 < fuel →
      Returns (fu_synaptics_rmi_ps2_device_read_rmi_register_loop addr fuel retries s) := by
  induction fuel with
  | zero => intro retries s h; omega
  | succ fuel ih =>
    intro retries s h
    unfold fu_synaptics_rmi_ps2_device_read_rmi_register_loop
    refine (write_byte_returns _ _ _ s).chain fun _ s1 =>
      (write_byte_returns _ _ _ s1).chain fun _ s2 =>
        (write_byte_returns _ _ _ s2).chain fun _ s3 =>
          (write_byte_returns _ _ _ s3).chain fun _ s4 => ?_
    cases hrb : fu_synaptics_rmi_ps2_device_read_byte 10 s4 with
    | mk r1 s5 =>
      cases r1 with
      | ok b => simp [Returns]
      | error e =>
        simp only
        split
        · simp [Returns]
        · exact ih _ s5 (by omega)

theorem read_rmi_register_returns (K : RmiStruct) (addr : Nat) (s : Ps2State) :
    Returns (fu_synaptics_rmi_ps2_device_read_rmi_register K addr s) := by
  unfold fu_synaptics_rmi_ps2_device_read_rmi_register
  exact (enter_iep_mode_returns K _ s).chain fun _ s1 =>
    read_rmi_register_loop_returns addr 3 0 s1 (by omega)

theorem read_registers_returns (K : RmiStruct) (addr : Nat) (n : Nat) :
    ∀ i buf s, Returns (fu_synaptics_rmi_ps2_device_read_registers K addr n i buf s) := by
  induction n with
  | zero => intro i buf s; simp [Returns, fu_synaptics_rmi_ps2_device_read_registers]
  | succ n ih =>
    intro i buf s
    unfold fu_synaptics_rmi_ps2_device_read_registers
    exact (read_rmi_register_returns K _ s).chain fun _ s1 => ih _ _ s1

theorem read_loop_returns (K : RmiStruct) (addr req_sz : Nat) (fuel : Nat) :
    ∀ retries s, (4 - retries) / 2 < fuel →
      Returns (fu_synaptics_rmi_ps2_device_read_loop K addr req_sz fuel retries s) := by
  induction fuel with
  | zero => intro retries s h; omega
  | succ fuel ih =>
    intro retries s h
    unfold fu_synaptics_rmi_ps2_device_read_loop
    refine (read_registers_returns K addr req_sz 0 [] s).chain fun buf s1 => ?_
    split
    · split
      · simp [Returns]
      · exact ih _ s1 (by omega)
    · simp [Returns]

/-- The PS/2 read, write and packet read return on every input once the page-select
dispatcher they are given returns: no loop of the transport outruns its budget. -/
theorem fu_synaptics_rmi_ps2_device_returns (K : RmiStruct)
    (set_page : Nat → Ps2State → Ps2Out Unit) (hpage : ∀ p s, Returns (set_page p s))
    (addr : Nat) (s : Ps2State) :
    (∀ n, Returns (fu_synaptics_rmi_ps2_device_read K set_page addr n s)) ∧
      (∀ n, Returns (fu_synaptics_rmi_ps2_device_read_packet_register K set_page addr n s)) ∧
      (∀ req flags, Returns (fu_synaptics_rmi_ps2_device_write K set_page addr req flags s)) := by
  refine ⟨?_, ?_, ?_⟩
  · intro n
    unfold fu_synaptics_rmi_ps2_device_read
    exact (hpage _ s).chain fun _ s1 => read_loop_returns K addr n 3 0 s1 (by omega)
  · intro n
    unfold fu_synaptics_rmi_ps2_device_read_packet_register
    refine (hpage _ s).chain fun _ s1 => ?_
    unfold fu_synaptics_rmi_ps2_device_read_rmi_packet_register
    refine (enter_iep_mode_returns K _ s1).chain fun _ s2 =>
      (write_byte_returns _ _ _ s2).chain fun _ s3 =>
        (write_byte_returns _ _ _ s3).chain fun _ s4 =>
          (write_byte_returns _ _ _ s4).chain fun _ s5 =>
            (write_byte_returns _ _ _ s5).chain fun _ s6 => ?_
    generalize ([] : List Nat) = buf
    generalize n % 4294967296 = m
    induction m generalizing buf s6 with
    | zero => simp [Returns, fu_synaptics_rmi_ps2_device_read_rmi_packet_register_bytes]
    | succ m ih =>
      unfold fu_synaptics_rmi_ps2_device_read_rmi_packet_register_bytes
      cases hrb : fu_synaptics_rmi_ps2_device_read_byte 10 s6 with
      | mk r1 s7 =>
        cases r1 with
        | error e => simp [Returns]
        | ok b => exact ih s7 _
  · intro req flags
    unfold fu_synaptics_rmi_ps2_device_write
    exact (hpage _ s).chain fun _ s1 => write_rmi_register_returns K _ _ _ _ _ s1

theorem fu_synaptics_rmi_device_set_page_returns (K : RmiStruct) (page : Nat) (s : Ps2State) :
    Returns (fu_synaptics_rmi_device_set_page K page s) :=
  write_rmi_register_returns K _ _ _ _ _ s

/-! ## PS/2 transport: what `write_byte` reads and writes -/

theorem fu_io_channel_read_raw_consumed (s : Ps2State) :
    ∃ pre, s.rx = pre ++ (fu_io_channel_read_raw s).2.rx ∧
      (∀ b, (fu_io_channel_read_raw s).1 = .ok b → pre = [.ok b]) ∧
      ((fu_io_channel_read_raw s).1 = .error .timedOut ∨ pre ≠ []) ∧
      (fu_io_channel_read_raw s).2.tx = s.tx ∧
      (fu_io_channel_read_raw s).2.txErrs = s.txErrs ∧
      (fu_io_channel_read_raw s).2.iepmode = s.iepmode := by
  unfold fu_io_channel_read_raw
  cases hrx : s.rx with
  | nil => exact ⟨[], by simp [hrx], by simp, Or.inl rfl, rfl, rfl, rfl⟩
  | cons r rest =>
    refine ⟨[r], by simp, ?_, Or.inr (by simp), rfl, rfl, rfl⟩
    intro b hb
    simp only at hb
    rw [hb]

theorem read_ack_loop_consumed (n : Nat) :
    ∀ s, ∃ pre, s.rx = pre ++ (fu_synaptics_rmi_ps2_device_read_ack_loop n s).2.rx ∧
      (∀ b, (fu_synaptics_rmi_ps2_device_read_ack_loop n s).1 = .ok b →
        ∃ pre1, pre = pre1 ++ [.ok b]) ∧
      (fu_synaptics_rmi_ps2_device_read_ack_loop n s).2.tx = s.tx ∧
      (fu_synaptics_rmi_ps2_device_read_ack_loop n s).2.txErrs = s.txErrs ∧
      (fu_synaptics_rmi_ps2_device_read_ack_loop n s).2.iepmode = s.iepmode := by
  induction n with
  | zero =>
    intro s
    exact ⟨[], by simp [fu_synaptics_rmi_ps2_device_read_ack_loop],
      by simp [fu_synaptics_rmi_ps2_device_read_ack_loop], rfl, rfl, rfl⟩
  | succ n ih =>
    intro s
    unfold fu_synaptics_rmi_ps2_device_read_ack_loop
    obtain ⟨pre, hpre, hok, _, htx, herr, hiep⟩ := fu_io_channel_read_raw_consumed s
    cases hraw : fu_io_channel_read_raw s with
    | mk r s1 =>
      rw [hraw] at hpre hok htx herr hiep
      simp only at hpre hok htx herr hiep
      cases r with
      | ok b =>
        refine ⟨pre, hpre, ?_, htx, herr, hiep⟩
        intro b1 hb1
        simp only [Res.ok.injEq] at hb1
        exact ⟨[], by rw [hok b rfl, hb1]; rfl⟩
      | error e =>
        simp only
        split
        · obtain ⟨pre2, hpre2, hok2, htx2, herr2, hiep2⟩ := ih s1
          refine ⟨pre ++ pre2, ?_, ?_, by rw [htx2, htx], by rw [herr2, herr],
            by rw [hiep2, hiep]⟩
          · rw [List.append_assoc, ← hpre2]; exact hpre
          · intro b hb
            obtain ⟨p, hp⟩ := hok2 b hb
            exact ⟨pre ++ p, by rw [hp, List.append_assoc]⟩
        · refine ⟨pre, hpre, ?_, htx, herr, hiep⟩
          intro b hb
          simp at hb

theorem write_byte_ack_loop_consumed (i : Nat) (fuel : Nat) :
    ∀ s x t, fu_synaptics_rmi_ps2_device_write_byte_ack_loop i fuel s = some (x, t) →
      ∃ pre, s.rx = pre ++ t.rx ∧
        (x = .returned (.ok ()) →
          ∃ pre1, pre = pre1 ++ [.ok FU_RMI_DATA_PORT_STATUS_ACKNOWLEDGE]) ∧
        (∀ e, x = .returned (.error e) → i > 3) ∧
        t.tx = s.tx ∧ t.txErrs = s.txErrs ∧ t.iepmode = s.iepmode := by
  induction fuel with
  | zero => intro s x t h; simp [fu_synaptics_rmi_ps2_device_write_byte_ack_loop] at h
  | succ fuel ih =>
    intro s x t h
    unfold fu_synaptics_rmi_ps2_device_write_byte_ack_loop at h
    obtain ⟨pre, hpre, hok, htx, herr, hiep⟩ := read_ack_loop_consumed 60 s
    change s.rx = pre ++ (fu_synaptics_rmi_ps2_device_read_ack s).2.rx at hpre
    change ∀ b, (fu_synaptics_rmi_ps2_device_read_ack s).1 = .ok b → _ at hok
    change (fu_synaptics_rmi_ps2_device_read_ack s).2.tx = s.tx at htx
    change (fu_synaptics_rmi_ps2_device_read_ack s).2.txErrs = s.txErrs at herr
    change (fu_synaptics_rmi_ps2_device_read_ack s).2.iepmode = s.iepmode at hiep
    cases hack : fu_synaptics_rmi_ps2_device_read_ack s with
    | mk r s1 =>
      rw [hack] at h hpre hok htx herr hiep
      simp only at hpre hok htx herr hiep
      cases r with
      | error e =>
        simp only at h
        split at h
        · rename_i hi
          simp only [Option.some.injEq, Prod.mk.injEq] at h
          obtain ⟨hx, ht⟩ := h
          subst ht
          refine ⟨pre, hpre, ?_, ?_, htx, herr, hiep⟩
          · intro hx1; rw [← hx] at hx1; simp at hx1
          · intro e1 _; exact hi
        · simp only [Option.some.injEq, Prod.mk.injEq] at h
          obtain ⟨hx, ht⟩ := h
          subst ht
          refine ⟨pre, hpre, ?_, ?_, htx, herr, hiep⟩
          · intro hx1; rw [← hx] at hx1; simp at hx1
          · intro e1 hx1; rw [← hx] at hx1; simp at hx1
      | ok res =>
        simp only at h
        obtain ⟨p, hp⟩ := hok res rfl
        split at h
        · rename_i hres
          simp only [Option.some.injEq, Prod.mk.injEq] at h
          obtain ⟨hx, ht⟩ := h
          subst ht
          refine ⟨pre, hpre, ?_, ?_, htx, herr, hiep⟩
          · intro _; exact ⟨p, by rw [hp, hres]⟩
          · intro e1 hx1; rw [← hx] at hx1; simp at hx1
        · split at h
          · simp only [Option.some.injEq, Prod.mk.injEq] at h
            obtain ⟨hx, ht⟩ := h
            subst ht
            refine ⟨pre, hpre, ?_, ?_, htx, herr, hiep⟩
            · intro hx1; rw [← hx] at hx1; simp at hx1
            · intro e1 hx1; rw [← hx] at hx1; simp at hx1
          · split at h
            · simp only [Option.some.injEq, Prod.mk.injEq] at h
              obtain ⟨hx, ht⟩ := h
              subst ht
              refine ⟨pre, hpre, ?_, ?_, htx, herr, hiep⟩
              · intro hx1; rw [← hx] at hx1; simp at hx1
              · intro e1 hx1; rw [← hx] at hx1; simp at hx1
            · obtain ⟨pre2, hpre2, hok2, herr2, htx2, herrs2, hiep2⟩ := ih s1 x t h
              refine ⟨pre ++ pre2, ?_, ?_, herr2, by rw [htx2, htx], by rw [herrs2, herr],
                by rw [hiep2, hiep]⟩
              · rw [List.append_assoc, ← hpre2]; exact hpre
              · intro hx
                obtain ⟨q, hq⟩ := hok2 hx
                exact ⟨pre ++ q, by rw [hq, List.append_assoc]⟩

theorem fu_io_channel_write_raw_fields (b : Nat) (s : Ps2State) :
    (fu_io_channel_write_raw b s).2 =
        { s with tx := s.tx ++ [b], txErrs := s.txErrs.tail } ∧
      (WritesSucceed s → (fu_io_channel_write_raw b s).1 = .ok ()) := by
  unfold fu_io_channel_write_raw
  constructor
  · split <;> rfl
  · intro hw
    cases herr : s.txErrs with
    | nil => simp
    | cons e rest =>
      have : e = none := hw e (by rw [herr]; simp)
      subst this
      simp

theorem WritesSucceed.tail {s t : Ps2State} (h : WritesSucceed s)
    (ht : t.txErrs = s.txErrs.tail ∨ t.txErrs = s.txErrs) : WritesSucceed t := by
  intro e he
  rcases ht with ht | ht
  · rw [ht] at he
    exact h e (List.mem_of_mem_tail he)
  · rw [ht] at he
    exact h e he

theorem write_byte_loop_ok_acked (buf : Nat) (flags : RmiFlags)
    (hflags : flags.allowFailure = false) (fuel : Nat) :
    ∀ i do_write s t,
      fu_synaptics_rmi_ps2_device_write_byte_loop buf flags fuel i do_write s = some (.ok (), t) →
      ∃ pre, s.rx = pre ++ [.ok FU_RMI_DATA_PORT_STATUS_ACKNOWLEDGE] ++ t.rx := by
  induction fuel with
  | zero =>
    intro i do_write s t h
    simp [fu_synaptics_rmi_ps2_device_write_byte_loop] at h
  | succ fuel ih =>
    intro i do_write s t h
    unfold fu_synaptics_rmi_ps2_device_write_byte_loop at h
    have hw : (if do_write then fu_io_channel_write_raw buf s else (Res.ok (), s)).2.rx = s.rx := by
      cases do_write with
      | true => simp only [if_true]; rw [(fu_io_channel_write_raw_fields buf s).1]
      | false => rfl
    cases hwr : (if do_write then fu_io_channel_write_raw buf s else (Res.ok (), s)) with
    | mk r1 s1 =>
      rw [hwr] at h hw
      simp only at hw
      cases r1 with
      | error e => simp at h
      | ok u =>
        simp only at h
        cases hack : fu_synaptics_rmi_ps2_device_write_byte_ack_loop i (s1.rx.length + 1) s1 with
        | none => rw [hack] at h; simp at h
        | some p =>
          obtain ⟨x, s2⟩ := p
          obtain ⟨pre, hpre, hok, _, _, _, _⟩ := write_byte_ack_loop_consumed i _ s1 x s2 hack
          rw [hack] at h
          cases x with
          | returned r2 =>
            simp only [Option.some.injEq, Prod.mk.injEq] at h
            obtain ⟨hr, ht⟩ := h
            subst ht
            subst hr
            obtain ⟨p1, hp1⟩ := hok rfl
            exact ⟨p1, by rw [← hw, hpre, hp1]⟩
          | broke dw =>
            simp only at h
            split at h
            · rw [hflags] at h
              simp at h
            · obtain ⟨pre2, hpre2⟩ := ih (i + 1) dw s2 t h
              exact ⟨pre ++ pre2, by rw [← hw, hpre, hpre2]; simp [List.append_assoc]⟩

theorem write_byte_loop_writes (buf : Nat) (flags : RmiFlags) (fuel : Nat) :
    ∀ i do_write s r t, i ≤ 3 →
      fu_synaptics_rmi_ps2_device_write_byte_loop buf flags fuel i do_write s = some (r, t) →
      ∃ k, k ≤ 4 - i ∧ (do_write = true → 1 ≤ k) ∧ t.tx = s.tx ++ List.replicate k buf := by
  induction fuel with
  | zero =>
    intro i do_write s r t _ h
    simp [fu_synaptics_rmi_ps2_device_write_byte_loop] at h
  | succ fuel ih =>
    intro i do_write s r t hi h
    unfold fu_synaptics_rmi_ps2_device_write_byte_loop at h
    have hw : (if do_write then fu_io_channel_write_raw buf s else (Res.ok (), s)).2.tx =
        s.tx ++ List.replicate (if do_write then 1 else 0) buf := by
      cases do_write with
      | true => simp only [if_true]; rw [(fu_io_channel_write_raw_fields buf s).1]; rfl
      | false => simp
    have hone : ∀ (t1 : Ps2State), t1.tx = s.tx ++ List.replicate (if do_write then 1 else 0) buf →
        ∃ k, k ≤ 4 - i ∧ (do_write = true → 1 ≤ k) ∧ t1.tx = s.tx ++ List.replicate k buf := by
      intro t1 ht1
      refine ⟨if do_write then 1 else 0, ?_, ?_, ht1⟩
      · split <;> omega
      · intro hd; simp [hd]
    cases hwr : (if do_write then fu_io_channel_write_raw buf s else (Res.ok (), s)) with
    | mk r1 s1 =>
      rw [hwr] at h hw
      simp only at hw
      cases r1 with
      | error e =>
        simp only [Option.some.injEq, Prod.mk.injEq] at h
        rw [← h.2]; exact hone s1 hw
      | ok u =>
        simp only at h
        cases hack : fu_synaptics_rmi_ps2_device_write_byte_ack_loop i (s1.rx.length + 1) s1 with
        | none => rw [hack] at h; simp at h
        | some p =>
          obtain ⟨x, s2⟩ := p
          obtain ⟨_, _, _, _, htx, _, _⟩ := write_byte_ack_loop_consumed i _ s1 x s2 hack
          rw [hack] at h
          cases x with
          | returned r2 =>
            simp only [Option.some.injEq, Prod.mk.injEq] at h
            rw [← h.2]; exact hone s2 (by rw [htx, hw])
          | broke dw =>
            simp only at h
            split at h
            · split at h <;>
                (simp only [Option.some.injEq, Prod.mk.injEq] at h
                 rw [← h.2]; exact hone s2 (by rw [htx, hw]))
            · obtain ⟨k, hk, _, hkt⟩ := ih (i + 1) dw s2 r t (by omega) h
              refine ⟨(if do_write then 1 else 0) + k, ?_, ?_, ?_⟩
              · split <;> omega
              · intro hd; simp [hd]
              · rw [hkt, htx, hw, List.append_assoc, ← List.replicate_add]

theorem write_byte_loop_allow (buf : Nat) (fa fn : RmiFlags) (hfa : fa.allowFailure = true)
    (hfn : fn.allowFailure = false) (fuel : Nat) :
    ∀ i do_write s, i ≤ 3 → 3 - i < fuel → WritesSucceed s →
      ∃ t, fu_synaptics_rmi_ps2_device_write_byte_loop buf fa fuel i do_write s = some (.ok (), t) ∧
        (fu_synaptics_rmi_ps2_device_write_byte_loop buf fn fuel i do_write s = some (.ok (), t) ∨
          fu_synaptics_rmi_ps2_device_write_byte_loop buf fn fuel i do_write s =
            some (.error .notSupported, t)) := by
  induction fuel with
  | zero => intro i do_write s _ h; omega
  | succ fuel ih =>
    intro i do_write s hi hfuel hws
    unfold fu_synaptics_rmi_ps2_device_write_byte_loop
    have hw : (if do_write then fu_io_channel_write_raw buf s else (Res.ok (), s)).1 = .ok () ∧
        WritesSucceed (if do_write then fu_io_channel_write_raw buf s else (Res.ok (), s)).2 := by
      cases do_write with
      | true =>
        simp only [if_true]
        refine ⟨(fu_io_channel_write_raw_fields buf s).2 hws, ?_⟩
        rw [(fu_io_channel_write_raw_fields buf s).1]
        exact hws.tail (Or.inl rfl)
      | false => exact ⟨rfl, hws⟩
    cases hwr : (if do_write then fu_io_channel_write_raw buf s else (Res.ok (), s)) with
    | mk r1 s1 =>
      rw [hwr] at hw
      simp only at hw
      obtain ⟨hr1, hws1⟩ := hw
      subst hr1
      simp only
      obtain ⟨x, s2, hack⟩ := write_byte_ack_loop_returns i (s1.rx.length + 1) s1 (by omega)
      obtain ⟨_, _, _, hnoerr, _, herrs, _⟩ := write_byte_ack_loop_consumed i _ s1 x s2 hack
      rw [hack]
      cases x with
      | returned r2 =>
        cases r2 with
        | ok u => exact ⟨s2, rfl, Or.inl rfl⟩
        | error e => have := hnoerr e rfl; omega
      | broke dw =>
        simp only
        by_cases h3 : i ≥ 3
        · rw [if_pos h3, if_pos h3, hfa, hfn]
          exact ⟨s2, rfl, Or.inr rfl⟩
        · rw [if_neg h3, if_neg h3]
          exact ih (i + 1) dw s2 (by omega) (by omega) (hws1.tail (Or.inr herrs))

theorem read_ack_ok (s : Ps2State) (b : Nat) (rest : List (Res Nat))
    (hrx : s.rx = .ok b :: rest) :
    fu_synaptics_rmi_ps2_device_read_ack s = (.ok b, { s with rx := rest }) := by
  unfold fu_synaptics_rmi_ps2_device_read_ack fu_synaptics_rmi_ps2_device_read_ack_loop
    fu_io_channel_read_raw
  rw [hrx]

theorem write_byte_ack_loop_ack (i fuel : Nat) (s : Ps2State) (rest : List (Res Nat))
    (hrx : s.rx = .ok FU_RMI_DATA_PORT_STATUS_ACKNOWLEDGE :: rest) :
    fu_synaptics_rmi_ps2_device_write_byte_ack_loop i (fuel + 1) s =
      some (.returned (.ok ()), { s with rx := rest }) := by
  unfold fu_synaptics_rmi_ps2_device_write_byte_ack_loop
  rw [read_ack_ok s _ rest hrx]
  simp

theorem write_byte_ack_loop_resend (i fuel : Nat) (s : Ps2State) (rest : List (Res Nat))
    (hrx : s.rx = .ok FU_RMI_DATA_PORT_STATUS_RESEND :: rest) :
    fu_synaptics_rmi_ps2_device_write_byte_ack_loop i (fuel + 1) s =
      some (.broke true, { s with rx := rest }) := by
  unfold fu_synaptics_rmi_ps2_device_write_byte_ack_loop
  rw [read_ack_ok s _ rest hrx]
  simp [FU_RMI_DATA_PORT_STATUS_RESEND, FU_RMI_DATA_PORT_STATUS_ACKNOWLEDGE]

/-- A byte that the device acknowledges at once: one write, one read. -/
theorem write_byte_loop_acked (buf : Nat) (flags : RmiFlags) (fuel i : Nat) (s : Ps2State)
    (rest : List (Res Nat)) (hrx : s.rx = .ok FU_RMI_DATA_PORT_STATUS_ACKNOWLEDGE :: rest)
    (hws : WritesSucceed s) :
    fu_synaptics_rmi_ps2_device_write_byte_loop buf flags (fuel + 1) i true s =
      some (.ok (), { s with tx := s.tx ++ [buf], txErrs := s.txErrs.tail, rx := rest }) := by
  unfold fu_synaptics_rmi_ps2_device_write_byte_loop
  simp only [if_true]
  have hf := fu_io_channel_write_raw_fields buf s
  cases hwr : fu_io_channel_write_raw buf s with
  | mk r1 s1 =>
    rw [hwr] at hf
    simp only at hf
    obtain ⟨hs1, hr1⟩ := hf
    have hr := hr1 hws
    subst hr
    subst hs1
    simp only
    rw [write_byte_ack_loop_ack i s.rx.length
      { s with tx := s.tx ++ [buf], txErrs := s.txErrs.tail } rest hrx]

theorem write_byte_loop_resends (buf : Nat) (flags : RmiFlags) (rest : List (Res Nat))
    (k : Nat) :
    ∀ fuel i s, i + k ≤ 3 → k < fuel →
      s.rx = List.replicate k (.ok FU_RMI_DATA_PORT_STATUS_RESEND) ++
        .ok FU_RMI_DATA_PORT_STATUS_ACKNOWLEDGE :: rest →
      WritesSucceed s →
      fu_synaptics_rmi_ps2_device_write_byte_loop buf flags fuel i true s =
        some (.ok (), { s with tx := s.tx ++ List.replicate (k + 1) buf,
                               txErrs := s.txErrs.drop (k + 1), rx := rest }) := by
  induction k with
  | zero =>
    intro fuel i s _ hfuel hrx hws
    obtain ⟨f, rfl⟩ : ∃ f, fuel = f + 1 := ⟨fuel - 1, by omega⟩
    simp only [List.replicate_zero, List.nil_append] at hrx
    rw [write_byte_loop_acked buf flags f i s rest hrx hws]
    simp
  | succ k ih =>
    intro fuel i s hik hfuel hrx hws
    obtain ⟨f, rfl⟩ : ∃ f, fuel = f + 1 := ⟨fuel - 1, by omega⟩
    unfold fu_synaptics_rmi_ps2_device_write_byte_loop
    simp only [if_true]
    have hf := fu_io_channel_write_raw_fields buf s
    cases hwr : fu_io_channel_write_raw buf s with
    | mk r1 s1 =>
      rw [hwr] at hf
      simp only at hf
      obtain ⟨hs1, hr1⟩ := hf
      have hr := hr1 hws
      subst hr
      subst hs1
      simp only
      rw [List.replicate_succ, List.cons_append] at hrx
      rw [write_byte_ack_loop_resend i s.rx.length
        { s with tx := s.tx ++ [buf], txErrs := s.txErrs.tail } _ hrx]
      simp only
      rw [if_neg (by omega)]
      rw [ih f (i + 1) _ (by omega) (by omega) rfl (hws.tail (Or.inl rfl))]
      simp [List.replicate_succ]

/-! ## PS/2 transport: claims on `write_byte` -/

/-- C11: if the PS/2 `write_byte` is called without `ALLOW_FAILURE` and returns success,
the responses it read from the device end with `ACKNOWLEDGE` (`0xFA`): the last byte it
read was the acknowledge. -/
theorem fu_synaptics_rmi_ps2_device_write_byte_ok_acked (buf timeout : Nat) (flags : RmiFlags)
    (s t : Ps2State) (hflags : flags.allowFailure = false)
    (h : fu_synaptics_rmi_ps2_device_write_byte buf timeout flags s = some (.ok (), t)) :
    ∃ pre, s.rx = pre ++ [.ok 0xfa] ++ t.rx :=
  write_byte_loop_ok_acked buf flags hflags 4 0 true s t h

theorem fu_synaptics_rmi_ps2_device_write_byte_ok_acked_witness :
    ∃ pre, ([.ok 0x00, .error .timedOut, .ok 0xfe, .ok 0xfa, .ok 0x11] : List (Res Nat)) =
      pre ++ [.ok 0xfa] ++ [.ok 0x11] :=
  fu_synaptics_rmi_ps2_device_write_byte_ok_acked 0xe6 50 RmiFlags.none
    ⟨[], [], [.ok 0x00, .error .timedOut, .ok 0xfe, .ok 0xfa, .ok 0x11], false⟩
    ⟨[0xe6, 0xe6], [], [.ok 0x11], false⟩ rfl (by decide)

theorem write_byte_loop_kinds (buf : Nat) (flags : RmiFlags) (fuel : Nat) :
    ∀ i do_write s r t, i ≤ 3 →
      fu_synaptics_rmi_ps2_device_write_byte_loop buf flags fuel i do_write s = some (r, t) →
      r = .ok () ∨ (flags.allowFailure = false ∧ r = .error .notSupported) ∨
        ∃ e, r = .error e ∧ some e ∈ s.txErrs := by
  induction fuel with
  | zero =>
    intro i do_write s r t _ h
    simp [fu_synaptics_rmi_ps2_device_write_byte_loop] at h
  | succ fuel ih =>
    intro i do_write s r t hi h
    unfold fu_synaptics_rmi_ps2_device_write_byte_loop at h
    have hw : ∀ x ∈ (if do_write then fu_io_channel_write_raw buf s
        else (Res.ok (), s)).2.txErrs, x ∈ s.txErrs := by
      cases do_write with
      | true =>
        simp only [if_true]
        rw [(fu_io_channel_write_raw_fields buf s).1]
        intro x hx
        exact List.mem_of_mem_tail hx
      | false => intro x hx; exact hx
    have hwe : ∀ e1, (if do_write then fu_io_channel_write_raw buf s
        else (Res.ok (), s)).1 = .error e1 → some e1 ∈ s.txErrs := by
      cases do_write with
      | true =>
        simp only [if_true]
        intro e1 he1
        unfold fu_io_channel_write_raw at he1
        cases herr : s.txErrs with
        | nil => rw [herr] at he1; simp at he1
        | cons o rest =>
          rw [herr] at he1
          cases o with
          | none => simp at he1
          | some e2 =>
            simp at he1
            simp [he1]
      | false => intro e1 he1; simp at he1
    cases hwr : (if do_write then fu_io_channel_write_raw buf s else (Res.ok (), s)) with
    | mk r1 s1 =>
      rw [hwr] at h hw hwe
      simp only at hw hwe
      cases r1 with
      | error e1 =>
        simp only [Option.some.injEq, Prod.mk.injEq] at h
        right; right
        exact ⟨e1, h.1.symm, hwe e1 rfl⟩
      | ok u =>
        simp only at h
        cases hack : fu_synaptics_rmi_ps2_device_write_byte_ack_loop i (s1.rx.length + 1) s1 with
        | none => rw [hack] at h; simp at h
        | some p =>
          obtain ⟨x, s2⟩ := p
          obtain ⟨_, _, _, hnoerr, _, herrs, _⟩ := write_byte_ack_loop_consumed i _ s1 x s2 hack
          rw [hack] at h
          cases x with
          | returned r2 =>
            simp only [Option.some.injEq, Prod.mk.injEq] at h
            obtain ⟨hr, _⟩ := h
            subst hr
            cases r2 with
            | ok u => exact Or.inl rfl
            | error e =>
              have := hnoerr e rfl
              omega
          | broke dw =>
            simp only at h
            split at h
            · by_cases hfa : flags.allowFailure = true
              · rw [if_pos hfa] at h
                simp only [Option.some.injEq, Prod.mk.injEq] at h
                exact Or.inl h.1.symm
              · rw [if_neg hfa] at h
                simp only [Option.some.injEq, Prod.mk.injEq] at h
                exact Or.inr (Or.inl ⟨by simpa using hfa, h.1.symm⟩)
            · rcases ih (i + 1) dw s2 r t (by omega) h with h1 | h1 | ⟨e, he, hmem⟩
              · exact Or.inl h1
              · exact Or.inr (Or.inl h1)
              · right; right
                rw [herrs] at hmem
                exact ⟨e, he, hw _ hmem⟩

theorem write_byte_ack_loop_refused (i fuel : Nat) (s : Ps2State) (b : Nat)
    (rest : List (Res Nat)) (hb : b = 0xfe ∨ b = 0xfc) (hrx : s.rx = .ok b :: rest) :
    fu_synaptics_rmi_ps2_device_write_byte_ack_loop i (fuel + 1) s =
      some (.broke true, { s with rx := rest }) := by
  unfold fu_synaptics_rmi_ps2_device_write_byte_ack_loop
  rw [read_ack_ok s _ rest hrx]
  rcases hb with hb | hb <;>
    simp [hb, FU_RMI_DATA_PORT_STATUS_RESEND, FU_RMI_DATA_PORT_STATUS_ACKNOWLEDGE,
      FU_RMI_DATA_PORT_STATUS_ERROR]

theorem write_byte_loop_refused (buf : Nat) (flags : RmiFlags) (rest : List (Res Nat))
    (fails : List Nat) :
    ∀ fuel i s, (∀ b ∈ fails, b = 0xfe ∨ b = 0xfc) → fails ≠ [] → i + fails.length = 4 →
      fails.length ≤ fuel → s.rx = fails.map .ok ++ rest → WritesSucceed s →
      fu_synaptics_rmi_ps2_device_write_byte_loop buf flags fuel i true s =
        some (if flags.allowFailure then .ok () else .error .notSupported,
          s.acked (List.replicate fails.length buf) rest) := by
  induction fails with
  | nil => intro fuel i s _ hne; exact absurd rfl hne
  | cons b fs ih =>
    intro fuel i s hfails _ hi hfuel hrx hws
    obtain ⟨f, rfl⟩ : ∃ f, fuel = f + 1 := ⟨fuel - 1, by simp at hfuel; omega⟩
    unfold fu_synaptics_rmi_ps2_device_write_byte_loop
    simp only [if_true]
    have hf := fu_io_channel_write_raw_fields buf s
    cases hwr : fu_io_channel_write_raw buf s with
    | mk r1 s1 =>
      rw [hwr] at hf
      simp only at hf
      obtain ⟨hs1, hr1⟩ := hf
      have hr := hr1 hws
      subst hr
      subst hs1
      simp only
      rw [List.map_cons, List.cons_append] at hrx
      rw [write_byte_ack_loop_refused i s.rx.length
        { s with tx := s.tx ++ [buf], txErrs := s.txErrs.tail } b _ (hfails b (by simp)) hrx]
      simp only
      cases fs with
      | nil =>
        simp only [List.length_singleton] at hi
        rw [if_pos (by omega)]
        cases flags.allowFailure <;> simp [Ps2State.acked]
      | cons b1 fs1 =>
        simp only [List.length_cons] at hi hfuel
        rw [if_neg (by omega)]
        rw [ih f (i + 1) _ (fun x hx => hfails x (by simp [hx])) (by simp)
          (by simp only [List.length_cons]; omega) (by simp only [List.length_cons]; omega)
          rfl (hws.tail (Or.inl rfl))]
        simp [Ps2State.acked, List.replicate_succ]

/-- C12 (as amended): whatever the device answers, a call of the PS/2 `write_byte` that
returns has written the byte to the channel at most 4 times in total, and its result is
success, `NOT_SUPPORTED` (only without `ALLOW_FAILURE`) or the error of a channel write;
when the device refuses each of four writes (`RESEND` or `ERROR`), the call returns after
the fourth, with `NOT_SUPPORTED`, or with success when `ALLOW_FAILURE` is set, without
writing again and without reading further. -/
theorem fu_synaptics_rmi_ps2_device_write_byte_at_most_four (buf timeout : Nat)
    (flags : RmiFlags) (s : Ps2State) :
    (∀ r t, fu_synaptics_rmi_ps2_device_write_byte buf timeout flags s = some (r, t) →
        (∃ k, k ≤ 4 ∧ t.tx = s.tx ++ List.replicate k buf) ∧
          (r = .ok () ∨ (flags.allowFailure = false ∧ r = .error .notSupported) ∨
            ∃ e, r = .error e ∧ some e ∈ s.txErrs)) ∧
      (∀ (fails : List Nat) (rest : List (Res Nat)), fails.length = 4 →
        (∀ b ∈ fails, b = 0xfe ∨ b = 0xfc) → s.rx = fails.map .ok ++ rest →
        WritesSucceed s →
        fu_synaptics_rmi_ps2_device_write_byte buf timeout flags s =
          some (if flags.allowFailure then .ok () else .error .notSupported,
            s.acked (List.replicate 4 buf) rest)) := by
  constructor
  · intro r t h
    obtain ⟨k, hk, _, htx⟩ := write_byte_loop_writes buf flags 4 0 true s r t (by omega) h
    exact ⟨⟨k, by omega, htx⟩, write_byte_loop_kinds buf flags 4 0 true s r t (by omega) h⟩
  · intro fails rest hlen hfails hrx hws
    have h := write_byte_loop_refused buf flags rest fails 4 0 s hfails
      (by intro hnil; rw [hnil] at hlen; simp at hlen) (by omega) (by omega) hrx hws
    rw [hlen] at h
    exact h

set_option maxRecDepth 100000 in
theorem fu_synaptics_rmi_ps2_device_write_byte_at_most_four_witness :
    ((∃ k, k ≤ 4 ∧ ([0xe6, 0xe6, 0xe6] : List Nat) = [] ++ List.replicate k 0xe6) ∧
        ((Res.ok () : Res Unit) = .ok () ∨
          (RmiFlags.none.allowFailure = false ∧ (Res.ok () : Res Unit) = .error .notSupported) ∨
          ∃ e, (Res.ok () : Res Unit) = .error e ∧
            some e ∈ ([] : List (Option FwupdError)))) ∧
      fu_synaptics_rmi_ps2_device_write_byte 0xe6 50 RmiFlags.allow
          ⟨[], [], [.ok 0xfe, .ok 0xfc, .ok 0xfe, .ok 0xfc, .ok 0xfa], false⟩ =
        some (if RmiFlags.allow.allowFailure then .ok () else .error .notSupported,
          (⟨[], [], [.ok 0xfe, .ok 0xfc, .ok 0xfe, .ok 0xfc, .ok 0xfa], false⟩ :
            Ps2State).acked (List.replicate 4 0xe6) [.ok 0xfa]) :=
  ⟨(fu_synaptics_rmi_ps2_device_write_byte_at_most_four 0xe6 50 RmiFlags.none
      ⟨[], [], [.ok 0x00, .ok 0xfe, .error .read, .ok 0xfc, .ok 0x55, .ok 0xfa, .ok 0x11],
        false⟩).1 (.ok ()) ⟨[0xe6, 0xe6, 0xe6], [], [.ok 0x11], false⟩ (by decide),
    (fu_synaptics_rmi_ps2_device_write_byte_at_most_four 0xe6 50 RmiFlags.allow
      ⟨[], [], [.ok 0xfe, .ok 0xfc, .ok 0xfe, .ok 0xfc, .ok 0xfa], false⟩).2
      [0xfe, 0xfc, 0xfe, 0xfc] [.ok 0xfa] rfl (by decide) rfl (by intro e he; simp at he)⟩

/-- C12 (counterexample): a device that answers every write of `E6` with `RESEND` is
written to four times before `write_byte` gives up with `NOT_SUPPORTED`. -/
theorem fu_synaptics_rmi_ps2_device_write_byte_three_writes_counterexample :
    fu_synaptics_rmi_ps2_device_write_byte 0xe6 50 RmiFlags.none
        ⟨[], [], [.ok 0xfe, .ok 0xfe, .ok 0xfe, .ok 0xfe], false⟩ =
      some (.error .notSupported, ⟨[0xe6, 0xe6, 0xe6, 0xe6], [], [], false⟩) ∧
    ¬ ([0xe6, 0xe6, 0xe6, 0xe6] : List Nat).length ≤ 3 := by
  decide

/-- C13: when every channel write succeeds, the PS/2 `write_byte` with `ALLOW_FAILURE`
returns success on every response stream; without `ALLOW_FAILURE` the same stream ends
in the same state with success or with `NOT_SUPPORTED`, and with `NOT_SUPPORTED` when
the stream holds no `ACK` at all. -/
theorem fu_synaptics_rmi_ps2_device_write_byte_allow_failure (buf timeout : Nat)
    (fa fn : RmiFlags) (s : Ps2State) (hfa : fa.allowFailure = true)
    (hfn : fn.allowFailure = false) (hws : WritesSucceed s) :
    ∃ t, fu_synaptics_rmi_ps2_device_write_byte buf timeout fa s = some (.ok (), t) ∧
      (fu_synaptics_rmi_ps2_device_write_byte buf timeout fn s = some (.ok (), t) ∨
        fu_synaptics_rmi_ps2_device_write_byte buf timeout fn s =
          some (.error .notSupported, t)) ∧
      ((∀ x ∈ s.rx, x ≠ .ok 0xfa) →
        fu_synaptics_rmi_ps2_device_write_byte buf timeout fn s =
          some (.error .notSupported, t)) := by
  obtain ⟨t, hta, htn⟩ :=
    write_byte_loop_allow buf fa fn hfa hfn 4 0 true s (by omega) (by omega) hws
  refine ⟨t, hta, htn, ?_⟩
  intro hno
  rcases htn with hok | herr
  · obtain ⟨pre, hpre⟩ := write_byte_loop_ok_acked buf fn hfn 4 0 true s t hok
    exact absurd rfl
      (hno (.ok 0xfa) (by rw [hpre]; simp [FU_RMI_DATA_PORT_STATUS_ACKNOWLEDGE]))
  · exact herr

theorem fu_synaptics_rmi_ps2_device_write_byte_allow_failure_witness :
    ∃ t, fu_synaptics_rmi_ps2_device_write_byte 0xff 600 RmiFlags.allow
          ⟨[], [], [.ok 0xfe, .ok 0xfc, .error .timedOut], false⟩ = some (.ok (), t) ∧
      (fu_synaptics_rmi_ps2_device_write_byte 0xff 600 RmiFlags.none
          ⟨[], [], [.ok 0xfe, .ok 0xfc, .error .timedOut], false⟩ = some (.ok (), t) ∨
        fu_synaptics_rmi_ps2_device_write_byte 0xff 600 RmiFlags.none
          ⟨[], [], [.ok 0xfe, .ok 0xfc, .error .timedOut], false⟩ =
            some (.error .notSupported, t)) ∧
      ((∀ x ∈ ([.ok 0xfe, .ok 0xfc, .error .timedOut] : List (Res Nat)), x ≠ .ok 0xfa) →
        fu_synaptics_rmi_ps2_device_write_byte 0xff 600 RmiFlags.none
          ⟨[], [], [.ok 0xfe, .ok 0xfc, .error .timedOut], false⟩ =
            some (.error .notSupported, t)) :=
  fu_synaptics_rmi_ps2_device_write_byte_allow_failure 0xff 600 RmiFlags.allow RmiFlags.none
    ⟨[], [], [.ok 0xfe, .ok 0xfc, .error .timedOut], false⟩ rfl rfl
    (by intro e he; simp at he)

/-- C14: if the device answers the first `k` writes of a byte with `RESEND` (`0xFE`), for
`k ≤ 2`, and the next write with `ACK` (`0xFA`), the PS/2 `write_byte` returns success
having written the byte exactly `k + 1` times and read exactly those `k + 1`
answers. -/
theorem fu_synaptics_rmi_ps2_device_write_byte_resend_then_ack (buf timeout : Nat)
    (flags : RmiFlags) (s : Ps2State) (k : Nat) (rest : List (Res Nat)) (hk : k ≤ 2)
    (hrx : s.rx = List.replicate k (.ok 0xfe) ++ .ok 0xfa :: rest) (hws : WritesSucceed s) :
    fu_synaptics_rmi_ps2_device_write_byte buf timeout flags s =
      some (.ok (), { s with tx := s.tx ++ List.replicate (k + 1) buf,
                             txErrs := s.txErrs.drop (k + 1), rx := rest }) :=
  write_byte_loop_resends buf flags rest k 4 0 s (by omega) (by omega) hrx hws

theorem fu_synaptics_rmi_ps2_device_write_byte_resend_then_ack_witness :
    fu_synaptics_rmi_ps2_device_write_byte 0xe6 50 RmiFlags.none
        ⟨[], [], [.ok 0xfe, .ok 0xfa], false⟩ =
      some (.ok (), ⟨[0xe6, 0xe6], [], [], false⟩) :=
  fu_synaptics_rmi_ps2_device_write_byte_resend_then_ack 0xe6 50 RmiFlags.none
    ⟨[], [], [.ok 0xfe, .ok 0xfa], false⟩ 1 [] (by decide) rfl (by intro e he; simp at he)

/-! ## PS/2 transport: command sequences against an acknowledging device -/

theorem Ps2State.acked_acked (s : Ps2State) (bs cs : List Nat) (r1 r2 : List (Res Nat)) :
    (s.acked bs r1).acked cs r2 = s.acked (bs ++ cs) r2 := by
  simp [Ps2State.acked, List.append_assoc, List.drop_drop, Nat.add_comm]

theorem Ps2State.acked_nil (s : Ps2State) : s.acked [] s.rx = s := by
  simp [Ps2State.acked]

theorem WritesSucceed.acked {s : Ps2State} (h : WritesSucceed s) (bs : List Nat)
    (r : List (Res Nat)) : WritesSucceed (s.acked bs r) := by
  intro e he
  exact h e (List.mem_of_mem_drop he)

/-- A byte that the device acknowledges at once costs one write and one read. -/
theorem write_byte_acked (buf timeout : Nat) (flags : RmiFlags) (s : Ps2State)
    (rest : List (Res Nat)) (hrx : s.rx = .ok 0xfa :: rest) (hws : WritesSucceed s) :
    fu_synaptics_rmi_ps2_device_write_byte buf timeout flags s =
      some (.ok (), s.acked [buf] rest) := by
  unfold fu_synaptics_rmi_ps2_device_write_byte
  rw [write_byte_loop_acked buf flags 3 0 s rest hrx hws]
  simp [Ps2State.acked]

theorem set_resolution_sequence_e6_acked (n : Nat) :
    ∀ (s : Ps2State) (rest : List (Res Nat)),
      s.rx = List.replicate n (.ok 0xfa) ++ rest → WritesSucceed s →
      fu_synaptics_rmi_ps2_device_set_resolution_sequence_e6 n s =
        some (.ok (), s.acked (List.replicate n 0xe6) rest) := by
  induction n with
  | zero =>
    intro s rest hrx _
    simp only [List.replicate_zero, List.nil_append] at hrx
    simp [fu_synaptics_rmi_ps2_device_set_resolution_sequence_e6, ← hrx, Ps2State.acked_nil]
  | succ n ih =>
    intro s rest hrx hws
    unfold fu_synaptics_rmi_ps2_device_set_resolution_sequence_e6
    rw [List.replicate_succ, List.cons_append] at hrx
    rw [write_byte_acked _ _ _ s _ hrx hws]
    simp only [Ps2Out.andThen]
    rw [ih _ rest rfl (hws.acked _ _), Ps2State.acked_acked]
    rfl

theorem set_resolution_sequence_args_acked (arg : Nat) (n : Nat) :
    ∀ (s : Ps2State) (rest : List (Res Nat)),
      s.rx = List.replicate (2 * n) (.ok 0xfa) ++ rest → WritesSucceed s →
      fu_synaptics_rmi_ps2_device_set_resolution_sequence_args arg n s =
        some (.ok (), s.acked (resolutionBytes arg n) rest) := by
  induction n with
  | zero =>
    intro s rest hrx _
    simp only [Nat.mul_zero, List.replicate_zero, List.nil_append] at hrx
    simp [fu_synaptics_rmi_ps2_device_set_resolution_sequence_args, resolutionBytes, ← hrx,
      Ps2State.acked_nil]
  | succ n ih =>
    intro s rest hrx hws
    unfold fu_synaptics_rmi_ps2_device_set_resolution_sequence_args
    have e : 2 * (n + 1) = (2 * n + 1) + 1 := by omega
    rw [e, List.replicate_succ, List.replicate_succ, List.cons_append, List.cons_append] at hrx
    rw [write_byte_acked _ _ _ s _ hrx hws]
    simp only [Ps2Out.andThen]
    rw [write_byte_acked _ _ _ _ _ rfl (hws.acked _ _)]
    simp only
    rw [ih _ rest rfl ((hws.acked _ _).acked _ _), Ps2State.acked_acked, Ps2State.acked_acked]
    simp [resolutionBytes, FU_RMI_EDP_COMMAND_AUX_SET_RESOLUTION, Nat.mul_comm]

theorem set_resolution_sequence_acked (arg : Nat) (send_e6s : Bool) (s : Ps2State)
    (rest : List (Res Nat))
    (hrx : s.rx = List.replicate ((if send_e6s then 2 else 1) + 8) (.ok 0xfa) ++ rest)
    (hws : WritesSucceed s) :
    fu_synaptics_rmi_ps2_device_set_resolution_sequence arg send_e6s s =
      some (.ok (),
        s.acked (List.replicate (if send_e6s then 2 else 1) 0xe6 ++ resolutionBytes arg 4)
          rest) := by
  unfold fu_synaptics_rmi_ps2_device_set_resolution_sequence
  rw [List.replicate_add, List.append_assoc] at hrx
  rw [set_resolution_sequence_e6_acked _ s _ hrx hws]
  simp only [Ps2Out.andThen]
  rw [set_resolution_sequence_args_acked arg 4 _ rest rfl (hws.acked _ _),
    Ps2State.acked_acked]

theorem sample_rate_acked (param arg : Nat) (send_e6s : Bool) (s : Ps2State)
    (rest : List (Res Nat))
    (hrx : s.rx = List.replicate ((if send_e6s then 2 else 1) + 10) (.ok 0xfa) ++ rest)
    (hws : WritesSucceed s) :
    fu_synaptics_rmi_ps2_device_sample_rate param arg send_e6s s =
      some (.ok (),
        s.acked (List.replicate (if send_e6s then 2 else 1) 0xe6 ++ resolutionBytes arg 4 ++
          [0xf3, param]) rest) := by
  unfold fu_synaptics_rmi_ps2_device_sample_rate fu_synaptics_rmi_ps2_device_sample_rate_loop
  have hrx1 : s.rx = List.replicate ((if send_e6s then 2 else 1) + 8) (.ok 0xfa) ++
      (.ok 0xfa :: .ok 0xfa :: rest) := by
    rw [hrx]
    have e : (if send_e6s then 2 else 1) + 10 = ((if send_e6s then 2 else 1) + 8) + 2 := by
      omega
    rw [e, List.replicate_add]
    simp [List.replicate_succ]
  simp only [Nat.lt_irrefl, if_false]
  rw [set_resolution_sequence_acked arg send_e6s s _ hrx1 hws]
  simp only [Ps2Out.andThen]
  have h1 := write_byte_acked FU_RMI_EDP_COMMAND_AUX_SET_SAMPLE_RATE 50 RmiFlags.none
    (s.acked (List.replicate (if send_e6s then 2 else 1) 0xe6 ++ resolutionBytes arg 4)
      (.ok 0xfa :: .ok 0xfa :: rest)) (.ok 0xfa :: rest) rfl (hws.acked _ _)
  rw [h1]
  simp only
  have h2 := write_byte_acked param 50 RmiFlags.none
    ((s.acked (List.replicate (if send_e6s then 2 else 1) 0xe6 ++ resolutionBytes arg 4)
      (.ok 0xfa :: .ok 0xfa :: rest)).acked [FU_RMI_EDP_COMMAND_AUX_SET_SAMPLE_RATE]
      (.ok 0xfa :: rest)) rest rfl ((hws.acked _ _).acked _ _)
  rw [h2]
  simp only
  rw [Ps2State.acked_acked, Ps2State.acked_acked]
  simp [FU_RMI_EDP_COMMAND_AUX_SET_SAMPLE_RATE]

theorem status_request_fold (x b : Nat) (hb : b < 256) :
    ((x <<< 8) % 4294967296) ||| b = (x % 16777216) * 256 + b := by
  have h1 : (x <<< 8) % 4294967296 = 2 ^ 8 * (x % 16777216) := by
    rw [Nat.shiftLeft_eq]
    omega
  rw [h1, ← Nat.mul_add_lt_is_or (by simpa using hb)]
  omega

theorem status_request_value (v b0 b1 b2 : Nat) (h0 : b0 < 256) (h1 : b1 < 256)
    (h2 : b2 < 256) :
    (v <<< 24 ||| b0 <<< 16 ||| b1 <<< 8 ||| b2) =
      v * 16777216 + b0 * 65536 + b1 * 256 + b2 := by
  have s24 : v <<< 24 = 2 ^ 24 * v := by rw [Nat.shiftLeft_eq]; omega
  have s16 : b0 <<< 16 = b0 * 65536 := by rw [Nat.shiftLeft_eq]
  have s8 : b1 <<< 8 = b1 * 256 := by rw [Nat.shiftLeft_eq]
  have e1 : 2 ^ 24 * v ||| b0 * 65536 = 2 ^ 24 * v + b0 * 65536 :=
    (Nat.mul_add_lt_is_or (by omega) v).symm
  have r2 : 2 ^ 24 * v + b0 * 65536 = 2 ^ 16 * (v * 256 + b0) := by omega
  have e2 : 2 ^ 16 * (v * 256 + b0) ||| b1 * 256 = 2 ^ 16 * (v * 256 + b0) + b1 * 256 :=
    (Nat.mul_add_lt_is_or (by omega) (v * 256 + b0)).symm
  have r3 : 2 ^ 16 * (v * 256 + b0) + b1 * 256 = 2 ^ 8 * (v * 65536 + b0 * 256 + b1) := by
    omega
  have e3 : 2 ^ 8 * (v * 65536 + b0 * 256 + b1) ||| b2 =
      2 ^ 8 * (v * 65536 + b0 * 256 + b1) + b2 :=
    (Nat.mul_add_lt_is_or (by omega) (v * 65536 + b0 * 256 + b1)).symm
  rw [s24, s16, s8, e1, r2, e2, r3, e3]
  omega

/-! ## PS/2 transport: claims on the command sequences -/

/-- C15: if the command phase of the PS/2 status request succeeds and the next three
bytes read are `b0`, `b1`, `b2`, the call succeeds and leaves its 32-bit output equal to
`((v << 24) | (b0 << 16) | (b1 << 8) | b2) mod 2^32`, where `v` is the value the output
held before the call. -/
theorem fu_synaptics_rmi_ps2_device_status_request_value (ucArgument v : Nat)
    (s s1 : Ps2State) (b0 b1 b2 : Nat) (rest : List (Res Nat))
    (hcmd : fu_synaptics_rmi_ps2_device_status_request_command ucArgument 3 s =
      some (.ok (), s1))
    (hrx : s1.rx = .ok b0 :: .ok b1 :: .ok b2 :: rest)
    (h0 : b0 < 256) (h1 : b1 < 256) (h2 : b2 < 256) :
    fu_synaptics_rmi_ps2_device_status_request ucArgument v s =
      some (.ok (), (v <<< 24 ||| b0 <<< 16 ||| b1 <<< 8 ||| b2) % 2 ^ 32,
        { s1 with rx := rest }) := by
  unfold fu_synaptics_rmi_ps2_device_status_request
  rw [hcmd]
  simp only [fu_synaptics_rmi_ps2_device_status_request_read,
    fu_synaptics_rmi_ps2_device_read_byte, fu_io_channel_read_raw, hrx]
  rw [status_request_fold v b0 h0, status_request_fold _ b1 h1, status_request_fold _ b2 h2,
    status_request_value v b0 b1 b2 h0 h1 h2]
  have : ((((v % 16777216) * 256 + b0) % 16777216 * 256 + b1) % 16777216 * 256 + b2) =
      (v * 16777216 + b0 * 65536 + b1 * 256 + b2) % 2 ^ 32 := by
    omega
  rw [this]

set_option maxRecDepth 100000 in
theorem fu_synaptics_rmi_ps2_device_status_request_value_witness :
    fu_synaptics_rmi_ps2_device_status_request sampleStruct.IDENTIFY_SYNAPTICS 0
        ⟨[], [], [.ok 0xfa, .ok 0xfa, .ok 0xfa, .ok 0xfa, .ok 0xfa, .ok 0xfa, .ok 0xfa,
          .ok 0xfa, .ok 0xfa, .ok 0xfa, .ok 0x47, .ok 0x18, .ok 0xbb], false⟩ =
      some (.ok (), (0 <<< 24 ||| 0x47 <<< 16 ||| 0x18 <<< 8 ||| 0xbb) % 2 ^ 32,
        { (⟨[0xe6, 0xe8, 0, 0xe8, 0, 0xe8, 0, 0xe8, 0, 0xe9], [],
            [.ok 0x47, .ok 0x18, .ok 0xbb], false⟩ : Ps2State) with rx := [] }) ∧
      (0 <<< 24 ||| 0x47 <<< 16 ||| 0x18 <<< 8 ||| 0xbb) % 2 ^ 32 = 0x004718bb :=
  ⟨fu_synaptics_rmi_ps2_device_status_request_value sampleStruct.IDENTIFY_SYNAPTICS 0
      ⟨[], [], [.ok 0xfa, .ok 0xfa, .ok 0xfa, .ok 0xfa, .ok 0xfa, .ok 0xfa, .ok 0xfa,
        .ok 0xfa, .ok 0xfa, .ok 0xfa, .ok 0x47, .ok 0x18, .ok 0xbb], false⟩
      ⟨[0xe6, 0xe8, 0, 0xe8, 0, 0xe8, 0, 0xe8, 0, 0xe9], [],
        [.ok 0x47, .ok 0x18, .ok 0xbb], false⟩
      0x47 0x18 0xbb [] (by decide) rfl (by decide) (by decide) (by decide),
    by decide⟩

/-- C16 (as amended): against a device that acknowledges every byte, the PS/2
`enter_iep_mode` emits `F5`, then a single `E6`, then `E8 d3 E8 d2 E8 d1 E8 d0` with
`d_i = (FULL_RMI_BACK_DOOR >> 2i) & 3`, then `F3`, then `SET_MODE_BYTE2`: twelve bytes,
and it succeeds. -/
theorem fu_synaptics_rmi_ps2_device_enter_iep_mode_bytes (K : RmiStruct) (s : Ps2State)
    (rest : List (Res Nat)) (hrx : s.rx = List.replicate 12 (.ok 0xfa) ++ rest)
    (hws : WritesSucceed s) :
    fu_synaptics_rmi_ps2_device_enter_iep_mode K s =
      some (.ok (),
        s.acked
          [0xf5, 0xe6,
            0xe8, (K.FULL_RMI_BACK_DOOR >>> 6) &&& 3, 0xe8, (K.FULL_RMI_BACK_DOOR >>> 4) &&& 3,
            0xe8, (K.FULL_RMI_BACK_DOOR >>> 2) &&& 3, 0xe8, (K.FULL_RMI_BACK_DOOR >>> 0) &&& 3,
            0xf3, K.SET_MODE_BYTE2] rest) := by
  unfold fu_synaptics_rmi_ps2_device_enter_iep_mode
  rw [List.replicate_succ, List.cons_append] at hrx
  rw [write_byte_acked _ _ _ s _ hrx hws]
  simp only [Ps2Out.andThen]
  have h := sample_rate_acked K.SET_MODE_BYTE2 K.FULL_RMI_BACK_DOOR false
    (s.acked [FU_RMI_EDP_COMMAND_AUX_DISABLE] (List.replicate 11 (Res.ok 0xfa) ++ rest)) rest
    (by simp [Ps2State.acked]) (hws.acked _ _)
  rw [h, Ps2State.acked_acked]
  simp [resolutionBytes, FU_RMI_EDP_COMMAND_AUX_DISABLE]

set_option maxRecDepth 100000 in
theorem fu_synaptics_rmi_ps2_device_enter_iep_mode_bytes_witness :
    fu_synaptics_rmi_ps2_device_enter_iep_mode sampleStruct
        ⟨[], [], List.replicate 12 (.ok 0xfa) ++ [.ok 0x11], false⟩ =
      some (.ok (),
        (⟨[], [], List.replicate 12 (.ok 0xfa) ++ [.ok 0x11], false⟩ : Ps2State).acked
          [0xf5, 0xe6,
            0xe8, (sampleStruct.FULL_RMI_BACK_DOOR >>> 6) &&& 3,
            0xe8, (sampleStruct.FULL_RMI_BACK_DOOR >>> 4) &&& 3,
            0xe8, (sampleStruct.FULL_RMI_BACK_DOOR >>> 2) &&& 3,
            0xe8, (sampleStruct.FULL_RMI_BACK_DOOR >>> 0) &&& 3,
            0xf3, sampleStruct.SET_MODE_BYTE2] [.ok 0x11]) :=
  fu_synaptics_rmi_ps2_device_enter_iep_mode_bytes sampleStruct
    ⟨[], [], List.replicate 12 (.ok 0xfa) ++ [.ok 0x11], false⟩ [.ok 0x11] rfl
    (by intro e he; simp at he)

/-- C16 (counterexample): against a device that acknowledges every byte, `enter_iep_mode`
sends `F5 E6 E8 ..` with one `E6`, twelve bytes, and not the thirteen bytes
`F5 E6 E6 E8 ..` of the claim. -/
theorem fu_synaptics_rmi_ps2_device_enter_iep_mode_double_e6_counterexample :
    fu_synaptics_rmi_ps2_device_enter_iep_mode sampleStruct
        ⟨[], [], List.replicate 13 (.ok 0xfa), false⟩ =
      some (.ok (), ⟨[0xf5, 0xe6, 0xe8, 1, 0xe8, 3, 0xe8, 3, 0xe8, 3, 0xf3, 0x14], [],
        [.ok 0xfa], false⟩) ∧
    ([0xf5, 0xe6, 0xe8, 1, 0xe8, 3, 0xe8, 3, 0xe8, 3, 0xf3, 0x14] : List Nat) ≠
      [0xf5, 0xe6, 0xe6, 0xe8, 1, 0xe8, 3, 0xe8, 3, 0xe8, 3, 0xf3, 0x14] := by
  decide

/-! ## HID transport: attention, close -/

theorem fu_io_channel_read_byte_array_cons (c : HidChannel) (x : Res (List Nat))
    (rest : List (Res (List Nat))) (hin : c.inputs = x :: rest) :
    fu_io_channel_read_byte_array c = (x, { c with inputs := rest }) := by
  unfold fu_io_channel_read_byte_array
  rw [hin]

theorem wait_for_attr_loop_report (source_mask timeout_ms elapsed : Nat) (clock : List Nat)
    (c : HidChannel) (x : List Nat) (rest : List (Res (List Nat)))
    (ht : elapsed < timeout_ms) (hin : c.inputs = .ok x :: rest) :
    fu_synaptics_rmi_hid_device_wait_for_attr_loop source_mask timeout_ms (elapsed :: clock) c =
      if isAttention source_mask x then (.ok (), { c with inputs := rest })
      else fu_synaptics_rmi_hid_device_wait_for_attr_loop source_mask timeout_ms clock
        { c with inputs := rest } := by
  conv_lhs => unfold fu_synaptics_rmi_hid_device_wait_for_attr_loop
  rw [if_pos ht, fu_io_channel_read_byte_array_cons c _ rest hin]
  simp only [HID_RMI4_ATTN_INTERRUPT_SOURCES, HID_RMI4_REPORT_ID, RMI_ATTN_REPORT_ID, isAttention,
    List.getD_eq_getElem?_getD]
  by_cases h1 : x.length < 1 + 1
  · rw [if_pos h1]
    have : ¬ 2 ≤ x.length := by omega
    simp [this]
  · rw [if_neg h1]
    have h2 : 2 ≤ x.length := by omega
    by_cases hid : x[0]?.getD 0 = 12
    · rw [if_neg (not_not.mpr hid)]
      by_cases hm : source_mask &&& x[1]?.getD 0 = 0
      · rw [if_neg (not_not.mpr hm)]
        simp [hm]
      · rw [if_pos hm]
        simp [h2, hid, hm]
    · rw [if_pos hid]
      simp [hid]

theorem wait_for_attr_loop_first (source_mask timeout_ms : Nat) (r : List Nat)
    (post : List (Res (List Nat))) (hr : isAttention source_mask r = true)
    (pre : List (List Nat)) :
    ∀ (clock : List Nat) (c : HidChannel),
      c.inputs = pre.map .ok ++ .ok r :: post →
      (∀ x ∈ pre, isAttention source_mask x = false) →
      pre.length < clock.length →
      (∀ t ∈ clock.take (pre.length + 1), t < timeout_ms) →
      fu_synaptics_rmi_hid_device_wait_for_attr_loop source_mask timeout_ms clock c =
        (.ok (), { c with inputs := post }) := by
  induction pre with
  | nil =>
    intro clock c hin _ hlen hclock
    cases clock with
    | nil => simp at hlen
    | cons t clock =>
      have ht : t < timeout_ms := hclock t (by simp)
      simp only [List.map_nil, List.nil_append] at hin
      rw [wait_for_attr_loop_report source_mask timeout_ms t clock c r post ht hin, if_pos hr]
  | cons x pre ih =>
    intro clock c hin hpre hlen hclock
    cases clock with
    | nil => simp at hlen
    | cons t clock =>
      have ht : t < timeout_ms := hclock t (by simp)
      simp only [List.map_cons, List.cons_append] at hin
      rw [wait_for_attr_loop_report source_mask timeout_ms t clock c x _ ht hin]
      have hx : isAttention source_mask x = false := hpre x (by simp)
      rw [hx]
      simp only [Bool.false_eq_true, if_false]
      have := ih clock { c with inputs := pre.map .ok ++ .ok r :: post } rfl
        (fun y hy => hpre y (by simp [hy])) (by simpa using hlen)
        (fun t1 ht1 => hclock t1 (by simp [List.take_succ_cons, ht1]))
      rw [this]

theorem wait_for_attr_loop_mask_zero (timeout_ms : Nat) (clock : List Nat) :
    ∀ c, (fu_synaptics_rmi_hid_device_wait_for_attr_loop 0 timeout_ms clock c).1 ≠ .ok () := by
  induction clock with
  | nil => intro c; simp [fu_synaptics_rmi_hid_device_wait_for_attr_loop]
  | cons t clock ih =>
    intro c
    unfold fu_synaptics_rmi_hid_device_wait_for_attr_loop
    split
    · cases hr : fu_io_channel_read_byte_array c with
      | mk r c1 =>
        cases r with
        | error e =>
          simp only
          split <;> simp
        | ok res =>
          simp only [Nat.zero_and, ne_eq, not_true_eq_false, if_false]
          split
          · exact ih c1
          · split <;> exact ih c1
    · simp

/-- C17: the HID `wait_for_attr(source_mask, timeout_ms)` returns success at the first
report read while the timer is below `timeout_ms` that is at least 2 bytes long, has
byte 0 equal to `0x0C` and has a bit of `source_mask` in byte 1; the reports before it
that fail one of the three conditions are passed over without error; and with
`source_mask = 0` the call never returns success. -/
theorem fu_synaptics_rmi_hid_device_wait_for_attr_first (source_mask timeout_ms : Nat)
    (clock : List Nat) (c : HidChannel) (pre : List (List Nat)) (r : List Nat)
    (post : List (Res (List Nat)))
    (hin : c.inputs = pre.map .ok ++ .ok r :: post)
    (hpre : ∀ x ∈ pre,
      ¬ (2 ≤ x.length ∧ x.getD 0 0 = 0x0c ∧ source_mask &&& x.getD 1 0 ≠ 0))
    (hr : 2 ≤ r.length ∧ r.getD 0 0 = 0x0c ∧ source_mask &&& r.getD 1 0 ≠ 0)
    (hlen : pre.length < clock.length)
    (hclock : ∀ t ∈ clock.take (pre.length + 1), t < timeout_ms) :
    fu_synaptics_rmi_hid_device_wait_for_attr source_mask timeout_ms clock c =
        (.ok (), { c with inputs := post }) ∧
      ∀ (clock1 : List Nat) (c1 : HidChannel),
        (fu_synaptics_rmi_hid_device_wait_for_attr 0 timeout_ms clock1 c1).1 ≠ .ok () := by
  refine ⟨?_, fun clock1 c1 => wait_for_attr_loop_mask_zero timeout_ms clock1 c1⟩
  unfold fu_synaptics_rmi_hid_device_wait_for_attr
  apply wait_for_attr_loop_first source_mask timeout_ms r post _ pre clock c hin _ hlen hclock
  · simp only [isAttention, Bool.and_eq_true, decide_eq_true_eq]
    exact ⟨⟨hr.1, hr.2.1⟩, hr.2.2⟩
  · intro x hx
    have := hpre x hx
    simp only [isAttention, Bool.and_eq_false_iff, decide_eq_false_iff_not]
    by_cases h1 : 2 ≤ x.length
    · by_cases h2 : x.getD 0 0 = 0x0c
      · right
        intro h3
        exact this ⟨h1, h2, h3⟩
      · left; right; exact h2
    · left; left; exact h1

theorem fu_synaptics_rmi_hid_device_wait_for_attr_first_witness :
    fu_synaptics_rmi_hid_device_wait_for_attr 0x02 100 [0, 10, 20, 30, 200]
          ⟨[], [], [.ok [0x0c], .ok [0x0b, 2], .ok [0x0c, 1], .ok [0x0c, 3, 5], .ok [1]]⟩ =
        (.ok (), { (⟨[], [], [.ok [0x0c], .ok [0x0b, 2], .ok [0x0c, 1], .ok [0x0c, 3, 5],
          .ok [1]]⟩ : HidChannel) with inputs := [.ok [1]] }) ∧
      ∀ (clock1 : List Nat) (c1 : HidChannel),
        (fu_synaptics_rmi_hid_device_wait_for_attr 0 100 clock1 c1).1 ≠ .ok () :=
  fu_synaptics_rmi_hid_device_wait_for_attr_first 0x02 100 [0, 10, 20, 30, 200]
    ⟨[], [], [.ok [0x0c], .ok [0x0b, 2], .ok [0x0c, 1], .ok [0x0c, 3, 5], .ok [1]]⟩
    [[0x0c], [0x0b, 2], [0x0c, 1]] [0x0c, 3, 5] [.ok [1]] rfl (by decide) (by decide)
    (by decide) (by decide)

/-- C18 (as amended): when a channel read inside the HID `wait_for_attr` fails with
`TIMED_OUT`, the call stops at once and fails with `NOT_SUPPORTED` without reading
again, whatever the timer says; it also fails with `NOT_SUPPORTED`, without reading,
when the timer has reached `timeout_ms` at a loop test; any other read error is
returned as it is. -/
theorem fu_synaptics_rmi_hid_device_wait_for_attr_timed_out (source_mask timeout_ms : Nat)
    (elapsed : Nat) (clock : List Nat) (c : HidChannel) (e : FwupdError)
    (rest : List (Res (List Nat))) (hin : c.inputs = .error e :: rest) :
    (elapsed < timeout_ms →
        fu_synaptics_rmi_hid_device_wait_for_attr source_mask timeout_ms (elapsed :: clock) c =
          (.error (if e = .timedOut then .notSupported else e), { c with inputs := rest })) ∧
      (timeout_ms ≤ elapsed →
        fu_synaptics_rmi_hid_device_wait_for_attr source_mask timeout_ms (elapsed :: clock) c =
          (.error .notSupported, c)) := by
  unfold fu_synaptics_rmi_hid_device_wait_for_attr
  constructor
  · intro ht
    unfold fu_synaptics_rmi_hid_device_wait_for_attr_loop
    rw [if_pos ht, fu_io_channel_read_byte_array_cons c _ rest hin]
    simp only
    split <;> rfl
  · intro ht
    unfold fu_synaptics_rmi_hid_device_wait_for_attr_loop
    rw [if_neg (by omega)]

theorem fu_synaptics_rmi_hid_device_wait_for_attr_timed_out_witness :
    (0 < 100 →
        fu_synaptics_rmi_hid_device_wait_for_attr 0x01 100 (0 :: [1, 2])
            ⟨[], [], [.error .timedOut, .ok [0x0c, 0x01]]⟩ =
          (.error (if FwupdError.timedOut = .timedOut then .notSupported else .timedOut),
            { (⟨[], [], [.error .timedOut, .ok [0x0c, 0x01]]⟩ : HidChannel) with
              inputs := [.ok [0x0c, 0x01]] })) ∧
      (100 ≤ 0 →
        fu_synaptics_rmi_hid_device_wait_for_attr 0x01 100 (0 :: [1, 2])
            ⟨[], [], [.error .timedOut, .ok [0x0c, 0x01]]⟩ =
          (.error .notSupported, ⟨[], [], [.error .timedOut, .ok [0x0c, 0x01]]⟩)) :=
  fu_synaptics_rmi_hid_device_wait_for_attr_timed_out 0x01 100 0 [1, 2]
    ⟨[], [], [.error .timedOut, .ok [0x0c, 0x01]]⟩ .timedOut [.ok [0x0c, 0x01]] rfl

/-- C18 (counterexample): with a budget of 100 ms and the timer at 0, 1, 2 ms, a first read
that fails with `TIMED_OUT` ends the call with `NOT_SUPPORTED`; the matching attention
report that is pending is never read, although a second loop test would have found the
timer at 1 ms, below the budget. -/
theorem fu_synaptics_rmi_hid_device_wait_for_attr_loops_past_counterexample :
    fu_synaptics_rmi_hid_device_wait_for_attr 0x01 100 [0, 1, 2]
        ⟨[], [], [.error .timedOut, .ok [0x0c, 0x01]]⟩ =
      (.error .notSupported, ⟨[], [], [.ok [0x0c, 0x01]]⟩) ∧
    fu_synaptics_rmi_hid_device_wait_for_attr 0x01 100 [1, 2] ⟨[], [], [.ok [0x0c, 0x01]]⟩ =
      (.ok (), ⟨[], [], []⟩) := by
  decide

/-- C19: the HID `close` hands back the result of the parent `close` whenever
`set_mode(MOUSE)` succeeds or fails with `PERMISSION_DENIED`; when `set_mode(MOUSE)`
fails with another error kind, `close` returns that error and the parent `close` is not
called. -/
theorem fu_synaptics_rmi_hid_device_close_result (d : HidNode) :
    (∀ d1, fu_synaptics_rmi_hid_device_set_mode HID_RMI4_MODE_MOUSE d = (.ok (), d1) →
        fu_synaptics_rmi_hid_device_close d = d1.call .parentClose ∧
          (fu_synaptics_rmi_hid_device_close d).2.events =
            d.events ++ [.setFeature [0x0f, 0x00], .parentClose]) ∧
      (∀ d1,
        fu_synaptics_rmi_hid_device_set_mode HID_RMI4_MODE_MOUSE d =
          (.error .permissionDenied, d1) →
        fu_synaptics_rmi_hid_device_close d = d1.call .parentClose ∧
          (fu_synaptics_rmi_hid_device_close d).2.events =
            d.events ++ [.setFeature [0x0f, 0x00], .parentClose]) ∧
      (∀ e d1, fu_synaptics_rmi_hid_device_set_mode HID_RMI4_MODE_MOUSE d = (.error e, d1) →
        e ≠ .permissionDenied →
        fu_synaptics_rmi_hid_device_close d = (.error e, d1) ∧
          (fu_synaptics_rmi_hid_device_close d).2.events =
            d.events ++ [.setFeature [0x0f, 0x00]]) := by
  have hev : ∀ (ev : HidEvent) (x : HidNode), (x.call ev).2.events = x.events ++ [ev] := by
    intro ev x
    unfold HidNode.call
    split <;> rfl
  have hmode : (fu_synaptics_rmi_hid_device_set_mode HID_RMI4_MODE_MOUSE d).2.events =
      d.events ++ [.setFeature [0x0f, 0x00]] := hev _ d
  refine ⟨?_, ?_, ?_⟩
  · intro d1 h
    rw [h] at hmode
    unfold fu_synaptics_rmi_hid_device_close
    rw [h]
    simp only
    refine ⟨trivial, ?_⟩
    rw [hev, hmode]
    simp
  · intro d1 h
    rw [h] at hmode
    unfold fu_synaptics_rmi_hid_device_close
    rw [h]
    simp only [ne_eq, not_true_eq_false, if_false]
    refine ⟨trivial, ?_⟩
    rw [hev, hmode]
    simp
  · intro e d1 h he
    rw [h] at hmode
    unfold fu_synaptics_rmi_hid_device_close
    rw [h]
    simp only [ne_eq, he, not_false_eq_true, if_true]
    exact ⟨trivial, hmode⟩

theorem fu_synaptics_rmi_hid_device_close_result_witness :
    fu_synaptics_rmi_hid_device_close ⟨[], [some .permissionDenied, some .internal]⟩ =
        (.error .internal, ⟨[.setFeature [0x0f, 0x00], .parentClose], []⟩) ∧
      fu_synaptics_rmi_hid_device_close ⟨[], [some .write, some .internal]⟩ =
        (.error .write, ⟨[.setFeature [0x0f, 0x00]], [some .internal]⟩) :=
  ⟨((fu_synaptics_rmi_hid_device_close_result
        ⟨[], [some .permissionDenied, some .internal]⟩).2.1
      ⟨[.setFeature [0x0f, 0x00]], [some .internal]⟩ (by decide)).1.trans (by decide),
    ((fu_synaptics_rmi_hid_device_close_result ⟨[], [some .write, some .internal]⟩).2.2
      .write ⟨[.setFeature [0x0f, 0x00]], [some .internal]⟩ (by decide) (by decide)).1⟩

/-! ## PS/2 transport: detach -/

theorem Ps2Device.call_andThen (d : Ps2Device) (ev : Ps2Event) (k : Ps2Device → Ps2DevOut)
    (r : Res Unit) (t : Ps2Device) (h : (d.call ev).andThen k = some (r, t)) :
    (∃ e, r = .error e ∧ t = d.logged ev) ∨ k (d.logged ev) = some (r, t) := by
  unfold Ps2Device.call at h
  split at h
  · rename_i e _
    simp only [Ps2DevOut.andThen, Option.some.injEq, Prod.mk.injEq] at h
    exact Or.inl ⟨e, h.1.symm, h.2.symm⟩
  · exact Or.inr h

theorem Ps2Device.call_ok (d : Ps2Device) (ev : Ps2Event)
    (h : ∀ o ∈ d.extErrs.take 1, o = none) : d.call ev = some (.ok (), d.logged ev) := by
  unfold Ps2Device.call
  cases hl : d.extErrs with
  | nil => rfl
  | cons o rest =>
    have : o = none := h o (by rw [hl]; simp)
    subst this
    rfl

theorem Ps2Device.call_result (d : Ps2Device) (ev : Ps2Event) (r : Res Unit) (t : Ps2Device)
    (h : d.call ev = some (r, t)) : t = d.logged ev := by
  unfold Ps2Device.call at h
  split at h <;>
    (simp only [Option.some.injEq, Prod.mk.injEq] at h; exact h.2.symm)

theorem Ps2Device.enter_iep_mode_andThen (K : RmiStruct) (flags : RmiFlags) (d : Ps2Device)
    (k : Ps2Device → Ps2DevOut) (r : Res Unit) (t : Ps2Device)
    (h : (d.enter_iep_mode K flags).andThen k = some (r, t)) :
    ∃ io1, (∃ e, r = .error e ∧ t = d.entered flags io1) ∨
      k (d.entered flags io1) = some (r, t) := by
  unfold Ps2Device.enter_iep_mode at h
  cases hio : fu_synaptics_rmi_device_enter_iep_mode K flags d.io with
  | none => rw [hio] at h; simp [Ps2DevOut.andThen] at h
  | some p =>
    obtain ⟨r1, io1⟩ := p
    rw [hio] at h
    cases r1 with
    | error e =>
      simp only [Ps2DevOut.andThen, Option.some.injEq, Prod.mk.injEq] at h
      exact ⟨io1, Or.inl ⟨e, h.1.symm, h.2.symm⟩⟩
    | ok u => exact ⟨io1, Or.inr h⟩

theorem detach_f34_version (d : Ps2Device) (v : Nat) (hv : d.f34 = .ok v) :
    fu_synaptics_rmi_ps2_device_detach_f34 d =
      if v = 0 ∨ v = 1 then d.call .v5Detach
      else if v = 2 then d.call .v7Detach
      else some (.error .notSupported, d) := by
  unfold fu_synaptics_rmi_ps2_device_detach_f34
  rw [hv]

theorem query_status_version (d : Ps2Device) (v : Nat) (hv : d.f34 = .ok v) :
    fu_synaptics_rmi_ps2_device_query_status d =
      if v = 0 ∨ v = 1 then d.call .v5QueryStatus
      else if v = 2 then d.call .v7QueryStatus
      else some (.error .notSupported, d) := by
  unfold fu_synaptics_rmi_ps2_device_query_status
  rw [hv]

theorem take_succ_none {l : List (Option FwupdError)} {n : Nat}
    (h : ∀ o ∈ l.take (n + 1), o = none) :
    (∀ o ∈ l.take 1, o = none) ∧ ∀ o ∈ l.tail.take n, o = none := by
  cases l with
  | nil => simp
  | cons a rest =>
    constructor
    · intro o ho
      exact h o (by simp at ho; simp [ho])
    · intro o ho
      exact h o (by simp only [List.tail_cons] at ho; simp [List.take_succ_cons, ho])

theorem Ps2DevOut.andThen_returns (r : Ps2DevOut) (k : Ps2Device → Ps2DevOut)
    (hr : r ≠ none) (hk : ∀ d, k d ≠ none) : r.andThen k ≠ none := by
  unfold Ps2DevOut.andThen
  split
  · exact absurd rfl hr
  · simp
  · exact hk _

theorem Ps2Device.call_returns (d : Ps2Device) (ev : Ps2Event) : d.call ev ≠ none := by
  unfold Ps2Device.call
  split <;> simp

theorem fu_synaptics_rmi_ps2_device_detach_returns (K : RmiStruct) (d : Ps2Device) :
    fu_synaptics_rmi_ps2_device_detach K d ≠ none := by
  have hversion : ∀ (x : Ps2Device) (e5 e7 : Ps2Event),
      (match x.f34 with
        | .error e => some (.error e, x)
        | .ok function_version =>
          if function_version = 0x0 ∨ function_version = 0x1 then x.call e5
          else if function_version = 0x2 then x.call e7
          else (some (.error .notSupported, x) : Ps2DevOut)) ≠ none := by
    intro x e5 e7
    split
    · simp
    · split
      · exact Ps2Device.call_returns _ _
      · split
        · exact Ps2Device.call_returns _ _
        · simp
  unfold fu_synaptics_rmi_ps2_device_detach
  split
  · simp
  · refine Ps2DevOut.andThen_returns _ _ (Ps2Device.call_returns _ _) fun d1 => ?_
    refine Ps2DevOut.andThen_returns _ _ (Ps2Device.call_returns _ _) fun d2 => ?_
    refine Ps2DevOut.andThen_returns _ _ (Ps2Device.call_returns _ _) fun d3 => ?_
    refine Ps2DevOut.andThen_returns _ _ (Ps2Device.call_returns _ _) fun d4 => ?_
    refine Ps2DevOut.andThen_returns _ _ (hversion d4 _ _) fun d5 => ?_
    refine Ps2DevOut.andThen_returns _ _ ?_ fun d6 => hversion d6 _ _
    unfold Ps2Device.enter_iep_mode
    have h := enter_iep_mode_returns K RmiFlags.forced d5.io
    unfold Returns at h
    split
    · rename_i heq
      exact absurd heq h
    · simp

/-- C20: a PS/2 device that has `IS_BOOTLOADER` is left alone by `detach`, which returns
success.  For a device without it whose F34 version is `v`, a successful detach has
made these calls, in this order and no others: write `serio_raw` to `drvctl`, close,
rescan, open, the v5 detach if `v` is 0 or 1 or the v7 detach if `v` is 2,
`enter_iep_mode(FORCE)`, and the query of the status (v5 or v7); and for `v > 2` the
detach never succeeds and never goes beyond the reopen: once the four calls up to the
reopen have succeeded it fails with `NOT_SUPPORTED`.  In every case the detach returns:
no loop below it runs out of its budget. -/
theorem fu_synaptics_rmi_ps2_device_detach_order (K : RmiStruct) (d : Ps2Device) (v : Nat)
    (hv : d.f34 = .ok v) :
    (d.isBootloader = true → fu_synaptics_rmi_ps2_device_detach K d = some (.ok (), d)) ∧
      (d.isBootloader = false →
        ∀ t, fu_synaptics_rmi_ps2_device_detach K d = some (.ok (), t) →
          v ≤ 2 ∧ t.events = d.events ++ detachEvents v) ∧
      (d.isBootloader = false → 2 < v →
        (∀ r t, fu_synaptics_rmi_ps2_device_detach K d = some (r, t) →
          r ≠ .ok () ∧
            t.events <+: d.events ++
              [.writeSysfs "drvctl" "serio_raw", .deviceClose, .deviceRescan, .deviceOpen]) ∧
        ((∀ o ∈ d.extErrs.take 4, o = none) →
          ∃ t, fu_synaptics_rmi_ps2_device_detach K d = some (.error .notSupported, t) ∧
            t.events = d.events ++
              [.writeSysfs "drvctl" "serio_raw", .deviceClose, .deviceRescan,
                .deviceOpen])) ∧
      fu_synaptics_rmi_ps2_device_detach K d ≠ none := by
  refine ⟨?_, ?_, ?_, fu_synaptics_rmi_ps2_device_detach_returns K d⟩
  · intro hb
    unfold fu_synaptics_rmi_ps2_device_detach
    rw [if_pos hb]
  · intro hb t h
    unfold fu_synaptics_rmi_ps2_device_detach at h
    rw [if_neg (by simp [hb])] at h
    rcases Ps2Device.call_andThen _ _ _ _ _ h with ⟨e, he, _⟩ | h
    · simp at he
    rcases Ps2Device.call_andThen _ _ _ _ _ h with ⟨e, he, _⟩ | h
    · simp at he
    rcases Ps2Device.call_andThen _ _ _ _ _ h with ⟨e, he, _⟩ | h
    · simp at he
    rcases Ps2Device.call_andThen _ _ _ _ _ h with ⟨e, he, _⟩ | h
    · simp at he
    rw [detach_f34_version _ v] at h
    swap
    · exact hv
    by_cases h01 : v = 0 ∨ v = 1
    · rw [if_pos h01] at h
      rcases Ps2Device.call_andThen _ _ _ _ _ h with ⟨e, he, _⟩ | h
      · simp at he
      obtain ⟨io1, ⟨e, he, _⟩ | h⟩ := Ps2Device.enter_iep_mode_andThen _ _ _ _ _ _ h
      · simp at he
      rw [query_status_version _ v, if_pos h01] at h
      swap
      · exact hv
      have ht := Ps2Device.call_result _ _ _ _ h
      subst ht
      refine ⟨by omega, ?_⟩
      simp [Ps2Device.logged, Ps2Device.entered, detachEvents, h01]
    · rw [if_neg h01] at h
      by_cases h2 : v = 2
      · rw [if_pos h2] at h
        rcases Ps2Device.call_andThen _ _ _ _ _ h with ⟨e, he, _⟩ | h
        · simp at he
        obtain ⟨io1, ⟨e, he, _⟩ | h⟩ := Ps2Device.enter_iep_mode_andThen _ _ _ _ _ _ h
        · simp at he
        rw [query_status_version _ v, if_neg h01, if_pos h2] at h
        swap
        · exact hv
        have ht := Ps2Device.call_result _ _ _ _ h
        subst ht
        refine ⟨by omega, ?_⟩
        simp [Ps2Device.logged, Ps2Device.entered, detachEvents, h01]
      · rw [if_neg h2] at h
        simp [Ps2DevOut.andThen] at h
  · intro hb hv2
    have h01 : ¬ (v = 0 ∨ v = 1) := by omega
    have h2 : ¬ v = 2 := by omega
    constructor
    · intro r t h
      unfold fu_synaptics_rmi_ps2_device_detach at h
      rw [if_neg (by simp [hb])] at h
      rcases Ps2Device.call_andThen _ _ _ _ _ h with ⟨e, he, ht⟩ | h
      · subst he; subst ht
        exact ⟨by simp, by simp [Ps2Device.logged]⟩
      rcases Ps2Device.call_andThen _ _ _ _ _ h with ⟨e, he, ht⟩ | h
      · subst he; subst ht
        refine ⟨by simp, ?_⟩
        simp only [Ps2Device.logged, List.append_assoc, List.singleton_append]
        exact (List.prefix_append_right_inj _).mpr ⟨[.deviceRescan, .deviceOpen], by simp⟩
      rcases Ps2Device.call_andThen _ _ _ _ _ h with ⟨e, he, ht⟩ | h
      · subst he; subst ht
        refine ⟨by simp, ?_⟩
        simp only [Ps2Device.logged, List.append_assoc, List.singleton_append]
        exact (List.prefix_append_right_inj _).mpr ⟨[.deviceOpen], by simp⟩
      rcases Ps2Device.call_andThen _ _ _ _ _ h with ⟨e, he, ht⟩ | h
      · subst he; subst ht
        refine ⟨by simp, ?_⟩
        simp [Ps2Device.logged]
      rw [detach_f34_version _ v, if_neg h01, if_neg h2] at h
      swap
      · exact hv
      simp only [Ps2DevOut.andThen, Option.some.injEq, Prod.mk.injEq] at h
      obtain ⟨hr, ht⟩ := h
      subst hr; subst ht
      refine ⟨by simp, ?_⟩
      simp [Ps2Device.logged]
    · intro hok
      obtain ⟨h1, hok⟩ := take_succ_none hok
      unfold fu_synaptics_rmi_ps2_device_detach
      rw [if_neg (by simp [hb]), Ps2Device.call_ok d _ h1]
      simp only [Ps2DevOut.andThen]
      obtain ⟨h1, hok⟩ := take_succ_none (l := (d.logged _).extErrs) hok
      rw [Ps2Device.call_ok _ _ h1]
      simp only
      obtain ⟨h1, hok⟩ := take_succ_none (l := ((d.logged _).logged _).extErrs) hok
      rw [Ps2Device.call_ok _ _ h1]
      simp only
      obtain ⟨h1, hok⟩ := take_succ_none (l := (((d.logged _).logged _).logged _).extErrs) hok
      rw [Ps2Device.call_ok _ _ h1]
      simp only
      rw [detach_f34_version _ v, if_neg h01, if_neg h2]
      · exact ⟨_, rfl, by simp [Ps2Device.logged]⟩
      · exact hv

set_option maxRecDepth 100000 in
theorem fu_synaptics_rmi_ps2_device_detach_order_witness :
    fu_synaptics_rmi_ps2_device_detach sampleStruct
        ⟨⟨[], [], List.replicate 12 (.ok 0xfa), false⟩, false, .ok 2, [], []⟩ =
      some (.ok (),
        ⟨⟨[0xf5, 0xe6, 0xe8, 1, 0xe8, 3, 0xe8, 3, 0xe8, 3, 0xf3, 0x14], [], [], true⟩, false,
          .ok 2, detachEvents 2, []⟩) ∧
    (2 ≤ 2 ∧ detachEvents 2 = [] ++ detachEvents 2) :=
  ⟨by decide,
    (fu_synaptics_rmi_ps2_device_detach_order sampleStruct
      ⟨⟨[], [], List.replicate 12 (.ok 0xfa), false⟩, false, .ok 2, [], []⟩ 2 rfl).2.1 rfl
      ⟨⟨[0xf5, 0xe6, 0xe8, 1, 0xe8, 3, 0xe8, 3, 0xe8, 3, 0xf3, 0x14], [], [], true⟩, false,
        .ok 2, detachEvents 2, []⟩ (by decide)⟩

/-! ## PS/2 transport: the resolution sequence and the register write -/

/-- C23 (as amended): against a device that acknowledges every byte, the PS/2 resolution
sequence emits `0xE6` twice when `send_e6s` is true and once when it is false, followed
by exactly the eight bytes `E8 d3 E8 d2 E8 d1 E8 d0` with `d_i = (arg >> 2i) & 3`, and
it succeeds; the `d_i` are the base-4 digits of the 8-bit `arg`, most significant
first. -/
theorem fu_synaptics_rmi_ps2_device_set_resolution_sequence_bytes (arg : Nat)
    (send_e6s : Bool) (s : Ps2State) (rest : List (Res Nat))
    (hrx : s.rx = List.replicate ((if send_e6s then 2 else 1) + 8) (.ok 0xfa) ++ rest)
    (hws : WritesSucceed s) :
    fu_synaptics_rmi_ps2_device_set_resolution_sequence arg send_e6s s =
        some (.ok (),
          s.acked (List.replicate (if send_e6s then 2 else 1) 0xe6 ++
            [0xe8, (arg >>> 6) &&& 3, 0xe8, (arg >>> 4) &&& 3,
              0xe8, (arg >>> 2) &&& 3, 0xe8, (arg >>> 0) &&& 3]) rest) ∧
      64 * ((arg >>> 6) &&& 3) + 16 * ((arg >>> 4) &&& 3) + 4 * ((arg >>> 2) &&& 3) +
        ((arg >>> 0) &&& 3) = arg % 256 := by
  constructor
  · rw [set_resolution_sequence_acked arg send_e6s s rest hrx hws]
    simp [resolutionBytes]
  · have h3 : ∀ x : Nat, x &&& 3 = x % 4 := fun x => Nat.and_pow_two_sub_one_eq_mod x 2
    rw [h3, h3, h3, h3]
    simp only [Nat.shiftRight_eq_div_pow]
    omega

set_option maxRecDepth 100000 in
theorem fu_synaptics_rmi_ps2_device_set_resolution_sequence_bytes_witness :
    fu_synaptics_rmi_ps2_device_set_resolution_sequence 0x9c true
          ⟨[], [], List.replicate 10 (.ok 0xfa) ++ [.ok 0x11], false⟩ =
        some (.ok (),
          (⟨[], [], List.replicate 10 (.ok 0xfa) ++ [.ok 0x11], false⟩ : Ps2State).acked
            (List.replicate 2 0xe6 ++
              [0xe8, (0x9c >>> 6) &&& 3, 0xe8, (0x9c >>> 4) &&& 3,
                0xe8, (0x9c >>> 2) &&& 3, 0xe8, (0x9c >>> 0) &&& 3]) [.ok 0x11]) ∧
      64 * ((0x9c >>> 6) &&& 3) + 16 * ((0x9c >>> 4) &&& 3) + 4 * ((0x9c >>> 2) &&& 3) +
        ((0x9c >>> 0) &&& 3) = 0x9c % 256 :=
  fu_synaptics_rmi_ps2_device_set_resolution_sequence_bytes 0x9c true
    ⟨[], [], List.replicate 10 (.ok 0xfa) ++ [.ok 0x11], false⟩ [.ok 0x11] rfl
    (by intro e he; simp at he)

/-- C23 (counterexample): with `send_e6s` false and a device that acknowledges every
byte, the resolution sequence for `0x9C` starts with one `0xE6`: nine bytes are sent,
not the eight bytes `E8 2 E8 1 E8 3 E8 0` alone. -/
theorem fu_synaptics_rmi_ps2_device_set_resolution_sequence_no_e6_counterexample :
    fu_synaptics_rmi_ps2_device_set_resolution_sequence 0x9c false
        ⟨[], [], List.replicate 9 (.ok 0xfa), false⟩ =
      some (.ok (), ⟨[0xe6, 0xe8, 2, 0xe8, 1, 0xe8, 3, 0xe8, 0], [], [], false⟩) ∧
    (0xe6 ∈ ([0xe6, 0xe8, 2, 0xe8, 1, 0xe8, 3, 0xe8, 0] : List Nat)) := by
  decide

theorem write_rmi_register_data_acked (timeout : Nat) (flags : RmiFlags) (data : List Nat) :
    ∀ (s : Ps2State) (rest : List (Res Nat)),
      s.rx = List.replicate (2 * data.length) (.ok 0xfa) ++ rest → WritesSucceed s →
      fu_synaptics_rmi_ps2_device_write_rmi_register_data timeout flags data s =
        some (.ok (), s.acked (data.flatMap fun b => [0xf3, b]) rest) := by
  induction data with
  | nil =>
    intro s rest hrx _
    simp only [List.length_nil, Nat.mul_zero, List.replicate_zero, List.nil_append] at hrx
    simp [fu_synaptics_rmi_ps2_device_write_rmi_register_data, ← hrx, Ps2State.acked_nil]
  | cons b data ih =>
    intro s rest hrx hws
    unfold fu_synaptics_rmi_ps2_device_write_rmi_register_data
    have e : 2 * (b :: data).length = (2 * data.length + 1) + 1 := by
      simp only [List.length_cons]; omega
    rw [e, List.replicate_succ, List.replicate_succ, List.cons_append, List.cons_append] at hrx
    rw [write_byte_acked _ _ _ s _ hrx hws]
    simp only [Ps2Out.andThen]
    rw [write_byte_acked _ _ _ _ _ rfl (hws.acked _ _)]
    simp only
    rw [ih _ rest rfl ((hws.acked _ _).acked _ _), Ps2State.acked_acked, Ps2State.acked_acked]
    simp [FU_RMI_EDP_COMMAND_AUX_SET_SAMPLE_RATE]

theorem write_rmi_register_acked (K : RmiStruct) (addr : Nat) (data : List Nat)
    (timeout : Nat) (flags : RmiFlags) (s : Ps2State) (rest : List (Res Nat))
    (hiep : s.iepmode = true)
    (hrx : s.rx = List.replicate (3 + 2 * data.length) (.ok 0xfa) ++ rest)
    (hws : WritesSucceed s) :
    fu_synaptics_rmi_ps2_device_write_rmi_register K addr data data.length timeout flags s =
      some (.ok (), s.acked ([0xe7, 0xf3, addr] ++ data.flatMap fun b => [0xf3, b]) rest) := by
  unfold fu_synaptics_rmi_ps2_device_write_rmi_register fu_synaptics_rmi_device_enter_iep_mode
  have hrx1 : s.rx = .ok 0xfa :: .ok 0xfa :: .ok 0xfa ::
      (List.replicate (2 * data.length) (.ok 0xfa) ++ rest) := by
    rw [hrx, List.replicate_add]
    simp [List.replicate_succ]
  simp only [hiep, RmiFlags.none, Bool.not_false, Bool.and_self, if_true, Ps2Out.andThen]
  rw [write_byte_acked _ _ _ s _ hrx1 hws]
  simp only
  rw [write_byte_acked _ _ _ _ _ rfl (hws.acked _ _)]
  simp only
  rw [write_byte_acked _ _ _ _ _ rfl ((hws.acked _ _).acked _ _)]
  simp only
  rw [List.take_length,
    write_rmi_register_data_acked timeout _ data _ rest rfl
      (((hws.acked _ _).acked _ _).acked _ _),
    Ps2State.acked_acked, Ps2State.acked_acked, Ps2State.acked_acked]
  simp [FU_RMI_EDP_COMMAND_AUX_SET_SCALING2_TO1, FU_RMI_EDP_COMMAND_AUX_SET_SAMPLE_RATE]

/-- C24: with IEP mode already entered and a device that acknowledges every byte, the
PS/2 register write of `data` (`L ≤ 255` bytes) at the 8-bit address `addr` emits exactly
`E7 F3 addr` and then the pair `F3 data[i]` for every byte in order, `3 + 2L` bytes in
all, and succeeds; the PS/2 `set_page(page)` is the instance `addr = 0xFF`, `L = 1`:
it emits `E7 F3 FF F3 page`. -/
theorem fu_synaptics_rmi_ps2_device_write_rmi_register_bytes (K : RmiStruct) (addr : Nat)
    (data : List Nat) (timeout : Nat) (flags : RmiFlags) (s : Ps2State)
    (rest : List (Res Nat)) (hiep : s.iepmode = true) (hlen : data.length ≤ 255)
    (hrx : s.rx = List.replicate (3 + 2 * data.length) (.ok 0xfa) ++ rest)
    (hws : WritesSucceed s) :
    fu_synaptics_rmi_ps2_device_write_rmi_register K addr data (data.length % 256) timeout
          flags s =
        some (.ok (), s.acked ([0xe7, 0xf3, addr] ++ data.flatMap fun b => [0xf3, b]) rest) ∧
      ([0xe7, 0xf3, addr] ++ data.flatMap fun b => [0xf3, b]).length = 3 + 2 * data.length ∧
      (data.length = 1 → ∀ page,
        fu_synaptics_rmi_ps2_device_set_page K page s =
          fu_synaptics_rmi_ps2_device_write_rmi_register K 0xff [page] 1 20 RmiFlags.none s ∧
        fu_synaptics_rmi_ps2_device_set_page K page s =
          some (.ok (), s.acked [0xe7, 0xf3, 0xff, 0xf3, page] rest)) := by
  refine ⟨?_, ?_, ?_⟩
  · rw [Nat.mod_eq_of_lt (by omega)]
    exact write_rmi_register_acked K addr data timeout flags s rest hiep hrx hws
  · have : ∀ l : List Nat, (l.flatMap fun b => [0xf3, b]).length = 2 * l.length := by
      intro l
      induction l with
      | nil => rfl
      | cons b l ih => simp only [List.flatMap_cons, List.length_append, ih, List.length_cons,
          List.length_nil]; omega
    rw [List.length_append, this]
    simp
  · intro h1 page
    refine ⟨rfl, ?_⟩
    unfold fu_synaptics_rmi_ps2_device_set_page
    have h := write_rmi_register_acked K RMI_DEVICE_PAGE_SELECT_REGISTER [page] 20
      RmiFlags.none s rest hiep (by rw [hrx, h1]; rfl) hws
    simp only [List.length_singleton] at h
    rw [h]
    simp [RMI_DEVICE_PAGE_SELECT_REGISTER]

set_option maxRecDepth 100000 in
theorem fu_synaptics_rmi_ps2_device_write_rmi_register_bytes_witness :
    fu_synaptics_rmi_ps2_device_write_rmi_register sampleStruct 0x12 [0xab] ([0xab].length % 256)
          1000 RmiFlags.none ⟨[], [], List.replicate 5 (.ok 0xfa) ++ [.ok 0x11], true⟩ =
        some (.ok (),
          (⟨[], [], List.replicate 5 (.ok 0xfa) ++ [.ok 0x11], true⟩ : Ps2State).acked
            ([0xe7, 0xf3, 0x12] ++ [0xab].flatMap fun b => [0xf3, b]) [.ok 0x11]) ∧
      ([0xe7, 0xf3, 0x12] ++ [0xab].flatMap fun b => [0xf3, b]).length = 3 + 2 * [0xab].length ∧
      ([0xab].length = 1 → ∀ page,
        fu_synaptics_rmi_ps2_device_set_page sampleStruct page
            ⟨[], [], List.replicate 5 (.ok 0xfa) ++ [.ok 0x11], true⟩ =
          fu_synaptics_rmi_ps2_device_write_rmi_register sampleStruct 0xff [page] 1 20
            RmiFlags.none ⟨[], [], List.replicate 5 (.ok 0xfa) ++ [.ok 0x11], true⟩ ∧
        fu_synaptics_rmi_ps2_device_set_page sampleStruct page
            ⟨[], [], List.replicate 5 (.ok 0xfa) ++ [.ok 0x11], true⟩ =
          some (.ok (),
            (⟨[], [], List.replicate 5 (.ok 0xfa) ++ [.ok 0x11], true⟩ : Ps2State).acked
              [0xe7, 0xf3, 0xff, 0xf3, page] [.ok 0x11])) :=
  fu_synaptics_rmi_ps2_device_write_rmi_register_bytes sampleStruct 0x12 [0xab] 1000
    RmiFlags.none ⟨[], [], List.replicate 5 (.ok 0xfa) ++ [.ok 0x11], true⟩ [.ok 0x11] rfl
    (by decide) rfl (by intro e he; simp at he)

/-! ## PS/2 transport: other responses and failed acknowledge reads -/

theorem write_byte_ack_loop_others (i : Nat) (rest : List (Res Nat)) (others : List Nat)
    (hothers : ∀ b ∈ others, b ≠ 0xfa ∧ b ≠ 0xfe ∧ b ≠ 0xfc) :
    ∀ (fuel : Nat) (s : Ps2State), others.length < fuel →
      s.rx = others.map .ok ++ .ok 0xfa :: rest →
      fu_synaptics_rmi_ps2_device_write_byte_ack_loop i fuel s =
        some (.returned (.ok ()), { s with rx := rest }) := by
  induction others with
  | nil =>
    intro fuel s hfuel hrx
    obtain ⟨f, rfl⟩ : ∃ f, fuel = f + 1 := ⟨fuel - 1, by simp at hfuel; omega⟩
    exact write_byte_ack_loop_ack i f s rest hrx
  | cons b others ih =>
    intro fuel s hfuel hrx
    obtain ⟨f, rfl⟩ : ∃ f, fuel = f + 1 := ⟨fuel - 1, by simp at hfuel; omega⟩
    unfold fu_synaptics_rmi_ps2_device_write_byte_ack_loop
    rw [List.map_cons, List.cons_append] at hrx
    rw [read_ack_ok s b _ hrx]
    obtain ⟨h1, h2, h3⟩ := hothers b (by simp)
    simp only [FU_RMI_DATA_PORT_STATUS_ACKNOWLEDGE, FU_RMI_DATA_PORT_STATUS_RESEND,
      FU_RMI_DATA_PORT_STATUS_ERROR, h1, h2, h3, if_false]
    rw [ih (fun x hx => hothers x (by simp [hx])) f _ (by simp at hfuel; omega) rfl]

/-- C27: if the device answers a written byte with `m ≥ 0` response bytes that are none
of `0xFA`, `0xFE`, `0xFC` and then with `ACK` (`0xFA`), the PS/2 `write_byte` returns
success having written the byte exactly once and read exactly these `m + 1` answers,
whatever `m` is. -/
theorem fu_synaptics_rmi_ps2_device_write_byte_other_then_ack (buf timeout : Nat)
    (flags : RmiFlags) (s : Ps2State) (others : List Nat) (rest : List (Res Nat))
    (hothers : ∀ b ∈ others, b ≠ 0xfa ∧ b ≠ 0xfe ∧ b ≠ 0xfc)
    (hrx : s.rx = others.map .ok ++ .ok 0xfa :: rest) (hws : WritesSucceed s) :
    fu_synaptics_rmi_ps2_device_write_byte buf timeout flags s =
      some (.ok (), s.acked [buf] rest) := by
  unfold fu_synaptics_rmi_ps2_device_write_byte fu_synaptics_rmi_ps2_device_write_byte_loop
  simp only [if_true]
  have hf := fu_io_channel_write_raw_fields buf s
  cases hwr : fu_io_channel_write_raw buf s with
  | mk r1 s1 =>
    rw [hwr] at hf
    simp only at hf
    obtain ⟨hs1, hr1⟩ := hf
    have hr := hr1 hws
    subst hr
    subst hs1
    simp only
    have h := write_byte_ack_loop_others 0 rest others hothers (s.rx.length + 1)
      { s with tx := s.tx ++ [buf], txErrs := s.txErrs.tail }
      (by rw [hrx]; simp; omega) hrx
    rw [h]
    simp [Ps2State.acked]

set_option maxRecDepth 100000 in
theorem fu_synaptics_rmi_ps2_device_write_byte_other_then_ack_witness :
    fu_synaptics_rmi_ps2_device_write_byte 0xe8 50 RmiFlags.none
        ⟨[], [], [.ok 0x00, .ok 0xaa, .ok 0x00, .ok 0x55, .ok 0x01, .ok 0xfa, .ok 0x11],
          false⟩ =
      some (.ok (),
        (⟨[], [], [.ok 0x00, .ok 0xaa, .ok 0x00, .ok 0x55, .ok 0x01, .ok 0xfa, .ok 0x11],
          false⟩ : Ps2State).acked [0xe8] [.ok 0x11]) :=
  fu_synaptics_rmi_ps2_device_write_byte_other_then_ack 0xe8 50 RmiFlags.none
    ⟨[], [], [.ok 0x00, .ok 0xaa, .ok 0x00, .ok 0x55, .ok 0x01, .ok 0xfa, .ok 0x11], false⟩
    [0x00, 0xaa, 0x00, 0x55, 0x01] [.ok 0x11] (by decide) rfl (by intro e he; simp at he)

theorem read_ack_fails (s : Ps2State) (h : ReadsFail s) :
    ∃ e s1, fu_synaptics_rmi_ps2_device_read_ack s = (.error e, s1) ∧ s1.tx = s.tx ∧
      s1.txErrs = s.txErrs ∧ ReadsFail s1 := by
  obtain ⟨pre, hpre, hok, htx, herr, _⟩ := read_ack_loop_consumed 60 s
  change s.rx = pre ++ (fu_synaptics_rmi_ps2_device_read_ack s).2.rx at hpre
  change ∀ b, (fu_synaptics_rmi_ps2_device_read_ack s).1 = .ok b → _ at hok
  change (fu_synaptics_rmi_ps2_device_read_ack s).2.tx = s.tx at htx
  change (fu_synaptics_rmi_ps2_device_read_ack s).2.txErrs = s.txErrs at herr
  cases hack : fu_synaptics_rmi_ps2_device_read_ack s with
  | mk r s1 =>
    rw [hack] at hpre hok htx herr
    simp only at hpre hok htx herr
    have hfail : ReadsFail s1 := by
      intro x hx
      exact h x (by rw [hpre]; exact List.mem_append_right _ hx)
    cases r with
    | ok b =>
      obtain ⟨p, hp⟩ := hok b rfl
      obtain ⟨e, he⟩ := h (.ok b) (by rw [hpre, hp]; simp)
      simp at he
    | error e => exact ⟨e, s1, rfl, htx, herr, hfail⟩

theorem write_byte_ack_loop_fails (i fuel : Nat) (s : Ps2State) (hi : i ≤ 3)
    (h : ReadsFail s) :
    ∃ s1, fu_synaptics_rmi_ps2_device_write_byte_ack_loop i (fuel + 1) s =
        some (.broke false, s1) ∧
      s1.tx = s.tx ∧ s1.txErrs = s.txErrs ∧ ReadsFail s1 := by
  obtain ⟨e, s1, hack, htx, herr, hfail⟩ := read_ack_fails s h
  unfold fu_synaptics_rmi_ps2_device_write_byte_ack_loop
  rw [hack]
  simp only
  rw [if_neg (by omega)]
  exact ⟨s1, rfl, htx, herr, hfail⟩

theorem write_byte_loop_fails (buf : Nat) (flags : RmiFlags) (fuel : Nat) :
    ∀ i do_write s, i ≤ 3 → 3 - i < fuel → ReadsFail s → WritesSucceed s →
      ∃ t, fu_synaptics_rmi_ps2_device_write_byte_loop buf flags fuel i do_write s =
          some (if flags.allowFailure then .ok () else .error .notSupported, t) ∧
        t.tx = s.tx ++ (if do_write then [buf] else []) := by
  induction fuel with
  | zero => intro i do_write s _ h; omega
  | succ fuel ih =>
    intro i do_write s hi hfuel hrf hws
    unfold fu_synaptics_rmi_ps2_device_write_byte_loop
    have hw : (if do_write then fu_io_channel_write_raw buf s else (Res.ok (), s)).1 = .ok () ∧
        WritesSucceed (if do_write then fu_io_channel_write_raw buf s else (Res.ok (), s)).2 ∧
        ReadsFail (if do_write then fu_io_channel_write_raw buf s else (Res.ok (), s)).2 ∧
        (if do_write then fu_io_channel_write_raw buf s else (Res.ok (), s)).2.tx =
          s.tx ++ (if do_write then [buf] else []) := by
      cases do_write with
      | true =>
        simp only [if_true]
        refine ⟨(fu_io_channel_write_raw_fields buf s).2 hws, ?_, ?_, ?_⟩
        · rw [(fu_io_channel_write_raw_fields buf s).1]
          exact hws.tail (Or.inl rfl)
        · rw [(fu_io_channel_write_raw_fields buf s).1]
          exact hrf
        · rw [(fu_io_channel_write_raw_fields buf s).1]
      | false => exact ⟨rfl, hws, hrf, by simp⟩
    cases hwr : (if do_write then fu_io_channel_write_raw buf s else (Res.ok (), s)) with
    | mk r1 s1 =>
      rw [hwr] at hw
      simp only at hw
      obtain ⟨hr1, hws1, hrf1, htx1⟩ := hw
      subst hr1
      simp only
      obtain ⟨s2, hack, htx2, herr2, hrf2⟩ :=
        write_byte_ack_loop_fails i s1.rx.length s1 hi hrf1
      rw [hack]
      simp only
      by_cases h3 : i ≥ 3
      · rw [if_pos h3]
        refine ⟨s2, ?_, by rw [htx2, htx1]⟩
        cases flags.allowFailure <;> simp
      · rw [if_neg h3]
        obtain ⟨t, ht, httx⟩ := ih (i + 1) false s2 (by omega) (by omega) hrf2
          (hws1.tail (Or.inr herr2))
        exact ⟨t, ht, by rw [httx, htx2, htx1]; simp⟩

theorem write_byte_loop_errors (buf : Nat) (flags : RmiFlags) (fuel : Nat) :
    ∀ i do_write s e t, i ≤ 3 →
      fu_synaptics_rmi_ps2_device_write_byte_loop buf flags fuel i do_write s =
        some (.error e, t) →
      e = .notSupported ∨ some e ∈ s.txErrs := by
  induction fuel with
  | zero =>
    intro i do_write s e t _ h
    simp [fu_synaptics_rmi_ps2_device_write_byte_loop] at h
  | succ fuel ih =>
    intro i do_write s e t hi h
    unfold fu_synaptics_rmi_ps2_device_write_byte_loop at h
    have hw : ∀ x ∈ (if do_write then fu_io_channel_write_raw buf s
        else (Res.ok (), s)).2.txErrs, x ∈ s.txErrs := by
      cases do_write with
      | true =>
        simp only [if_true]
        rw [(fu_io_channel_write_raw_fields buf s).1]
        intro x hx
        exact List.mem_of_mem_tail hx
      | false => intro x hx; exact hx
    have hwe : ∀ e1, (if do_write then fu_io_channel_write_raw buf s
        else (Res.ok (), s)).1 = .error e1 → some e1 ∈ s.txErrs := by
      cases do_write with
      | true =>
        simp only [if_true]
        intro e1 he1
        unfold fu_io_channel_write_raw at he1
        cases herr : s.txErrs with
        | nil => rw [herr] at he1; simp at he1
        | cons o rest =>
          rw [herr] at he1
          cases o with
          | none => simp at he1
          | some e2 =>
            simp at he1
            simp [he1]
      | false => intro e1 he1; simp at he1
    cases hwr : (if do_write then fu_io_channel_write_raw buf s else (Res.ok (), s)) with
    | mk r1 s1 =>
      rw [hwr] at h hw hwe
      simp only at hw hwe
      cases r1 with
      | error e1 =>
        simp only [Option.some.injEq, Prod.mk.injEq, Res.error.injEq] at h
        right
        rw [← h.1]
        exact hwe e1 rfl
      | ok u =>
        simp only at h
        cases hack : fu_synaptics_rmi_ps2_device_write_byte_ack_loop i (s1.rx.length + 1) s1 with
        | none => rw [hack] at h; simp at h
        | some p =>
          obtain ⟨x, s2⟩ := p
          obtain ⟨_, _, _, hnoerr, _, herrs, _⟩ := write_byte_ack_loop_consumed i _ s1 x s2 hack
          rw [hack] at h
          cases x with
          | returned r2 =>
            simp only [Option.some.injEq, Prod.mk.injEq] at h
            obtain ⟨hr, _⟩ := h
            subst hr
            have := hnoerr e rfl
            omega
          | broke dw =>
            simp only at h
            split at h
            · split at h
              · simp at h
              · simp only [Option.some.injEq, Prod.mk.injEq, Res.error.injEq] at h
                left
                exact h.1.symm
            · rcases ih (i + 1) dw s2 e t (by omega) h with h1 | h1
              · exact Or.inl h1
              · right
                rw [herrs] at h1
                exact hw _ h1

/-- C30: the PS/2 `write_byte` never returns an error that comes from reading the
acknowledge.  The only errors it returns are `NOT_SUPPORTED` and the error of a channel
write; in the iterations `i ≤ 3` the acknowledge loop never takes the `read ack failed`
return, and the iteration `i = 3` is the last one, so that return is never taken; and
when every read of the acknowledge fails, the byte is written once and the attempts are
used up without a second write. -/
theorem fu_synaptics_rmi_ps2_device_write_byte_error_kinds (buf timeout : Nat)
    (flags : RmiFlags) (s : Ps2State) :
    (∀ e t, fu_synaptics_rmi_ps2_device_write_byte buf timeout flags s = some (.error e, t) →
        e = .notSupported ∨ some e ∈ s.txErrs) ∧
      (∀ i fuel s1 e t, i ≤ 3 →
        fu_synaptics_rmi_ps2_device_write_byte_ack_loop i fuel s1 ≠
          some (.returned (.error e), t)) ∧
      (∀ fuel do_write s1,
        fu_synaptics_rmi_ps2_device_write_byte_loop buf flags (fuel + 1) 3 do_write s1 =
          fu_synaptics_rmi_ps2_device_write_byte_loop buf flags 1 3 do_write s1) ∧
      (ReadsFail s → WritesSucceed s →
        ∃ t, fu_synaptics_rmi_ps2_device_write_byte buf timeout flags s =
            some (if flags.allowFailure then .ok () else .error .notSupported, t) ∧
          t.tx = s.tx ++ [buf]) := by
  refine ⟨?_, ?_, ?_, ?_⟩
  · intro e t h
    exact write_byte_loop_errors buf flags 4 0 true s e t (by omega) h
  · intro i fuel s1 e t hi h
    obtain ⟨_, _, _, hnoerr, _, _, _⟩ := write_byte_ack_loop_consumed i fuel s1 _ t h
    have := hnoerr e rfl
    omega
  · intro fuel do_write s1
    conv_lhs => unfold fu_synaptics_rmi_ps2_device_write_byte_loop
    conv_rhs => unfold fu_synaptics_rmi_ps2_device_write_byte_loop
    simp
  · intro hrf hws
    obtain ⟨t, ht, htx⟩ := write_byte_loop_fails buf flags 4 0 true s (by omega) (by omega)
      hrf hws
    exact ⟨t, ht, by simpa using htx⟩

/-! ## PS/2 transport: attempts of the sample-rate pair and of the register read -/

theorem sample_rate_loop_step (param arg fuel i : Nat) (send_e6s : Bool) (s : Ps2State) :
    fu_synaptics_rmi_ps2_device_sample_rate_loop param arg (fuel + 1) i send_e6s s =
      match fu_synaptics_rmi_ps2_device_sample_rate_try param arg
          (if i > 0 then true else send_e6s) s with
      | none => none
      | some (.error e, s3) =>
        if i > 3 then some (.error e, s3)
        else fu_synaptics_rmi_ps2_device_sample_rate_loop param arg fuel (i + 1)
          (if i > 0 then true else send_e6s) s3
      | some (.ok (), s3) => some (.ok (), s3) := by
  conv_lhs => unfold fu_synaptics_rmi_ps2_device_sample_rate_loop
  rfl

/-- C25 (what the code does): under the comment `allow 3 retries` the loop of
`sample_rate` gives up only when `i > 3`, so the PS/2 sample-rate pair attempts the
sequence (resolution sequence, `0xF3`, `param`) up to 5 times, an initial try and up to
4 retries with the double `0xE6`, one more than the comment allows: it stops at the
first attempt that succeeds, and what the fifth attempt returns, success or error, is
returned. -/
theorem fu_synaptics_rmi_ps2_device_sample_rate_attempts (param arg : Nat) (send_e6s : Bool)
    (s : Ps2State) :
    fu_synaptics_rmi_ps2_device_sample_rate param arg send_e6s s =
      (fu_synaptics_rmi_ps2_device_sample_rate_try param arg send_e6s s).orElse fun s1 =>
      (fu_synaptics_rmi_ps2_device_sample_rate_try param arg true s1).orElse fun s2 =>
      (fu_synaptics_rmi_ps2_device_sample_rate_try param arg true s2).orElse fun s3 =>
      (fu_synaptics_rmi_ps2_device_sample_rate_try param arg true s3).orElse fun s4 =>
      fu_synaptics_rmi_ps2_device_sample_rate_try param arg true s4 := by
  have hretry : ∀ (fuel i : Nat) (e : Bool) (x : Ps2State), 0 < i → i ≤ 3 →
      fu_synaptics_rmi_ps2_device_sample_rate_loop param arg (fuel + 1) i e x =
        (fu_synaptics_rmi_ps2_device_sample_rate_try param arg true x).orElse fun x1 =>
        fu_synaptics_rmi_ps2_device_sample_rate_loop param arg fuel (i + 1) true x1 := by
    intro fuel i e x h0 h3
    rw [sample_rate_loop_step, if_pos h0]
    rcases fu_synaptics_rmi_ps2_device_sample_rate_try param arg true x with _ | ⟨_ | e1, x1⟩
    · rfl
    · rfl
    · simp only [Ps2Out.orElse]
      rw [if_neg (by omega)]
  have hlast : ∀ (fuel : Nat) (e : Bool) (x : Ps2State),
      fu_synaptics_rmi_ps2_device_sample_rate_loop param arg (fuel + 1) 4 e x =
        fu_synaptics_rmi_ps2_device_sample_rate_try param arg true x := by
    intro fuel e x
    rw [sample_rate_loop_step, if_pos (by omega)]
    rcases fu_synaptics_rmi_ps2_device_sample_rate_try param arg true x with _ | ⟨_ | e1, x1⟩
    · rfl
    · rfl
    · simp only
      rw [if_pos (by omega)]
  have hfirst : fu_synaptics_rmi_ps2_device_sample_rate_loop param arg 5 0 send_e6s s =
      (fu_synaptics_rmi_ps2_device_sample_rate_try param arg send_e6s s).orElse fun x1 =>
      fu_synaptics_rmi_ps2_device_sample_rate_loop param arg 4 1 send_e6s x1 := by
    rw [sample_rate_loop_step, if_neg (by omega)]
    rcases fu_synaptics_rmi_ps2_device_sample_rate_try param arg send_e6s s with
      _ | ⟨_ | e1, x1⟩
    · rfl
    · rfl
    · simp only [Ps2Out.orElse]
      rw [if_neg (by omega)]
  unfold fu_synaptics_rmi_ps2_device_sample_rate
  rw [hfirst]
  have h1 : ∀ x, fu_synaptics_rmi_ps2_device_sample_rate_loop param arg 4 1 send_e6s x = _ :=
    fun x => hretry 3 1 send_e6s x (by omega) (by omega)
  have h2 : ∀ x, fu_synaptics_rmi_ps2_device_sample_rate_loop param arg 3 2 true x = _ :=
    fun x => hretry 2 2 true x (by omega) (by omega)
  have h3 : ∀ x, fu_synaptics_rmi_ps2_device_sample_rate_loop param arg 2 3 true x = _ :=
    fun x => hretry 1 3 true x (by omega) (by omega)
  have h4 : ∀ x, fu_synaptics_rmi_ps2_device_sample_rate_loop param arg 1 4 true x = _ :=
    fun x => hlast 0 true x
  simp only [h1, h2, h3, h4]

/-- C25 (failing input): the first four attempts fail in their first byte (the device
answers none of the four reads of the acknowledge) and the device acknowledges from then
on: a fifth attempt is made, with the double `0xE6`, and the call succeeds, where three
retries would have ended in the error; against a device that never answers, five
attempts are made before the error is returned. -/
theorem fu_synaptics_rmi_ps2_device_sample_rate_fifth_attempt_counterexample :
    fu_synaptics_rmi_ps2_device_sample_rate 0x14 0x7f false
        ⟨[], [], List.replicate 16 (.error .read) ++ List.replicate 12 (.ok 0xfa), false⟩ =
      some (.ok (),
        ⟨[0xe6, 0xe6, 0xe6, 0xe6,
          0xe6, 0xe6, 0xe8, 1, 0xe8, 3, 0xe8, 3, 0xe8, 3, 0xf3, 0x14], [], [], false⟩) ∧
    fu_synaptics_rmi_ps2_device_sample_rate 0x14 0x7f false ⟨[], [], [], false⟩ =
      some (.error .notSupported, ⟨[0xe6, 0xe6, 0xe6, 0xe6, 0xe6], [], [], false⟩) := by
  decide

theorem read_rmi_register_loop_acked (addr fuel retries : Nat) (s : Ps2State) (r : Res Nat)
    (rest : List (Res Nat)) (hrx : s.rx = List.replicate 4 (.ok 0xfa) ++ r :: rest)
    (hws : WritesSucceed s) :
    fu_synaptics_rmi_ps2_device_read_rmi_register_loop addr (fuel + 1) retries s =
      match r with
      | .ok b => some (.ok b, s.acked [0xe7, 0xf3, addr, 0xe9] rest)
      | .error e =>
        if retries > 2 then some (.error e, s.acked [0xe7, 0xf3, addr, 0xe9] rest)
        else fu_synaptics_rmi_ps2_device_read_rmi_register_loop addr fuel (retries + 1 + 1)
          (s.acked [0xe7, 0xf3, addr, 0xe9] rest) := by
  conv_lhs => unfold fu_synaptics_rmi_ps2_device_read_rmi_register_loop
  have hrx1 : s.rx = .ok 0xfa :: .ok 0xfa :: .ok 0xfa :: .ok 0xfa :: r :: rest := by
    rw [hrx]; rfl
  rw [write_byte_acked _ _ _ s _ hrx1 hws]
  simp only [Ps2Out.andThen]
  rw [write_byte_acked _ _ _ _ _ rfl (hws.acked _ _)]
  simp only
  rw [write_byte_acked _ _ _ _ _ rfl ((hws.acked _ _).acked _ _)]
  simp only
  rw [write_byte_acked _ _ _ _ _ rfl (((hws.acked _ _).acked _ _).acked _ _)]
  simp only [Ps2State.acked_acked, List.singleton_append, List.cons_append, List.nil_append,
    fu_synaptics_rmi_ps2_device_read_byte, fu_io_channel_read_raw, Ps2State.acked,
    FU_RMI_EDP_COMMAND_AUX_SET_SCALING2_TO1, FU_RMI_EDP_COMMAND_AUX_SET_SAMPLE_RATE,
    FU_RMI_EDP_COMMAND_AUX_STATUS_REQUEST]
  cases r with
  | ok b => simp
  | error e => simp

/-- C26: with IEP mode entered and a device that acknowledges the command bytes, the PS/2
single-register read makes at most 3 attempts: every attempt sends the four command
bytes `E7 F3 addr E9` and then reads one byte; a read failure on the first or second
attempt is followed by the next attempt, and what the third read gives, the byte or the
error, is returned. -/
theorem fu_synaptics_rmi_ps2_device_read_rmi_register_attempts (K : RmiStruct) (addr : Nat)
    (s : Ps2State) (errs : List FwupdError) (r : Res Nat) (rest : List (Res Nat))
    (hiep : s.iepmode = true) (hws : WritesSucceed s) (hk : errs.length ≤ 2)
    (hr : errs.length = 2 ∨ ∃ b, r = .ok b)
    (hrx : s.rx = (errs.flatMap fun e => List.replicate 4 (.ok 0xfa) ++ [.error e]) ++
      List.replicate 4 (.ok 0xfa) ++ r :: rest) :
    fu_synaptics_rmi_ps2_device_read_rmi_register K addr s =
      some (r, s.acked
        (List.replicate (errs.length + 1) [0xe7, 0xf3, addr, 0xe9]).flatten rest) := by
  unfold fu_synaptics_rmi_ps2_device_read_rmi_register fu_synaptics_rmi_device_enter_iep_mode
  simp only [hiep, RmiFlags.none, Bool.not_false, Bool.and_self, if_true, Ps2Out.andThen]
  match errs, hk, hr, hrx with
  | [], _, hr, hrx =>
    obtain ⟨b, rfl⟩ : ∃ b, r = .ok b := by
      rcases hr with h | h
      · simp at h
      · exact h
    simp only [List.flatMap_nil, List.nil_append] at hrx
    rw [read_rmi_register_loop_acked addr 2 0 s _ rest hrx hws]
    simp
  | [e1], _, hr, hrx =>
    obtain ⟨b, rfl⟩ : ∃ b, r = .ok b := by
      rcases hr with h | h
      · simp at h
      · exact h
    have hrx1 : s.rx = List.replicate 4 (Res.ok 0xfa) ++
        Res.error e1 :: (List.replicate 4 (Res.ok 0xfa) ++ Res.ok b :: rest) := by
      rw [hrx]; simp
    rw [read_rmi_register_loop_acked addr 2 0 s (Res.error e1)
      (List.replicate 4 (Res.ok 0xfa) ++ Res.ok b :: rest) hrx1 hws]
    simp only
    rw [if_neg (by omega)]
    rw [read_rmi_register_loop_acked addr 1 _
      (s.acked [0xe7, 0xf3, addr, 0xe9] (List.replicate 4 (Res.ok 0xfa) ++ Res.ok b :: rest))
      (Res.ok b) rest rfl (hws.acked _ _)]
    simp [Ps2State.acked_acked]
  | [e1, e2], _, _, hrx =>
    have hrx1 : s.rx = List.replicate 4 (Res.ok 0xfa) ++
        Res.error e1 :: (List.replicate 4 (Res.ok 0xfa) ++
          Res.error e2 :: (List.replicate 4 (Res.ok 0xfa) ++ r :: rest)) := by
      rw [hrx]; simp
    rw [read_rmi_register_loop_acked addr 2 0 s (Res.error e1)
      (List.replicate 4 (Res.ok 0xfa) ++
        Res.error e2 :: (List.replicate 4 (Res.ok 0xfa) ++ r :: rest)) hrx1 hws]
    simp only
    rw [if_neg (by omega)]
    rw [read_rmi_register_loop_acked addr 1 _
      (s.acked [0xe7, 0xf3, addr, 0xe9] (List.replicate 4 (Res.ok 0xfa) ++
        Res.error e2 :: (List.replicate 4 (Res.ok 0xfa) ++ r :: rest)))
      (Res.error e2) (List.replicate 4 (Res.ok 0xfa) ++ r :: rest) rfl (hws.acked _ _)]
    simp only
    rw [if_neg (by omega)]
    rw [read_rmi_register_loop_acked addr 0 _
      ((s.acked [0xe7, 0xf3, addr, 0xe9] (List.replicate 4 (Res.ok 0xfa) ++
        Res.error e2 :: (List.replicate 4 (Res.ok 0xfa) ++ r :: rest))).acked
          [0xe7, 0xf3, addr, 0xe9] (List.replicate 4 (Res.ok 0xfa) ++ r :: rest))
      r rest rfl ((hws.acked _ _).acked _ _)]
    cases r with
    | ok b => simp [Ps2State.acked_acked]
    | error e => simp [Ps2State.acked_acked]
  | _ :: _ :: _ :: _, hk, _, _ => simp at hk

set_option maxRecDepth 100000 in
theorem fu_synaptics_rmi_ps2_device_read_rmi_register_attempts_witness :
    fu_synaptics_rmi_ps2_device_read_rmi_register sampleStruct 0x2a
        ⟨[], [], [.ok 0xfa, .ok 0xfa, .ok 0xfa, .ok 0xfa, .error .timedOut,
          .ok 0xfa, .ok 0xfa, .ok 0xfa, .ok 0xfa, .error .read,
          .ok 0xfa, .ok 0xfa, .ok 0xfa, .ok 0xfa, .error .timedOut, .ok 0x55], true⟩ =
      some (.error .timedOut,
        (⟨[], [], [.ok 0xfa, .ok 0xfa, .ok 0xfa, .ok 0xfa, .error .timedOut,
          .ok 0xfa, .ok 0xfa, .ok 0xfa, .ok 0xfa, .error .read,
          .ok 0xfa, .ok 0xfa, .ok 0xfa, .ok 0xfa, .error .timedOut, .ok 0x55],
          true⟩ : Ps2State).acked
          (List.replicate ([FwupdError.timedOut, FwupdError.read].length + 1)
            [0xe7, 0xf3, 0x2a, 0xe9]).flatten [.ok 0x55]) :=
  fu_synaptics_rmi_ps2_device_read_rmi_register_attempts sampleStruct 0x2a
    ⟨[], [], [.ok 0xfa, .ok 0xfa, .ok 0xfa, .ok 0xfa, .error .timedOut,
      .ok 0xfa, .ok 0xfa, .ok 0xfa, .ok 0xfa, .error .read,
      .ok 0xfa, .ok 0xfa, .ok 0xfa, .ok 0xfa, .error .timedOut, .ok 0x55], true⟩
    [.timedOut, .read] (.error .timedOut) [.ok 0x55] rfl (by intro e he; simp at he)
    (by decide) (Or.inl rfl) rfl

/-! ## PS/2 transport: the build id -/

theorem status_request_read_value (ucArgument v : Nat) (s s1 : Ps2State) (b0 b1 b2 : Nat)
    (rest : List (Res Nat))
    (hcmd : fu_synaptics_rmi_ps2_device_status_request_command ucArgument 3 s =
      some (.ok (), s1))
    (hrx : s1.rx = .ok b0 :: .ok b1 :: .ok b2 :: rest)
    (h0 : b0 < 256) (h1 : b1 < 256) (h2 : b2 < 256) :
    fu_synaptics_rmi_ps2_device_status_request ucArgument v s =
      some (.ok (), (v % 256) * 16777216 + b0 * 65536 + b1 * 256 + b2,
        { s1 with rx := rest }) := by
  unfold fu_synaptics_rmi_ps2_device_status_request
  rw [hcmd]
  simp only [fu_synaptics_rmi_ps2_device_status_request_read,
    fu_synaptics_rmi_ps2_device_read_byte, fu_io_channel_read_raw, hrx]
  rw [status_request_fold v b0 h0, status_request_fold _ b1 h1, status_request_fold _ b2 h2]
  have : ((((v % 16777216) * 256 + b0) % 16777216 * 256 + b1) % 16777216 * 256 + b2) =
      (v % 256) * 16777216 + b0 * 65536 + b1 * 256 + b2 := by
    omega
  rw [this]

theorem esdr_middle_byte (x : Nat) : (x &&& 0xFF00) >>> 8 = (x / 256) % 256 := by
  apply Nat.eq_of_testBit_eq
  intro i
  rw [Nat.testBit_shiftRight, Nat.testBit_and]
  have h : (x / 256) % 256 = (x >>> 8) &&& (2 ^ 8 - 1) := by
    rw [Nat.and_pow_two_sub_one_eq_mod, Nat.shiftRight_eq_div_pow]
  rw [h, Nat.testBit_and, Nat.testBit_shiftRight]
  congr 1
  have e : (0xFF00 : Nat) = (2 ^ 8 - 1) <<< 8 := by decide
  rw [e, Nat.testBit_shiftLeft]
  simp

/-- C28 (as amended): the ESD response that the PS/2 `query_build_id` compares with
`TOUCH_PAD` is the middle byte of the 24-bit `IDENTIFY_SYNAPTICS` response, the second of
the three response bytes (bits 8..15 of the folded value); and the
`READ_EXTRA_CAPABILITIES2` status request is issued exactly when that byte equals
`TOUCH_PAD` or the secondary id read after `0xE1` is a Synaptics styk id. -/
theorem fu_synaptics_rmi_ps2_device_query_build_id_esdr (K : RmiStruct) (build_id : Nat)
    (s s1 s2 : Ps2State) (b0 b1 b2 sid : Nat) (rest rest2 : List (Res Nat))
    (hcmd : fu_synaptics_rmi_ps2_device_status_request_command K.IDENTIFY_SYNAPTICS 3 s =
      some (.ok (), s1))
    (hrx : s1.rx = .ok b0 :: .ok b1 :: .ok b2 :: rest)
    (h0 : b0 < 256) (h1 : b1 < 256) (h2 : b2 < 256)
    (hid : fu_synaptics_rmi_ps2_device_write_byte FU_RMI_EDP_COMMAND_AUX_IBM_READ_SECONDARY_ID
      10 RmiFlags.none { s1 with rx := rest } = some (.ok (), s2))
    (hsid : s2.rx = .ok sid :: rest2) :
    fu_synaptics_rmi_ps2_device_query_build_id K build_id s =
      if b1 = K.TOUCH_PAD ∨ sid = K.JYT_SYNA ∨ sid = K.SYNAPTICS then
        fu_synaptics_rmi_ps2_device_status_request K.READ_EXTRA_CAPABILITIES2 build_id
          { s2 with rx := rest2, iepmode := false }
      else some (.ok (), build_id, { s2 with rx := rest2, iepmode := false }) := by
  unfold fu_synaptics_rmi_ps2_device_query_build_id
  rw [status_request_read_value K.IDENTIFY_SYNAPTICS 0 s s1 b0 b1 b2 rest hcmd hrx h0 h1 h2]
  simp only [fu_synaptics_rmi_ps2_device_detect_synaptics_styk, hid,
    fu_synaptics_rmi_ps2_device_read_byte, fu_io_channel_read_raw, hsid,
    fu_synaptics_rmi_device_set_iepmode, esdr_middle_byte]
  have hmid : (0 % 256 * 16777216 + b0 * 65536 + b1 * 256 + b2) / 256 % 256 = b1 := by omega
  rw [hmid]
  by_cases hs : sid = K.JYT_SYNA ∨ sid = K.SYNAPTICS
  · simp [hs]
  · simp only [hs, if_false, Bool.false_eq_true, or_false]

set_option maxRecDepth 100000 in
theorem fu_synaptics_rmi_ps2_device_query_build_id_esdr_witness :
    fu_synaptics_rmi_ps2_device_query_build_id sampleStruct 0
        ⟨[], [], List.replicate 10 (.ok 0xfa) ++ [.ok 0x00, .ok 0x47, .ok 0x00, .ok 0xfa,
          .ok 0x00] ++ List.replicate 10 (.ok 0xfa) ++ [.ok 0x12, .ok 0x34, .ok 0x56],
          true⟩ =
      if 0x47 = sampleStruct.TOUCH_PAD ∨ 0x00 = sampleStruct.JYT_SYNA ∨
          0x00 = sampleStruct.SYNAPTICS then
        fu_synaptics_rmi_ps2_device_status_request sampleStruct.READ_EXTRA_CAPABILITIES2 0
          { (⟨[0xe6, 0xe8, 0, 0xe8, 0, 0xe8, 0, 0xe8, 0, 0xe9, 0xe1], [],
              .ok 0x00 :: (List.replicate 10 (.ok 0xfa) ++ [.ok 0x12, .ok 0x34, .ok 0x56]),
              true⟩ : Ps2State) with
            rx := List.replicate 10 (.ok 0xfa) ++ [.ok 0x12, .ok 0x34, .ok 0x56],
            iepmode := false }
      else
        some (.ok (), 0,
          { (⟨[0xe6, 0xe8, 0, 0xe8, 0, 0xe8, 0, 0xe8, 0, 0xe9, 0xe1], [],
              .ok 0x00 :: (List.replicate 10 (.ok 0xfa) ++ [.ok 0x12, .ok 0x34, .ok 0x56]),
              true⟩ : Ps2State) with
            rx := List.replicate 10 (.ok 0xfa) ++ [.ok 0x12, .ok 0x34, .ok 0x56],
            iepmode := false }) :=
  fu_synaptics_rmi_ps2_device_query_build_id_esdr sampleStruct 0
    ⟨[], [], List.replicate 10 (.ok 0xfa) ++ [.ok 0x00, .ok 0x47, .ok 0x00, .ok 0xfa,
      .ok 0x00] ++ List.replicate 10 (.ok 0xfa) ++ [.ok 0x12, .ok 0x34, .ok 0x56], true⟩
    ⟨[0xe6, 0xe8, 0, 0xe8, 0, 0xe8, 0, 0xe8, 0, 0xe9], [],
      .ok 0x00 :: .ok 0x47 :: .ok 0x00 :: (.ok 0xfa :: .ok 0x00 ::
        (List.replicate 10 (.ok 0xfa) ++ [.ok 0x12, .ok 0x34, .ok 0x56])), true⟩
    ⟨[0xe6, 0xe8, 0, 0xe8, 0, 0xe8, 0, 0xe8, 0, 0xe9, 0xe1], [],
      .ok 0x00 :: (List.replicate 10 (.ok 0xfa) ++ [.ok 0x12, .ok 0x34, .ok 0x56]), true⟩
    0x00 0x47 0x00 0x00
    (.ok 0xfa :: .ok 0x00 :: (List.replicate 10 (.ok 0xfa) ++ [.ok 0x12, .ok 0x34, .ok 0x56]))
    (List.replicate 10 (.ok 0xfa) ++ [.ok 0x12, .ok 0x34, .ok 0x56])
    (by decide) rfl (by decide) (by decide) (by decide) (by decide) rfl

/-- C28 (counterexample): the device answers `IDENTIFY_SYNAPTICS` with `47 00 00`, whose
high byte is `TOUCH_PAD` (`0x47`), and the secondary id `00`: no `READ_EXTRA_CAPABILITIES2`
request is sent, the last byte written is `0xE1` and the build id is left as it was;
when it answers `00 47 00`, whose high byte is not `TOUCH_PAD`, the request is sent and
the build id read. -/
theorem fu_synaptics_rmi_ps2_device_query_build_id_high_byte_counterexample :
    fu_synaptics_rmi_ps2_device_query_build_id sampleStruct 0
        ⟨[], [], List.replicate 10 (.ok 0xfa) ++ [.ok 0x47, .ok 0x00, .ok 0x00, .ok 0xfa,
          .ok 0x00] ++ List.replicate 10 (.ok 0xfa) ++ [.ok 0x12, .ok 0x34, .ok 0x56],
          true⟩ =
      some (.ok (), 0,
        ⟨[0xe6, 0xe8, 0, 0xe8, 0, 0xe8, 0, 0xe8, 0, 0xe9, 0xe1], [],
          List.replicate 10 (.ok 0xfa) ++ [.ok 0x12, .ok 0x34, .ok 0x56], false⟩) ∧
    fu_synaptics_rmi_ps2_device_query_build_id sampleStruct 0
        ⟨[], [], List.replicate 10 (.ok 0xfa) ++ [.ok 0x00, .ok 0x47, .ok 0x00, .ok 0xfa,
          .ok 0x00] ++ List.replicate 10 (.ok 0xfa) ++ [.ok 0x12, .ok 0x34, .ok 0x56],
          true⟩ =
      some (.ok (), 0x123456,
        ⟨[0xe6, 0xe8, 0, 0xe8, 0, 0xe8, 0, 0xe8, 0, 0xe9, 0xe1,
          0xe6, 0xe8, 0, 0xe8, 0, 0xe8, 3, 0xe8, 0, 0xe9], [], [], false⟩) := by
  decide

/-! ## PS/2 transport: open -/

theorem open_bootloader_returns (s : Ps2State) :
    fu_synaptics_rmi_ps2_device_open_bootloader s ≠ none := by
  unfold fu_synaptics_rmi_ps2_device_open_bootloader
  have h := write_byte_returns FU_RMI_EDP_COMMAND_AUX_RESET 600 RmiFlags.none
    (fu_synaptics_rmi_ps2_device_open_drain 0xffff s)
  refine Returns.chain h fun _ s1 => ?_
  unfold Returns
  split
  · simp
  · split
    · simp
    · split
      · simp
      · exact write_byte_returns _ _ _ _

theorem open_bootloader_ok (s t : Ps2State)
    (h : fu_synaptics_rmi_ps2_device_open_bootloader s = some (.ok (), t)) :
    ∃ s1 rest,
      fu_synaptics_rmi_ps2_device_write_byte FU_RMI_EDP_COMMAND_AUX_RESET 600 RmiFlags.none
        (fu_synaptics_rmi_ps2_device_open_drain 0xffff s) = some (.ok (), s1) ∧
      s1.rx = .ok 0xaa :: .ok 0x00 :: rest ∧
      fu_synaptics_rmi_ps2_device_write_byte FU_RMI_EDP_COMMAND_AUX_DISABLE 50 RmiFlags.none
        { s1 with rx := rest } = some (.ok (), t) := by
  unfold fu_synaptics_rmi_ps2_device_open_bootloader at h
  rcases hw : fu_synaptics_rmi_ps2_device_write_byte FU_RMI_EDP_COMMAND_AUX_RESET 600
      RmiFlags.none (fu_synaptics_rmi_ps2_device_open_drain 0xffff s) with _ | ⟨_ | e, s1⟩
  · rw [hw] at h; simp [Ps2Out.andThen] at h
  · rw [hw] at h
    simp only [Ps2Out.andThen, fu_synaptics_rmi_ps2_device_read_byte,
      fu_io_channel_read_raw] at h
    match hrx : s1.rx with
    | [] => rw [hrx] at h; simp at h
    | .error e :: _ => rw [hrx] at h; simp at h
    | [.ok b0] => rw [hrx] at h; simp at h
    | .ok b0 :: .error e :: _ => rw [hrx] at h; simp at h
    | .ok b0 :: .ok b1 :: rest =>
      rw [hrx] at h
      simp only at h
      split at h
      · simp at h
      · rename_i hb
        have hb0 : b0 = 0xaa := by
          by_contra hne; exact hb (Or.inl hne)
        have hb1 : b1 = 0x00 := by
          by_contra hne; exact hb (Or.inr hne)
        subst hb0; subst hb1
        exact ⟨s1, rest, rfl, hrx, h⟩
  · rw [hw] at h; simp [Ps2Out.andThen] at h

theorem open_bootloader_banner (s s1 : Ps2State) (b0 b1 : Nat) (rest : List (Res Nat))
    (hw : fu_synaptics_rmi_ps2_device_write_byte FU_RMI_EDP_COMMAND_AUX_RESET 600
      RmiFlags.none (fu_synaptics_rmi_ps2_device_open_drain 0xffff s) = some (.ok (), s1))
    (hrx : s1.rx = .ok b0 :: .ok b1 :: rest) (hne : ¬ (b0 = 0xaa ∧ b1 = 0x00)) :
    fu_synaptics_rmi_ps2_device_open_bootloader s =
      some (.error .invalidData, { s1 with rx := rest }) := by
  unfold fu_synaptics_rmi_ps2_device_open_bootloader
  rw [hw]
  simp only [Ps2Out.andThen, fu_synaptics_rmi_ps2_device_read_byte, fu_io_channel_read_raw,
    hrx]
  rw [if_pos]
  by_contra h
  exact hne ⟨by by_contra h0; exact h (Or.inl h0), by by_contra h1; exact h (Or.inr h1)⟩

/-- C21: for a device without `IS_BOOTLOADER` the PS/2 `open` is the parent `open` and
nothing else: the channel is left as it was.  For a device with `IS_BOOTLOADER` it
succeeds only if, after the drain, `RESET` (`0xFF`) was acknowledged and the next two
bytes read are `0xAA` then `0x00`, `DISABLE` (`0xF5`) being sent after them; when the
two bytes read are any other pair it fails with `INVALID_DATA` and nothing is written
after the `RESET`.  In every case it returns. -/
theorem fu_synaptics_rmi_ps2_device_open_banner (d : Ps2Device) :
    (d.isBootloader = false →
        fu_synaptics_rmi_ps2_device_open d = d.call .parentOpen ∧
          ∀ r t, fu_synaptics_rmi_ps2_device_open d = some (r, t) → t.io = d.io) ∧
      (d.isBootloader = true →
        ∀ t, fu_synaptics_rmi_ps2_device_open d = some (.ok (), t) →
          ∃ s1 pre rest,
            fu_synaptics_rmi_ps2_device_write_byte 0xff 600 RmiFlags.none
              (fu_synaptics_rmi_ps2_device_open_drain 0xffff d.io) = some (.ok (), s1) ∧
            (fu_synaptics_rmi_ps2_device_open_drain 0xffff d.io).rx =
              pre ++ [.ok 0xfa] ++ s1.rx ∧
            s1.rx = .ok 0xaa :: .ok 0x00 :: rest ∧
            fu_synaptics_rmi_ps2_device_write_byte 0xf5 50 RmiFlags.none
              { s1 with rx := rest } = some (.ok (), t.io)) ∧
      (d.isBootloader = true →
        ∀ d1 s1 b0 b1 rest, d.call .parentOpen = some (.ok (), d1) →
          fu_synaptics_rmi_ps2_device_write_byte 0xff 600 RmiFlags.none
            (fu_synaptics_rmi_ps2_device_open_drain 0xffff d.io) = some (.ok (), s1) →
          s1.rx = .ok b0 :: .ok b1 :: rest → ¬ (b0 = 0xaa ∧ b1 = 0x00) →
          ∃ t, fu_synaptics_rmi_ps2_device_open d = some (.error .invalidData, t) ∧
            t.io = { s1 with rx := rest } ∧ t.io.tx = s1.tx) ∧
      fu_synaptics_rmi_ps2_device_open d ≠ none := by
  refine ⟨?_, ?_, ?_, ?_⟩
  · intro hb
    have heq : fu_synaptics_rmi_ps2_device_open d = d.call .parentOpen := by
      unfold fu_synaptics_rmi_ps2_device_open Ps2Device.call
      split <;> simp [Ps2DevOut.andThen, Ps2Device.logged, hb]
    refine ⟨heq, ?_⟩
    intro r t h
    rw [heq] at h
    rw [Ps2Device.call_result d _ r t h]
    rfl
  · intro hb t h
    unfold fu_synaptics_rmi_ps2_device_open at h
    rcases Ps2Device.call_andThen _ _ _ _ _ h with ⟨e, he, _⟩ | h
    · simp at he
    have hb1 : (d.logged .parentOpen).isBootloader = true := hb
    rw [if_pos hb1] at h
    rcases hbl : fu_synaptics_rmi_ps2_device_open_bootloader (d.logged .parentOpen).io with
      _ | ⟨r, io1⟩
    · rw [hbl] at h; simp at h
    · rw [hbl] at h
      simp only [Option.some.injEq, Prod.mk.injEq] at h
      obtain ⟨hr, ht⟩ := h
      subst hr
      subst ht
      obtain ⟨s1, rest, hw, hrx, hdis⟩ := open_bootloader_ok _ _ hbl
      obtain ⟨pre, hpre⟩ := write_byte_loop_ok_acked _ RmiFlags.none rfl 4 0 true _ _ hw
      exact ⟨s1, pre, rest, hw, hpre, hrx, hdis⟩
  · intro hb d1 s1 b0 b1 rest hcall hw hrx hne
    have hd1 := Ps2Device.call_result d _ _ _ hcall
    subst hd1
    unfold fu_synaptics_rmi_ps2_device_open
    rw [hcall]
    simp only [Ps2DevOut.andThen]
    have hb1 : (d.logged .parentOpen).isBootloader = true := hb
    rw [if_pos hb1]
    have hio : (d.logged .parentOpen).io = d.io := rfl
    rw [hio, open_bootloader_banner d.io s1 b0 b1 rest hw hrx hne]
    exact ⟨_, rfl, rfl, rfl⟩
  · unfold fu_synaptics_rmi_ps2_device_open
    refine Ps2DevOut.andThen_returns _ _ (Ps2Device.call_returns _ _) fun d1 => ?_
    split
    · have := open_bootloader_returns d1.io
      split
      · rename_i heq; exact absurd heq this
      · simp
    · simp

set_option maxRecDepth 100000 in
theorem fu_synaptics_rmi_ps2_device_open_banner_witness :
    (∃ t, fu_synaptics_rmi_ps2_device_open
          ⟨⟨[], [], [.ok 0x01, .ok 0x02, .error .timedOut, .ok 0xfa, .ok 0xaa, .ok 0x01,
            .ok 0xfa], false⟩, true, .ok 2, [], []⟩ = some (.error .invalidData, t) ∧
        t.io = { (⟨[0xff], [], [.ok 0xaa, .ok 0x01, .ok 0xfa], false⟩ : Ps2State) with
          rx := [.ok 0xfa] } ∧
        t.io.tx = (⟨[0xff], [], [.ok 0xaa, .ok 0x01, .ok 0xfa], false⟩ : Ps2State).tx) ∧
      fu_synaptics_rmi_ps2_device_open
          ⟨⟨[], [], [.ok 0x01, .ok 0x02, .error .timedOut, .ok 0xfa, .ok 0xaa, .ok 0x00,
            .ok 0xfa], false⟩, true, .ok 2, [], []⟩ =
        some (.ok (), ⟨⟨[0xff, 0xf5], [], [], false⟩, true, .ok 2, [.parentOpen], []⟩) :=
  ⟨(fu_synaptics_rmi_ps2_device_open_banner
      ⟨⟨[], [], [.ok 0x01, .ok 0x02, .error .timedOut, .ok 0xfa, .ok 0xaa, .ok 0x01,
        .ok 0xfa], false⟩, true, .ok 2, [], []⟩).2.2.1 rfl
      ⟨⟨[], [], [.ok 0x01, .ok 0x02, .error .timedOut, .ok 0xfa, .ok 0xaa, .ok 0x01,
        .ok 0xfa], false⟩, true, .ok 2, [.parentOpen], []⟩
      ⟨[0xff], [], [.ok 0xaa, .ok 0x01, .ok 0xfa], false⟩ 0xaa 0x01 [.ok 0xfa]
      (by decide) (by decide) rfl (by decide),
    by decide⟩

/-! ## HID transport: sleep control -/

set_option maxRecDepth 100000 in
theorem disable_sleep_bits :
    ∀ b, b < 256 →
      ((((b ||| 4) % 256) &&& (0xffffffff - 3)) ||| 0) % 256 = (b ||| 0x04) &&& 0xFC ∧
      ((b ||| 0x04) &&& 0xFC) % 4 = 0 ∧ ((b ||| 0x04) &&& 0xFC) / 4 % 2 = 1 ∧
      ((b ||| 0x04) &&& 0xFC) / 8 = b / 8 := by
  decide

/-- C29 (as amended): when the read of one byte at `control_base` yields the bytes
`b :: rest`, the HID `disable_sleep` writes back to the same address these bytes with
the first one replaced by `(b | 0x04) & 0xFC`: bit 2 (`NOSLEEP`) is set, bits 0..1 are
cleared to `SLEEP_MODE_NORMAL` and bits 3..7 are unchanged; exactly one byte is written
when the read yielded exactly one byte. -/
theorem fu_synaptics_rmi_hid_device_disable_sleep_byte (control_base : Nat)
    (c c1 : HidChannel) (b : Nat) (rest : List Nat) (hb : b < 256)
    (hread : fu_synaptics_rmi_device_read control_base 1 c = (.ok (b :: rest), c1)) :
    fu_synaptics_rmi_hid_device_disable_sleep (.ok control_base) c =
        fu_synaptics_rmi_device_write control_base (some (((b ||| 0x04) &&& 0xFC) :: rest))
          RmiFlags.none c1 ∧
      ((b ||| 0x04) &&& 0xFC) % 4 = 0 ∧ ((b ||| 0x04) &&& 0xFC) / 4 % 2 = 1 ∧
      ((b ||| 0x04) &&& 0xFC) / 8 = b / 8 ∧
      (rest = [] →
        fu_synaptics_rmi_hid_device_disable_sleep (.ok control_base) c =
          fu_synaptics_rmi_device_write control_base (some [(b ||| 0x04) &&& 0xFC])
            RmiFlags.none c1) ∧
      (∀ data c2, fu_synaptics_rmi_device_read control_base 1 c = (.ok data, c2) →
        data ≠ []) := by
  obtain ⟨h1, h2, h3, h4⟩ := disable_sleep_bits b hb
  have hmain : fu_synaptics_rmi_hid_device_disable_sleep (.ok control_base) c =
      fu_synaptics_rmi_device_write control_base (some (((b ||| 0x04) &&& 0xFC) :: rest))
        RmiFlags.none c1 := by
    unfold fu_synaptics_rmi_hid_device_disable_sleep
    simp only [hread, List.getD_cons_zero, List.set_cons_zero, RMI_F01_CRTL0_NOSLEEP_BIT,
      RMI_F01_CTRL0_SLEEP_MODE_MASK, RMI_SLEEP_MODE_NORMAL]
    have e : (1 <<< 2 : Nat) = 4 := by decide
    rw [e, h1]
  refine ⟨hmain, h2, h3, h4, ?_, ?_⟩
  · intro hrest
    rw [hmain, hrest]
  · intro data c2 h hnil
    obtain ⟨_, c3, hloop⟩ := fu_synaptics_rmi_hid_device_read_ok_inv control_base 1 c data c2 h
    have := fu_synaptics_rmi_hid_device_read_loop_ok_ge 1 c3 c.inputs [] data c2 hloop
    rw [hnil] at this
    simp at this

theorem fu_synaptics_rmi_hid_device_disable_sleep_byte_witness :
    fu_synaptics_rmi_hid_device_disable_sleep (.ok 0x0014)
          ⟨[], [], [.ok [0x0b, 1, 0x83]]⟩ =
        fu_synaptics_rmi_device_write 0x0014 (some (((0x83 ||| 0x04) &&& 0xFC) :: []))
          RmiFlags.none ⟨[fu_synaptics_rmi_hid_device_read_request 0x0014 1], [], []⟩ ∧
      ((0x83 ||| 0x04) &&& 0xFC) % 4 = 0 ∧ ((0x83 ||| 0x04) &&& 0xFC) / 4 % 2 = 1 ∧
      ((0x83 ||| 0x04) &&& 0xFC) / 8 = 0x83 / 8 ∧
      (([] : List Nat) = [] →
        fu_synaptics_rmi_hid_device_disable_sleep (.ok 0x0014)
            ⟨[], [], [.ok [0x0b, 1, 0x83]]⟩ =
          fu_synaptics_rmi_device_write 0x0014 (some [(0x83 ||| 0x04) &&& 0xFC])
            RmiFlags.none ⟨[fu_synaptics_rmi_hid_device_read_request 0x0014 1], [], []⟩) ∧
      (∀ data c2,
        fu_synaptics_rmi_device_read 0x0014 1 ⟨[], [], [.ok [0x0b, 1, 0x83]]⟩ =
          (.ok data, c2) → data ≠ []) :=
  fu_synaptics_rmi_hid_device_disable_sleep_byte 0x0014 ⟨[], [], [.ok [0x0b, 1, 0x83]]⟩
    ⟨[fu_synaptics_rmi_hid_device_read_request 0x0014 1], [], []⟩ 0x83 [] (by decide)
    (by decide)

/-- C29 (counterexample): the device answers the read of one byte with a data report that
carries two bytes, `01 77`: `disable_sleep` writes back two bytes, `04 77`, in a frame
whose length byte is 2. -/
theorem fu_synaptics_rmi_hid_device_disable_sleep_two_bytes_counterexample :
    fu_synaptics_rmi_hid_device_disable_sleep (.ok 0x0014)
        ⟨[], [], [.ok [0x0b, 2, 0x01, 0x77]]⟩ =
      (.ok (),
        ⟨[[0x0a, 0, 0x14, 0, 1, 0, 0, 0, 0, 0, 0, 0, 0, 0, 0, 0, 0, 0, 0, 0, 0],
          [0x09, 2, 0x14, 0, 0x04, 0x77, 0, 0, 0, 0, 0, 0, 0, 0, 0, 0, 0, 0, 0, 0, 0]],
          [], []⟩) := by
  decide

/-! ## HID transport: driver rebind -/

theorem splitSlash_no_slash (leaf : List Char) (hleaf : '/' ∉ leaf) :
    ∀ cur, splitSlash cur leaf = [cur.reverse ++ leaf] := by
  induction leaf with
  | nil => intro cur; simp [splitSlash]
  | cons c leaf ih =>
    intro cur
    have hc : c ≠ '/' := fun h => hleaf (by simp [h])
    have hl : '/' ∉ leaf := fun h => hleaf (by simp [h])
    unfold splitSlash
    rw [if_neg hc, ih hl]
    simp

theorem splitSlash_ne_nil (l : List Char) : ∀ cur, splitSlash cur l ≠ [] := by
  induction l with
  | nil => intro cur; simp [splitSlash]
  | cons c l ih =>
    intro cur
    unfold splitSlash
    split
    · simp
    · exact ih _

theorem splitSlash_getLast (leaf : List Char) (hleaf : '/' ∉ leaf) (pre : List Char) :
    ∀ cur, (splitSlash cur (pre ++ '/' :: leaf)).getLast? = some leaf := by
  induction pre with
  | nil =>
    intro cur
    simp only [List.nil_append]
    unfold splitSlash
    rw [if_pos rfl, splitSlash_no_slash leaf hleaf]
    simp
  | cons c pre ih =>
    intro cur
    rw [List.cons_append]
    unfold splitSlash
    split
    · obtain ⟨x, xs, hx⟩ := List.exists_cons_of_ne_nil
        (splitSlash_ne_nil (pre ++ '/' :: leaf) [])
      have h := ih []
      rw [hx] at h ⊢
      rw [List.getLast?_cons_cons]
      exact h
    · exact ih _

theorem g_strsplit_last (dir leaf : String) (hleaf : '/' ∉ leaf.data) :
    (g_strsplit (dir ++ "/" ++ leaf)).getLast? = some leaf := by
  have hdata : (dir ++ "/" ++ leaf).data = dir.data ++ '/' :: leaf.data := by
    simp
  unfold g_strsplit
  rw [hdata, if_neg (by simp), List.getLast?_map, splitSlash_getLast leaf.data hleaf]
  rfl

theorem dropWhile_no_slash (l : List Char) (h : '/' ∉ l) :
    (l.dropWhile fun c => decide (c = '/')) = l := by
  cases l with
  | nil => rfl
  | cons c l =>
    have hc : c ≠ '/' := fun hc => h (by simp [hc])
    exact List.dropWhile_cons_of_neg (by simpa using hc)

theorem trimSeparators_no_slash (l : List Char) (h : '/' ∉ l) : trimSeparators l = l := by
  unfold trimSeparators
  rw [dropWhile_no_slash l h, dropWhile_no_slash l.reverse (by simpa using h),
    List.reverse_reverse]

theorem g_build_filename_sysfs (sub drv last : String)
    (hsub : '/' ∉ sub.data) (hsub0 : sub.data ≠ [])
    (hdrv : '/' ∉ drv.data) (hdrv0 : drv.data ≠ [])
    (hlast : '/' ∉ last.data) (hlast0 : last.data ≠ []) :
    g_build_filename [some "/sys/bus/", some sub, some "drivers", some drv, some last] =
      "/sys/bus/" ++ sub ++ "/drivers/" ++ drv ++ "/" ++ last := by
  have h1 : trimSeparators "/sys/bus/".data = "sys/bus".data := by decide
  have h2 : trimSeparators "drivers".data = "drivers".data := by decide
  have h3 : ("/sys/bus/".data.takeWhile fun c => decide (c = '/')) = ['/'] := by decide
  have h4 : "sys/bus".data ≠ [] := by decide
  have h5 : "drivers".data ≠ [] := by decide
  apply String.ext
  simp only [g_build_filename, List.takeWhile_cons, Option.isSome_some, List.takeWhile_nil,
    List.filterMap_cons, id, List.filterMap_nil, List.map_cons, List.map_nil, h1, h2, h3,
    trimSeparators_no_slash _ hsub, trimSeparators_no_slash _ hdrv,
    trimSeparators_no_slash _ hlast, if_true]
  simp [List.filter, h4, h5, hsub0, hdrv0, hlast0, List.intercalate]

/-- C22: when the hid parent and a physical parent (i2c, else usb) are found, the HID
rebind sets `WAIT_FOR_REPLUG` before any sysfs write, then writes the physical id, the
last `/`-separated piece of the sysfs path of the physical parent, to
`/sys/bus/<subsystem>/drivers/<driver>/unbind` and then the same id to
`/sys/bus/<subsystem>/drivers/<driver>/bind`; if the write to `unbind` fails, its error
is returned and `bind` is not written. -/
theorem fu_synaptics_rmi_hid_device_rebind_driver_order (hid phys : UdevNode)
    (i2c usb : Option UdevNode) (d : HidNode) (dir leaf sub drv : String)
    (hphys : i2c = some phys ∨ (i2c = none ∧ usb = some phys))
    (hpath : phys.sysfsPath = dir ++ "/" ++ leaf) (hleaf : '/' ∉ leaf.data)
    (hsub : phys.subsystem = some sub) (hsub1 : '/' ∉ sub.data) (hsub0 : sub.data ≠ [])
    (hdrv : phys.driver = some drv) (hdrv1 : '/' ∉ drv.data) (hdrv0 : drv.data ≠ []) :
    (∀ e, d.extErrs.head? = some (some e) →
        fu_synaptics_rmi_hid_device_rebind_driver (.ok hid) i2c usb d =
          (.error e,
            ⟨d.events ++ [.waitForReplug,
              .writeln ("/sys/bus/" ++ sub ++ "/drivers/" ++ drv ++ "/" ++ "unbind") leaf],
              d.extErrs.tail⟩)) ∧
      ((∀ e, d.extErrs.head? ≠ some (some e)) →
        fu_synaptics_rmi_hid_device_rebind_driver (.ok hid) i2c usb d =
          HidNode.call
            (.writeln ("/sys/bus/" ++ sub ++ "/drivers/" ++ drv ++ "/" ++ "bind") leaf)
            ⟨d.events ++ [.waitForReplug,
              .writeln ("/sys/bus/" ++ sub ++ "/drivers/" ++ drv ++ "/" ++ "unbind") leaf],
              d.extErrs.tail⟩ ∧
        (fu_synaptics_rmi_hid_device_rebind_driver (.ok hid) i2c usb d).2.events =
          d.events ++ [.waitForReplug,
            .writeln ("/sys/bus/" ++ sub ++ "/drivers/" ++ drv ++ "/" ++ "unbind") leaf,
            .writeln ("/sys/bus/" ++ sub ++ "/drivers/" ++ drv ++ "/" ++ "bind") leaf]) := by
  have hu := g_build_filename_sysfs sub drv "unbind" hsub1 hsub0 hdrv1 hdrv0 (by decide)
    (by decide)
  have hb := g_build_filename_sysfs sub drv "bind" hsub1 hsub0 hdrv1 hdrv0 (by decide)
    (by decide)
  have hid_id := g_strsplit_last dir leaf hleaf
  have hunfold : fu_synaptics_rmi_hid_device_rebind_driver (.ok hid) i2c usb d =
      match (d.noted .waitForReplug).call
          (.writeln ("/sys/bus/" ++ sub ++ "/drivers/" ++ drv ++ "/" ++ "unbind") leaf) with
      | (.error e, d2) => (.error e, d2)
      | (.ok (), d2) =>
        d2.call (.writeln ("/sys/bus/" ++ sub ++ "/drivers/" ++ drv ++ "/" ++ "bind") leaf) := by
    unfold fu_synaptics_rmi_hid_device_rebind_driver
    rcases hphys with h | ⟨h1, h2⟩
    · subst h
      simp only [hpath, hid_id, hsub, hdrv, hu, hb]
    · subst h1
      subst h2
      simp only [hpath, hid_id, hsub, hdrv, hu, hb]
  rw [hunfold]
  constructor
  · intro e he
    simp [HidNode.call, HidNode.noted, he]
  · intro hne
    have hcall : (d.noted .waitForReplug).call
        (.writeln ("/sys/bus/" ++ sub ++ "/drivers/" ++ drv ++ "/" ++ "unbind") leaf) =
        (.ok (), ⟨d.events ++ [.waitForReplug,
          .writeln ("/sys/bus/" ++ sub ++ "/drivers/" ++ drv ++ "/" ++ "unbind") leaf],
          d.extErrs.tail⟩) := by
      unfold HidNode.call HidNode.noted
      split
      · rename_i e he
        exact absurd he (hne e)
      · simp
    rw [hcall]
    refine ⟨rfl, ?_⟩
    simp only [HidNode.call]
    split <;> simp

theorem fu_synaptics_rmi_hid_device_rebind_driver_order_witness :
    fu_synaptics_rmi_hid_device_rebind_driver
          (.ok ⟨"/sys/devices/i2c-1/i2c-SYNA0001:00/0018:06CB:CD41.0001", some "hid-rmi",
            some "hid"⟩)
          (some ⟨"/sys/devices/i2c-1" ++ "/" ++ "i2c-SYNA0001:00", some "i2c_hid_acpi",
            some "i2c"⟩) none ⟨[], [some .permissionDenied]⟩ =
        (.error .permissionDenied,
          ⟨[] ++ [.waitForReplug,
            .writeln ("/sys/bus/" ++ "i2c" ++ "/drivers/" ++ "i2c_hid_acpi" ++ "/" ++ "unbind")
              "i2c-SYNA0001:00"], [some FwupdError.permissionDenied].tail⟩) ∧
      fu_synaptics_rmi_hid_device_rebind_driver
          (.ok ⟨"/sys/devices/i2c-1/i2c-SYNA0001:00/0018:06CB:CD41.0001", some "hid-rmi",
            some "hid"⟩)
          (some ⟨"/sys/devices/i2c-1" ++ "/" ++ "i2c-SYNA0001:00", some "i2c_hid_acpi",
            some "i2c"⟩) none ⟨[], []⟩ =
        (.ok (),
          ⟨[.waitForReplug,
            .writeln "/sys/bus/i2c/drivers/i2c_hid_acpi/unbind" "i2c-SYNA0001:00",
            .writeln "/sys/bus/i2c/drivers/i2c_hid_acpi/bind" "i2c-SYNA0001:00"], []⟩) :=
  ⟨(fu_synaptics_rmi_hid_device_rebind_driver_order
      ⟨"/sys/devices/i2c-1/i2c-SYNA0001:00/0018:06CB:CD41.0001", some "hid-rmi", some "hid"⟩
      ⟨"/sys/devices/i2c-1" ++ "/" ++ "i2c-SYNA0001:00", some "i2c_hid_acpi", some "i2c"⟩
      (some ⟨"/sys/devices/i2c-1" ++ "/" ++ "i2c-SYNA0001:00", some "i2c_hid_acpi",
        some "i2c"⟩) none ⟨[], [some .permissionDenied]⟩
      "/sys/devices/i2c-1" "i2c-SYNA0001:00" "i2c" "i2c_hid_acpi"
      (Or.inl rfl) rfl (by decide) rfl (by decide) (by decide) rfl (by decide)
      (by decide)).1 .permissionDenied rfl,
    by decide⟩

/-! ## HID transport: the length of what a read returns -/

theorem fu_synaptics_rmi_hid_device_read_report_le (buf r buf1 : List Nat)
    (h : fu_synaptics_rmi_hid_device_read_report buf r = .ok buf1) :
    buf1.length ≤ buf.length + 255 := by
  rcases fu_synaptics_rmi_hid_device_read_report_ok buf r buf1 h with ⟨_, h1⟩ | ⟨_, h1⟩
  · rw [h1]; omega
  · rw [h1, List.length_append]
    have : (reportPayload r).length ≤ 255 := by
      unfold reportPayload
      rw [List.length_take]
      omega
    omega

theorem fu_synaptics_rmi_hid_device_read_loop_ok_le (n : Nat) (c : HidChannel)
    (ins : List (Res (List Nat))) :
    ∀ buf bytes c1, fu_synaptics_rmi_hid_device_read_loop n c buf ins = (.ok bytes, c1) →
      buf.length ≤ n + 254 → bytes.length ≤ n + 254 := by
  induction ins with
  | nil =>
    intro buf bytes c1 h hbuf
    unfold fu_synaptics_rmi_hid_device_read_loop at h
    split at h
    · simp at h
    · simp only [Prod.mk.injEq, Res.ok.injEq] at h
      rw [← h.1]; exact hbuf
  | cons r rest ih =>
    intro buf bytes c1 h hbuf
    by_cases hlt : buf.length < n
    · cases r with
      | error e =>
        rw [fu_synaptics_rmi_hid_device_read_loop_step_error n c buf e rest hlt] at h
        simp at h
      | ok res =>
        rw [fu_synaptics_rmi_hid_device_read_loop_step n c buf res rest hlt] at h
        cases hrep : fu_synaptics_rmi_hid_device_read_report buf res with
        | error e => rw [hrep] at h; simp at h
        | ok buf1 =>
          rw [hrep] at h
          have := fu_synaptics_rmi_hid_device_read_report_le buf res buf1 hrep
          exact ih buf1 bytes c1 h (by omega)
    · rw [fu_synaptics_rmi_hid_device_read_loop_done n c buf _ hlt] at h
      simp only [Prod.mk.injEq, Res.ok.injEq] at h
      rw [← h.1]; exact hbuf

theorem fu_synaptics_rmi_hid_device_read_loop_fill (n : Nat) (c : HidChannel) (p : List Nat)
    (hp : p.length = 255) (k : Nat) :
    ∀ buf, buf.length + k + 1 = n →
      fu_synaptics_rmi_hid_device_read_loop n c buf
          (List.replicate k (.ok [0x0b, 1, 0]) ++ [.ok (0x0b :: 255 :: p)]) =
        (.ok (buf ++ List.replicate k 0 ++ p), { c with inputs := [] }) := by
  induction k with
  | zero =>
    intro buf hn
    simp only [List.replicate_zero, List.nil_append, List.append_nil]
    rw [fu_synaptics_rmi_hid_device_read_loop_step n c buf _ [] (by omega),
      fu_synaptics_rmi_hid_device_read_report_data buf _ (by rfl)]
    have hcount : (0x0b :: 255 :: p).getD 1 0 % 256 = 255 := by rfl
    have hpay : reportPayload (0x0b :: 255 :: p) = p := by
      unfold reportPayload
      rw [hcount]
      simp only [List.drop_succ_cons, List.drop_zero]
      exact List.take_of_length_le (by omega)
    have hcond : ¬ ((0x0b :: 255 :: p).length < 2 ∨ (0x0b :: 255 :: p).getD 1 0 % 256 = 0 ∨
        (0x0b :: 255 :: p).getD 1 0 % 256 + 2 > (0x0b :: 255 :: p).length) := by
      rw [hcount]
      simp only [List.length_cons, hp]
      omega
    rw [if_neg hcond, hpay]
    simp only
    rw [fu_synaptics_rmi_hid_device_read_loop_done n c _ []
      (by rw [List.length_append, hp]; omega)]
  | succ k ih =>
    intro buf hn
    rw [List.replicate_succ, List.cons_append,
      fu_synaptics_rmi_hid_device_read_loop_step n c buf _ _ (by omega),
      fu_synaptics_rmi_hid_device_read_report_data buf _ (by rfl)]
    have hpay : reportPayload [0x0b, 1, 0] = [0] := by decide
    have hcond : ¬ (([0x0b, 1, 0] : List Nat).length < 2 ∨
        ([0x0b, 1, 0] : List Nat).getD 1 0 % 256 = 0 ∨
        ([0x0b, 1, 0] : List Nat).getD 1 0 % 256 + 2 > ([0x0b, 1, 0] : List Nat).length) := by
      decide
    rw [if_neg hcond, hpay]
    simp only
    rw [ih (buf ++ [0]) (by rw [List.length_append, List.length_singleton]; omega),
      List.replicate_succ]
    simp only [List.append_assoc, List.singleton_append]

/-- C31: a successful HID `read(addr, n)` has `n ≤ 0xFFFF` and returns `L` bytes with
`n ≤ L ≤ n + 254`, whatever input reports arrive; and the upper bound is reached for
every `n` from 1 to `0xFFFF`: when one byte is missing and the next report carries 255
bytes, all of its payload is kept and the result is not cut down to `n`. -/
theorem fu_synaptics_rmi_hid_device_read_length_bounds (addr n : Nat) (c : HidChannel)
    (bytes : List Nat) (c1 : HidChannel)
    (h : fu_synaptics_rmi_hid_device_read addr n c = (.ok bytes, c1)) :
    n ≤ 0xffff ∧ n ≤ bytes.length ∧ bytes.length ≤ n + 254 ∧
      ∀ m p, 1 ≤ m → m ≤ 0xffff → p.length = 255 →
        fu_synaptics_rmi_hid_device_read addr m
              ⟨[], [], List.replicate (m - 1) (.ok [0x0b, 1, 0]) ++ [.ok (0x0b :: 255 :: p)]⟩ =
            (.ok (List.replicate (m - 1) 0 ++ p),
              ⟨[fu_synaptics_rmi_hid_device_read_request addr m], [], []⟩) ∧
          (List.replicate (m - 1) 0 ++ p).length = m + 254 := by
  obtain ⟨hn, c2, hloop⟩ := fu_synaptics_rmi_hid_device_read_ok_inv addr n c bytes c1 h
  refine ⟨hn, fu_synaptics_rmi_hid_device_read_loop_ok_ge n c2 c.inputs [] bytes c1 hloop,
    fu_synaptics_rmi_hid_device_read_loop_ok_le n c2 c.inputs [] bytes c1 hloop
      (by rw [List.length_nil]; omega), ?_⟩
  intro m p h1 hm hp
  constructor
  · unfold fu_synaptics_rmi_hid_device_read
    rw [if_neg (by omega)]
    simp only [fu_io_channel_write_byte_array, List.head?_nil, List.tail_nil, List.nil_append]
    rw [fu_synaptics_rmi_hid_device_read_loop_fill m _ p hp (m - 1) []
      (by rw [List.length_nil]; omega)]
    simp only [List.nil_append]
  · rw [List.length_append, List.length_replicate, hp]
    omega

set_option maxRecDepth 100000 in
theorem fu_synaptics_rmi_hid_device_read_length_bounds_witness :
    3 ≤ 0xffff ∧ 3 ≤ ([0xa1, 0xa2] ++ List.replicate 255 7).length ∧
      ([0xa1, 0xa2] ++ List.replicate 255 7).length ≤ 3 + 254 ∧
      ∀ m p, 1 ≤ m → m ≤ 0xffff → p.length = 255 →
        fu_synaptics_rmi_hid_device_read 0x0014 m
              ⟨[], [], List.replicate (m - 1) (.ok [0x0b, 1, 0]) ++ [.ok (0x0b :: 255 :: p)]⟩ =
            (.ok (List.replicate (m - 1) 0 ++ p),
              ⟨[fu_synaptics_rmi_hid_device_read_request 0x0014 m], [], []⟩) ∧
          (List.replicate (m - 1) 0 ++ p).length = m + 254 :=
  fu_synaptics_rmi_hid_device_read_length_bounds 0x0014 3
    ⟨[], [], [.ok [0x0b, 2, 0xa1, 0xa2], .ok (0x0b :: 255 :: List.replicate 255 7)]⟩
    ([0xa1, 0xa2] ++ List.replicate 255 7)
    ⟨[fu_synaptics_rmi_hid_device_read_request 0x0014 3], [], []⟩ (by decide)

/-! ## PS/2 transport: the length of a write and the retry of a read -/

theorem write_rmi_register_take (K : RmiStruct) (addr : Nat) (buf : List Nat)
    (buflen timeout : Nat) (flags : RmiFlags) (s : Ps2State) :
    fu_synaptics_rmi_ps2_device_write_rmi_register K addr buf buflen timeout flags s =
      fu_synaptics_rmi_ps2_device_write_rmi_register K addr (buf.take buflen)
        (buf.take buflen).length timeout flags s := by
  unfold fu_synaptics_rmi_ps2_device_write_rmi_register
  rw [List.take_length]

/-- C32: the PS/2 `write` makes no check of the size and narrows the length of the payload
to 8 bits: a payload of `L` bytes is written as its first `L mod 256` bytes are, the
bytes after them having no effect; with the page set, IEP mode entered and a device that
acknowledges every byte it sends `E7 F3 addr` and the pair `F3 b` for these
`L mod 256` bytes only, and for a payload of 256 bytes it sends `E7 F3 addr` alone and
returns success. -/
theorem fu_synaptics_rmi_ps2_device_write_narrows (K : RmiStruct)
    (set_page : Nat → Ps2State → Ps2Out Unit) (addr : Nat) (req : List Nat)
    (flags : RmiFlags) (s s1 : Ps2State) (rest : List (Res Nat))
    (hpage : set_page ((addr % 65536) >>> 8) s = some (.ok (), s1))
    (hiep : s1.iepmode = true)
    (hrx : s1.rx = List.replicate (3 + 2 * (req.length % 256)) (.ok 0xfa) ++ rest)
    (hws : WritesSucceed s1) :
    fu_synaptics_rmi_ps2_device_write K set_page addr req flags s =
        fu_synaptics_rmi_ps2_device_write K set_page addr (req.take (req.length % 256)) flags
          s ∧
      (req.take (req.length % 256)).length = req.length % 256 ∧
      fu_synaptics_rmi_ps2_device_write K set_page addr req flags s =
        some (.ok (),
          s1.acked ([0xe7, 0xf3, addr &&& 0xff] ++
            (req.take (req.length % 256)).flatMap fun b => [0xf3, b]) rest) ∧
      (req.length = 256 →
        fu_synaptics_rmi_ps2_device_write K set_page addr req flags s =
          some (.ok (), s1.acked [0xe7, 0xf3, addr &&& 0xff] rest)) := by
  have hlen : (req.take (req.length % 256)).length = req.length % 256 := by
    rw [List.length_take]
    have := Nat.mod_le req.length 256
    omega
  have hmain : fu_synaptics_rmi_ps2_device_write K set_page addr req flags s =
      some (.ok (),
        s1.acked ([0xe7, 0xf3, addr &&& 0xff] ++
          (req.take (req.length % 256)).flatMap fun b => [0xf3, b]) rest) := by
    unfold fu_synaptics_rmi_ps2_device_write
    rw [hpage]
    simp only [Ps2Out.andThen]
    rw [write_rmi_register_take]
    exact write_rmi_register_acked K (addr &&& 0xff) (req.take (req.length % 256)) 1000 flags
      s1 rest hiep (by rw [hlen]; exact hrx) hws
  refine ⟨?_, hlen, hmain, ?_⟩
  · unfold fu_synaptics_rmi_ps2_device_write
    congr 1
    funext _ s2
    rw [write_rmi_register_take, hlen, Nat.mod_mod]
  · intro h256
    rw [hmain, h256]
    simp

set_option maxRecDepth 100000 in
theorem fu_synaptics_rmi_ps2_device_write_narrows_witness :
    fu_synaptics_rmi_ps2_device_write sampleStruct
          (fu_synaptics_rmi_device_set_page sampleStruct) 0x0114 (List.replicate 256 0xab)
          RmiFlags.none ⟨[], [], List.replicate 8 (.ok 0xfa), true⟩ =
        some (.ok (),
          ⟨[0xe7, 0xf3, 0xff, 0xf3, 0x01, 0xe7, 0xf3, 0x14], [], [], true⟩) ∧
      (List.replicate 256 0xab).length % 256 = 0 :=
  ⟨((fu_synaptics_rmi_ps2_device_write_narrows sampleStruct
      (fu_synaptics_rmi_device_set_page sampleStruct) 0x0114 (List.replicate 256 0xab)
      RmiFlags.none ⟨[], [], List.replicate 8 (.ok 0xfa), true⟩
      ⟨[0xe7, 0xf3, 0xff, 0xf3, 0x01], [], List.replicate 3 (.ok 0xfa), true⟩ []
      (by decide) rfl (by decide) (by intro e he; simp at he)).2.2.2
        (by decide)).trans (by decide),
    by decide⟩

theorem read_registers_error (K : RmiStruct) (addr : Nat) (n : Nat) :
    ∀ i buf s e t,
      fu_synaptics_rmi_ps2_device_read_registers K addr n i buf s = some (.error e, t) →
      ∃ j s2, i ≤ j ∧ j < i + n ∧
        fu_synaptics_rmi_ps2_device_read_rmi_register K (((addr &&& 0xff) + j) % 256) s2 =
          some (.error e, t) := by
  induction n with
  | zero =>
    intro i buf s e t h
    simp [fu_synaptics_rmi_ps2_device_read_registers] at h
  | succ n ih =>
    intro i buf s e t h
    unfold fu_synaptics_rmi_ps2_device_read_registers at h
    rcases Ps2Out.andThen_eq_some _ _ _ _ h with ⟨e1, hm, he⟩ | ⟨tmp, s1, _, hrest⟩
    · simp only [Res.error.injEq] at he
      subst he
      exact ⟨i, s, Nat.le_refl i, by omega, hm⟩
    · obtain ⟨j, s2, hij, hjn, hread⟩ := ih (i + 1) (buf ++ [tmp]) s1 e t hrest
      exact ⟨j, s2, by omega, by omega, hread⟩

theorem read_loop_eq_registers (K : RmiStruct) (addr req_sz fuel retries : Nat)
    (s : Ps2State) :
    fu_synaptics_rmi_ps2_device_read_loop K addr req_sz (fuel + 1) retries s =
      fu_synaptics_rmi_ps2_device_read_registers K addr req_sz 0 [] s := by
  unfold fu_synaptics_rmi_ps2_device_read_loop
  rcases hregs : fu_synaptics_rmi_ps2_device_read_registers K addr req_sz 0 [] s with
    _ | ⟨buf | e, s1⟩
  · rfl
  · obtain ⟨bs, hb, hlen, _⟩ := read_registers_ok K addr req_sz 0 [] s buf s1 hregs
    simp only [List.nil_append] at hb
    subst hb
    simp only [Ps2Out.andThen]
    rw [if_neg (by simp [hlen])]
  · rfl

/-- C33: for `req_sz < 2^32`, where the 32-bit counter of the inner loop reaches `req_sz`
unchanged, the PS/2 `read` is its page select followed by one pass of register reads:
the bytes gathered by the inner loop are always `req_sz` in number, so
the branch that retries on a length mismatch and fails with `INVALID_DATA` is never
taken; every error of `read` is the error of `set_page` or of a single-register read,
and `read` fails with `INVALID_DATA` only if one of these does. -/
theorem fu_synaptics_rmi_ps2_device_read_no_mismatch (K : RmiStruct)
    (set_page : Nat → Ps2State → Ps2Out Unit) (addr req_sz : Nat) (s : Ps2State)
    (hreq : req_sz < 4294967296) :
    req_sz % 4294967296 = req_sz ∧
      fu_synaptics_rmi_ps2_device_read K set_page addr req_sz s =
        (set_page ((addr % 65536) >>> 8) s).andThen
          (fun _ s1 => fu_synaptics_rmi_ps2_device_read_registers K addr req_sz 0 [] s1) ∧
      (∀ s1 buf t,
        fu_synaptics_rmi_ps2_device_read_registers K addr req_sz 0 [] s1 = some (.ok buf, t) →
          buf.length = req_sz) ∧
      (∀ e t, fu_synaptics_rmi_ps2_device_read K set_page addr req_sz s = some (.error e, t) →
        set_page ((addr % 65536) >>> 8) s = some (.error e, t) ∨
          ∃ i s2, i < req_sz ∧
            fu_synaptics_rmi_ps2_device_read_rmi_register K (((addr &&& 0xff) + i) % 256) s2 =
              some (.error e, t)) ∧
      ((∀ p s2 t, set_page p s2 ≠ some (.error .invalidData, t)) →
        (∀ a s2 t,
          fu_synaptics_rmi_ps2_device_read_rmi_register K a s2 ≠
            some (.error .invalidData, t)) →
        ∀ t, fu_synaptics_rmi_ps2_device_read K set_page addr req_sz s ≠
          some (.error .invalidData, t)) := by
  have heq : fu_synaptics_rmi_ps2_device_read K set_page addr req_sz s =
      (set_page ((addr % 65536) >>> 8) s).andThen fun _ s1 =>
        fu_synaptics_rmi_ps2_device_read_registers K addr req_sz 0 [] s1 := by
    unfold fu_synaptics_rmi_ps2_device_read
    congr 1
    funext _ s1
    exact read_loop_eq_registers K addr req_sz 2 0 s1
  have herr : ∀ e t,
      fu_synaptics_rmi_ps2_device_read K set_page addr req_sz s = some (.error e, t) →
      set_page ((addr % 65536) >>> 8) s = some (.error e, t) ∨
        ∃ i s2, i < req_sz ∧
          fu_synaptics_rmi_ps2_device_read_rmi_register K (((addr &&& 0xff) + i) % 256) s2 =
            some (.error e, t) := by
    intro e t h
    rw [heq] at h
    rcases Ps2Out.andThen_eq_some _ _ _ _ h with ⟨e1, hm, he⟩ | ⟨_, s1, _, hrest⟩
    · simp only [Res.error.injEq] at he
      subst he
      exact Or.inl hm
    · obtain ⟨j, s2, _, hj, hread⟩ := read_registers_error K addr req_sz 0 [] s1 e t hrest
      exact Or.inr ⟨j, s2, by omega, hread⟩
  refine ⟨Nat.mod_eq_of_lt hreq, heq, ?_, herr, ?_⟩
  · intro s1 buf t h
    obtain ⟨bs, hb, hlen, _⟩ := read_registers_ok K addr req_sz 0 [] s1 buf t h
    simp only [List.nil_append] at hb
    rw [hb, hlen]
  · intro hpage hreg t h
    rcases herr _ t h with h1 | ⟨i, s2, _, h2⟩
    · exact hpage _ _ _ h1
    · exact hreg _ _ _ h2

set_option maxRecDepth 100000 in
theorem fu_synaptics_rmi_ps2_device_read_no_mismatch_witness :
    fu_synaptics_rmi_ps2_device_read sampleStruct
          (fu_synaptics_rmi_device_set_page sampleStruct) 0x0114 2
          ⟨[], [], List.replicate 9 (.ok 0xfa) ++ [.ok 0x11] ++ List.replicate 4 (.ok 0xfa) ++
            [.ok 0x22], true⟩ =
        (fu_synaptics_rmi_device_set_page sampleStruct ((0x0114 % 65536) >>> 8)
          ⟨[], [], List.replicate 9 (.ok 0xfa) ++ [.ok 0x11] ++ List.replicate 4 (.ok 0xfa) ++
            [.ok 0x22], true⟩).andThen
          (fun _ s1 =>
            fu_synaptics_rmi_ps2_device_read_registers sampleStruct 0x0114 2 0 [] s1) ∧
      fu_synaptics_rmi_ps2_device_read sampleStruct
          (fu_synaptics_rmi_device_set_page sampleStruct) 0x0114 2
          ⟨[], [], List.replicate 9 (.ok 0xfa) ++ [.ok 0x11] ++ List.replicate 4 (.ok 0xfa) ++
            [.ok 0x22], true⟩ =
        some (.ok [0x11, 0x22],
          ⟨[0xe7, 0xf3, 0xff, 0xf3, 0x01, 0xe7, 0xf3, 0x14, 0xe9, 0xe7, 0xf3, 0x15, 0xe9], [],
            [], true⟩) :=
  ⟨(fu_synaptics_rmi_ps2_device_read_no_mismatch sampleStruct
      (fu_synaptics_rmi_device_set_page sampleStruct) 0x0114 2
      ⟨[], [], List.replicate 9 (.ok 0xfa) ++ [.ok 0x11] ++ List.replicate 4 (.ok 0xfa) ++
        [.ok 0x22], true⟩ (by decide)).2.1,
    by decide⟩

end SynapticsRmi
